import Mathlib

/-!
# Sentinel-aware Redis client (package mcredis) and the retry helper (package waitfor)

A shallow embedding of `mcredis/redissentinel.go`, `mcredis/mcredis.go`, `mcredis/error.go`
and `waitfor/waitfor.go`.

* The network is an abstract world state `σ`.  A dialer and a connection are records of
  state-passing functions, one field per method of the Go interface.
* Every call that leaves the client (dial, command, close, pool borrow, sleep) is appended to
  a log kept next to the world state, so that statements can count calls.
* A Go function that can panic returns an `Outcome`; loops that Go does not bound take fuel.
* `time.Duration` is an `Int` number of nanoseconds.

The second part of the definitions embeds the functions of the other packages that are
verified here, one namespace per Go package: the adaptors `redisadaptor`, `apidadaptor` and
`authzd` of package chaos, and the vendored `ln`, `go-envy` and `go-apid`.
-/

namespace Mcredis

set_option linter.dupNamespace false

/-! ## Values and errors -/

/-- Dynamic values carried by the Go type `interface{}` in command arguments and replies:
the untyped nil, a Go string, a byte slice, an integer, a redigo error reply and a slice of
values. -/
inductive Value where
  | nil
  | str (s : String)
  | bytes (s : String)
  | int (n : Int)
  | redisError (s : String)
  | array (xs : List Value)

mutual
/-- Decision procedure for equality of values. -/
def Value.decEq : (a b : Value) → Decidable (a = b)
  | .nil, .nil => isTrue rfl
  | .str s, .str t =>
    if h : s = t then isTrue (by rw [h]) else isFalse (by intro e; cases e; exact h rfl)
  | .bytes s, .bytes t =>
    if h : s = t then isTrue (by rw [h]) else isFalse (by intro e; cases e; exact h rfl)
  | .int s, .int t =>
    if h : s = t then isTrue (by rw [h]) else isFalse (by intro e; cases e; exact h rfl)
  | .redisError s, .redisError t =>
    if h : s = t then isTrue (by rw [h]) else isFalse (by intro e; cases e; exact h rfl)
  | .array xs, .array ys =>
    match Value.decEqList xs ys with
    | isTrue h => isTrue (by rw [h])
    | isFalse h => isFalse (by intro e; cases e; exact h rfl)
  | .nil, .str _ | .nil, .bytes _ | .nil, .int _ | .nil, .redisError _ | .nil, .array _ =>
    isFalse (by intro e; cases e)
  | .str _, .nil | .str _, .bytes _ | .str _, .int _ | .str _, .redisError _
  | .str _, .array _ => isFalse (by intro e; cases e)
  | .bytes _, .nil | .bytes _, .str _ | .bytes _, .int _ | .bytes _, .redisError _
  | .bytes _, .array _ => isFalse (by intro e; cases e)
  | .int _, .nil | .int _, .str _ | .int _, .bytes _ | .int _, .redisError _
  | .int _, .array _ => isFalse (by intro e; cases e)
  | .redisError _, .nil | .redisError _, .str _ | .redisError _, .bytes _
  | .redisError _, .int _ | .redisError _, .array _ => isFalse (by intro e; cases e)
  | .array _, .nil | .array _, .str _ | .array _, .bytes _ | .array _, .int _
  | .array _, .redisError _ => isFalse (by intro e; cases e)
/-- Decision procedure for equality of lists of values. -/
def Value.decEqList : (as bs : List Value) → Decidable (as = bs)
  | [], [] => isTrue rfl
  | [], _ :: _ => isFalse (by intro e; cases e)
  | _ :: _, [] => isFalse (by intro e; cases e)
  | a :: as, b :: bs =>
    match Value.decEq a b, Value.decEqList as bs with
    | isTrue h1, isTrue h2 => isTrue (by rw [h1, h2])
    | isFalse h1, _ => isFalse (by intro e; cases e; exact h1 rfl)
    | _, isFalse h2 => isFalse (by intro e; cases e; exact h2 rfl)
end

instance : DecidableEq Value := Value.decEq

/-- Go `error` values seen by the client: the four error types of `mcredis/error.go`, the
`TimeoutError` of `waitfor` (timeout `t`, message `m`), and any other error (from the
network or from redigo), known by its message. -/
inductive Error where
  | NoMasterNameError (s : String)
  | MasterNameNotKnownError (s : String)
  | MalformedServerNodeError (s : String)
  | NoSentinelFound (s : String)
  | TimeoutError (t : Int) (m : String)
  | other (s : String)
deriving DecidableEq

/-- The method `Error()` of each error type.  `durationString` stands for Go's
`time.Duration.String`, which `TimeoutError.Error` calls. -/
def Error.Error (durationString : Int → String) : Error → String
  | .NoMasterNameError s => s
  | .MasterNameNotKnownError s => s
  | .MalformedServerNodeError s => s
  | .NoSentinelFound s => s
  | .TimeoutError t m => "waitfor: timed out waiting " ++ durationString t ++ " " ++ m
  | .other s => s

/-- Go `strings.Contains`: `substr` occurs in `s`. -/
def stringsContains (s substr : String) : Bool :=
  s.data.tails.any (fun t => substr.data.isPrefixOf t)

/-- Result of running a Go function: it returns, it panics, or the model ran out of fuel. -/
inductive Outcome (α : Type) where
  | ret (a : α)
  | panic (msg : String)
  | outOfFuel
deriving DecidableEq

/-- One nanosecond count per `time.Millisecond`. -/
def Millisecond : Int := 1000000

/-! ## Connections, dialers and the call log -/

/-- The interface `Connection` of `connection.go`. -/
structure Connection (σ : Type) where
  Close : σ → Option Error × σ
  Do : String → List Value → σ → (Value × Option Error) × σ

/-- The interface `RedisDialer` of `redisdialer.go`.  A dialer returns either an error or a
connection: the client reads the connection only when the error is nil. -/
structure RedisDialer (σ : Type) where
  Dial : String → String → σ → Except Error (Connection σ) × σ
  DialTimeout :
    String → String → Int → Int → Int → σ → Except Error (Connection σ) × σ

/-- Calls that leave the client.  `Do` and `Close` name the address the connection was
opened to; `Get` is a borrow from the pool that dials `address`. -/
inductive Call where
  | Dial (connectionType address : String)
  | DialTimeout (connectionType address : String) (connectTimeout readTimeout writeTimeout : Int)
  | Do (address commandName : String) (args : List Value)
  | Close (address : String)
  | Get (address : String)
  | Sleep (d : Int)
  | RebuildConnectionPool
deriving DecidableEq

/-- The world state together with the log of calls made so far, oldest first. -/
structure St (σ : Type) where
  world : σ
  calls : List Call

/-- Number of `Dial` calls in a log. -/
def dialCount (calls : List Call) : Nat :=
  calls.countP (fun c => match c with | .Dial _ _ => true | _ => false)

/-- Number of `DialTimeout` calls in a log. -/
def dialTimeoutCount (calls : List Call) : Nat :=
  calls.countP (fun c => match c with | .DialTimeout _ _ _ _ _ => true | _ => false)

/-- Number of commands sent on connections in a log. -/
def doCount (calls : List Call) : Nat :=
  calls.countP (fun c => match c with | .Do _ _ _ => true | _ => false)

/-- Number of `RebuildConnectionPool` invocations in a log. -/
def rebuildCount (calls : List Call) : Nat :=
  calls.countP (fun c => match c with | .RebuildConnectionPool => true | _ => false)

/-- Call of `dialer.Dial`, logged. -/
def callDial {σ : Type} (d : RedisDialer σ) (connectionType address : String) (st : St σ) :
    Except Error (Connection σ) × St σ :=
  let out := d.Dial connectionType address st.world
  (out.1, ⟨out.2, st.calls ++ [Call.Dial connectionType address]⟩)

/-- Call of `dialer.DialTimeout`, logged. -/
def callDialTimeout {σ : Type} (d : RedisDialer σ) (connectionType address : String)
    (connectTimeout readTimeout writeTimeout : Int) (st : St σ) :
    Except Error (Connection σ) × St σ :=
  let out := d.DialTimeout connectionType address connectTimeout readTimeout writeTimeout st.world
  (out.1, ⟨out.2, st.calls ++
    [Call.DialTimeout connectionType address connectTimeout readTimeout writeTimeout]⟩)

/-- Call of `conn.Do` on a connection opened to `address`, logged. -/
def callDo {σ : Type} (conn : Connection σ) (address commandName : String) (args : List Value)
    (st : St σ) : (Value × Option Error) × St σ :=
  let out := conn.Do commandName args st.world
  (out.1, ⟨out.2, st.calls ++ [Call.Do address commandName args]⟩)

/-- Call of `conn.Close` on a connection opened to `address`, logged. -/
def callClose {σ : Type} (conn : Connection σ) (address : String) (st : St σ) : St σ :=
  ⟨(conn.Close st.world).2, st.calls ++ [Call.Close address]⟩

/-- Deferred `Close` calls of a function, run when it returns, the last deferred first. -/
def runDeferred {σ : Type} : List (Connection σ × String) → St σ → St σ
  | [], st => st
  | (conn, address) :: rest, st => runDeferred rest (callClose conn address st)

/-! ## The client -/

/-- The struct `RedisConfig` of `mcredis.go`. -/
structure RedisConfig where
  MasterName : String
  Nodes : List String
  CallTimeout : Int
  Timeout : Int
  PoolSize : Int
  MaxIdle : Int

/-- The `redis.Pool` built by `newPool`: its three numeric fields.  Its `Dial` closure dials
the client's `masterHost` and its `TestOnBorrow` closure sends `PING`; both are run by
redigo inside `Get`. -/
structure Pool where
  MaxIdle : Int
  IdleTimeout : Int
  MaxActive : Int
deriving DecidableEq

/-- The struct `RedisSentinel`; `connPool` is a pointer, nil until `initialize` succeeds. -/
structure RedisSentinel (σ : Type) where
  servers : List String
  masterHost : String
  masterPort : String
  masterName : String
  callTimeout : Int
  timeout : Int
  connPool : Option Pool
  poolSize : Int
  maxIdle : Int
  dialer : RedisDialer σ

/-- What the client takes from outside the repository: the redigo dialer wrapped by
`McRedisDialer`, redigo's `(*Pool).Get` (for a pool and the address its `Dial` closure
dials), the clock read by `time.After`, `time.Sleep`, and `time.Duration.String`. -/
structure Env (σ : Type) where
  McRedisDialer : RedisDialer σ
  poolGet : Pool → String → σ → Connection σ × σ
  now : σ → Int
  sleep : Int → σ → σ
  durationString : Int → String

/-- The function `redis.String` of redigo: a byte slice or a string converts to a string; an
error argument, a nil reply, an error reply and any other type give the empty string and an
error. -/
def redisString (reply : Value) (err : Option Error) : String × Option Error :=
  match err with
  | some e => ("", some e)
  | none =>
    match reply with
    | .bytes s => (s, none)
    | .str s => (s, none)
    | .nil => ("", some (Error.other "redigo: nil returned"))
    | .redisError s => ("", some (Error.other s))
    | _ => ("", some (Error.other "redigo: unexpected type for String"))

/-- The function `constructMasterAddress`: the type assertion panics unless the reply is a
slice, indexing panics on an empty slice, and the port is the constant `6379`. -/
def constructMasterAddress (masterAddr : Value) : Outcome String :=
  match masterAddr with
  | .array (first :: _) =>
    let masterAddrIP := (redisString first none).1
    let masterAddrPort := "6379"
    .ret (masterAddrIP ++ ":" ++ masterAddrPort)
  | .array [] => .panic "runtime error: index out of range"
  | _ => .panic "interface conversion: interface is not a slice"

/-- The method `getMasterAddressGivenClusterConnection`; `address` is where `clusterConn`
was opened to. -/
def getMasterAddressGivenClusterConnection {σ : Type} (r : RedisSentinel σ)
    (clusterConn : Connection σ) (address : String) (st : St σ) :
    Outcome (String × Option Error) × St σ :=
  if r.masterName = "" then
    (.ret ("", some (Error.NoMasterNameError
      "You must include a MasterName in your sentinel config")), st)
  else
    let out := callDo clusterConn address "SENTINEL"
      [Value.str "get-master-addr-by-name", Value.str r.masterName] st
    match out.1.2 with
    | some err => (.ret ("", some err), out.2)
    | none =>
      match out.1.1 with
      | .nil => (.ret ("", some (Error.MasterNameNotKnownError
          ("Sentinel does not know the master: " ++ r.masterName))), out.2)
      | masterAddr =>
        match constructMasterAddress masterAddr with
        | .ret a => (.ret (a, none), out.2)
        | .panic msg => (.panic msg, out.2)
        | .outOfFuel => (.outOfFuel, out.2)

/-- The method `confirmMasterConnection`. -/
def confirmMasterConnection {σ : Type} (r : RedisSentinel σ) (masterAddr : String)
    (st : St σ) : Bool × St σ :=
  let d := callDial r.dialer "tcp" masterAddr st
  match d.1 with
  | .error _ => (false, d.2)
  | .ok masterConn =>
    let out := callDo masterConn masterAddr "info" [Value.str "replication"] d.2
    let masterInfoString := (redisString out.1.1 out.1.2).1
    if !stringsContains masterInfoString "role:master" then (false, out.2) else (true, out.2)

/-- The statement after the loop of `connectAndGetMaster`, also reached by `break`. -/
def noSentinelFound : String × Option Error :=
  ("", some (Error.NoSentinelFound "Failed to connect to a sentinel"))

/-- The loop of `connectAndGetMaster` over the remaining servers.  The second argument and
the second component of the result are the deferred `Close` calls, the last deferred
first. -/
def connectAndGetMasterLoop {σ : Type} (r : RedisSentinel σ) :
    List String → List (Connection σ × String) → St σ →
    Outcome (String × Option Error) × List (Connection σ × String) × St σ
  | [], deferred, st => (.ret noSentinelFound, deferred, st)
  | server :: rest, deferred, st =>
    if !stringsContains server ":" then
      (.ret ("", some (Error.MalformedServerNodeError
        ("Node: " ++ server ++ " does not contain a port"))), deferred, st)
    else
      let d := callDialTimeout r.dialer "tcp" server (300 * Millisecond) 0 0 st
      match d.1 with
      | .error _ => (.ret noSentinelFound, deferred, d.2)
      | .ok initialConn =>
        let deferred1 := (initialConn, server) :: deferred
        let m := getMasterAddressGivenClusterConnection r initialConn server d.2
        match m.1 with
        | .panic msg => (.panic msg, deferred1, m.2)
        | .outOfFuel => (.outOfFuel, deferred1, m.2)
        | .ret (_, some _) => (.ret noSentinelFound, deferred1, m.2)
        | .ret (masterAddr, none) =>
          let c := confirmMasterConnection r masterAddr m.2
          if c.1 then (.ret (masterAddr, none), deferred1, c.2)
          else connectAndGetMasterLoop r rest deferred1 c.2

/-- The method `connectAndGetMaster`: the loop, then the deferred closes. -/
def connectAndGetMaster {σ : Type} (r : RedisSentinel σ) (st : St σ) :
    Outcome (String × Option Error) × St σ :=
  let out := connectAndGetMasterLoop r r.servers [] st
  (out.1, runDeferred out.2.1 out.2.2)

/-- The loop of `GetInfo` over the remaining servers, with its deferred closes. -/
def GetInfoLoop {σ : Type} (r : RedisSentinel σ) :
    List String → List (Connection σ × String) → St σ →
    Outcome (String × String) × List (Connection σ × String) × St σ
  | [], deferred, st => (.ret ("", ""), deferred, st)
  | server :: rest, deferred, st =>
    let d := callDialTimeout r.dialer "tcp" server (300 * Millisecond) 0 0 st
    match d.1 with
    | .error _ => GetInfoLoop r rest deferred d.2
    | .ok sentinelConn =>
      let deferred1 := (sentinelConn, server) :: deferred
      let out := callDo sentinelConn server "SENTINEL"
        [Value.str "get-master-addr-by-name", Value.str r.masterHost] d.2
      match out.1.2 with
      | some _ => GetInfoLoop r rest deferred1 out.2
      | none =>
        match constructMasterAddress out.1.1 with
        | .ret a => (.ret (a, server), deferred1, out.2)
        | .panic msg => (.panic msg, deferred1, out.2)
        | .outOfFuel => (.outOfFuel, deferred1, out.2)

/-- The method `GetInfo`: the loop, then the deferred closes. -/
def GetInfo {σ : Type} (r : RedisSentinel σ) (st : St σ) : Outcome (String × String) × St σ :=
  let out := GetInfoLoop r r.servers [] st
  (out.1, runDeferred out.2.1 out.2.2)

/-- The method `newPool`. -/
def newPool {σ : Type} (r : RedisSentinel σ) : Pool :=
  { MaxIdle := r.maxIdle, IdleTimeout := r.timeout, MaxActive := r.poolSize }

/-- The method `initialize` (a reserved word in Lean, hence the longer name): the receiver
after the call, and the error.  `masterHost` is
assigned whatever `connectAndGetMaster` returns, also next to an error. -/
def initializeSentinel {σ : Type} (r : RedisSentinel σ) (st : St σ) :
    Outcome (RedisSentinel σ × Option Error) × St σ :=
  let out := connectAndGetMaster r st
  match out.1 with
  | .panic msg => (.panic msg, out.2)
  | .outOfFuel => (.outOfFuel, out.2)
  | .ret (masterHost, some err) => (.ret ({ r with masterHost := masterHost }, some err), out.2)
  | .ret (masterHost, none) =>
    let r1 := { r with masterHost := masterHost }
    (.ret ({ r1 with connPool := some (newPool r1) }, none), out.2)

/-- The method `RebuildConnectionPool`, logged. -/
def RebuildConnectionPool {σ : Type} (r : RedisSentinel σ) (st : St σ) :
    Outcome (RedisSentinel σ × Option Error) × St σ :=
  initializeSentinel r ⟨st.world, st.calls ++ [Call.RebuildConnectionPool]⟩

/-- The struct literal at the head of `NewSentinel`. -/
def NewSentinel.rs {σ : Type} (env : Env σ) (conf : RedisConfig) : RedisSentinel σ :=
  { servers := conf.Nodes
    masterHost := ""
    masterPort := ""
    masterName := conf.MasterName
    callTimeout := conf.CallTimeout
    timeout := conf.Timeout
    connPool := none
    poolSize := conf.PoolSize
    maxIdle := conf.MaxIdle
    dialer := env.McRedisDialer }

/-- The function `NewSentinel`: the client pointer (nil is `none`) and the error. -/
def NewSentinel {σ : Type} (env : Env σ) (conf : RedisConfig) (st : St σ) :
    Outcome (Option (RedisSentinel σ) × Option Error) × St σ :=
  let out := initializeSentinel (NewSentinel.rs env conf) st
  match out.1 with
  | .panic msg => (.panic msg, out.2)
  | .outOfFuel => (.outOfFuel, out.2)
  | .ret (_, some err) => (.ret (none, some err), out.2)
  | .ret (rs, none) => (.ret (some rs, none), out.2)

/-- The struct `RedisInstance`: the embedded `RedisCommander` interface value, nil in the
zero value. -/
structure RedisInstance (commander : Type) where
  RedisCommander : Option commander

/-- The function `NewMcRedis`. -/
def NewMcRedis {σ : Type} (env : Env σ) (conf : RedisConfig) (st : St σ) :
    Outcome (RedisInstance (RedisSentinel σ) × Option Error) × St σ :=
  let out := NewSentinel env conf st
  match out.1 with
  | .panic msg => (.panic msg, out.2)
  | .outOfFuel => (.outOfFuel, out.2)
  | .ret (_, some err) => (.ret (⟨none⟩, some err), out.2)
  | .ret (rs, none) => (.ret (⟨rs⟩, none), out.2)

/-! ## The retry helper of package waitfor -/

/-- The function `newTimeoutError`. -/
def newTimeoutError (timeout : Int) (additionalMessage : String) : Error :=
  Error.TimeoutError timeout additionalMessage

/-- The message `Func` puts in its `TimeoutError`, from the last error it received. -/
def timeoutMessage (durationString : Int → String) (lastError : Option Error) : String :=
  match lastError with
  | some e => "; last error: " ++ "\x27" ++ e.Error durationString ++ "\x27"
  | none => "; function did not return"

/-- The loop of `waitfor.Func`.  Each round runs `f`; the `select` takes the timer branch
when the deadline (the clock at entry plus `timeout`) has been reached by the time `f` has
returned, and the result of `f` otherwise.  `f` returns its error together with the values
`b` it assigns to variables of its caller.  The loop answers the error of `Func` and the
values assigned by the last run whose result was received.  A run that is still in flight
when the timer fires assigns its values when it completes, concurrently with the caller:
whether the caller reads them is a race, and the values answered next to a `TimeoutError`
are those the caller holds when it reads before that run completes.  Assumed of the
scheduler: the receiver is waiting when `f` returns, and the timer wins a tie. -/
def FuncLoop {σ β : Type} (env : Env σ) (f : St σ → Outcome (Option Error × β) × St σ)
    (interval timeout deadline : Int) :
    Nat → Option Error → Option β → St σ → Outcome (Option Error × Option β) × St σ
  | 0, _, _, st => (.outOfFuel, st)
  | fuel + 1, lastError, last, st =>
    let out := f st
    match out.1 with
    | .panic msg => (.panic msg, out.2)
    | .outOfFuel => (.outOfFuel, out.2)
    | .ret (err, b) =>
      if deadline ≤ env.now out.2.world then
        (.ret (some (newTimeoutError timeout (timeoutMessage env.durationString lastError)),
          last), out.2)
      else
        match err with
        | none => (.ret (none, some b), out.2)
        | some e =>
          FuncLoop env f interval timeout deadline fuel (some e) (some b)
            ⟨env.sleep interval out.2.world, out.2.calls ++ [Call.Sleep interval]⟩

/-- The function `waitfor.Func`: it panics when `interval > timeout`, else it runs the
loop against the deadline. -/
def Func {σ β : Type} (env : Env σ) (f : St σ → Outcome (Option Error × β) × St σ)
    (interval timeout : Int) (fuel : Nat) (st : St σ) :
    Outcome (Option Error × Option β) × St σ :=
  if interval > timeout then
    (.panic ("waitfor: interval (" ++ env.durationString interval ++
      ") must be shorter than timeout (" ++ env.durationString timeout ++ ")"), st)
  else
    FuncLoop env f interval timeout (env.now st.world + timeout) fuel none none st

/-! ## Commands -/

/-- The method `getConn`: `r.connPool.Get()` with a nil error; a nil pool pointer panics. -/
def getConn {σ : Type} (env : Env σ) (r : RedisSentinel σ) (st : St σ) :
    Outcome (Option Error × Connection σ) × St σ :=
  match r.connPool with
  | none => (.panic "runtime error: invalid memory address or nil pointer dereference", st)
  | some pool =>
    let out := env.poolGet pool r.masterHost st.world
    (.ret (none, out.1), ⟨out.2, st.calls ++ [Call.Get r.masterHost]⟩)

/-- The marker of a write sent to a replica, as tested by `Do`. -/
def readOnlyMarker : String := "You can\x27t write against a read only slave."

/-- The method `Do`: the result, the error, and the receiver after the call.  The fuel
bounds the recursion of `Do` and the rounds of each `waitfor.Func`.  The deferred
`conn.Close()` runs on every way out that follows it.  On the ways out that follow a
`TimeoutError` of the command, `result` is the reply of the last execution `waitfor.Func`
received; an execution still in flight at the timeout assigns `result` when it completes,
which may be before `Do` returns: that race is not modelled. -/
def Do {σ : Type} (env : Env σ) :
    Nat → RedisSentinel σ → String → List Value → St σ →
    Outcome ((Value × Option Error) × RedisSentinel σ) × St σ
  | 0, _, _, _, st => (.outOfFuel, st)
  | fuel + 1, r, action, params, st =>
    let g := Func env (getConn env r) (1 * Millisecond) r.callTimeout (fuel + 1) st
    match g.1 with
    | .panic msg => (.panic msg, g.2)
    | .outOfFuel => (.outOfFuel, g.2)
    | .ret (some err, _) => (.ret ((Value.nil, some err), r), g.2)
    | .ret (none, none) =>
      (.panic "runtime error: invalid memory address or nil pointer dereference", g.2)
    | .ret (none, some conn) =>
      let e := Func env
        (fun s =>
          let out := callDo conn r.masterHost action params s
          (Outcome.ret (out.1.2, out.1.1), out.2))
        (1 * Millisecond) r.callTimeout (fuel + 1) g.2
      match e.1 with
      | .panic msg => (.panic msg, callClose conn r.masterHost e.2)
      | .outOfFuel => (.outOfFuel, e.2)
      | .ret (none, result) =>
        (.ret ((result.getD Value.nil, none), r), callClose conn r.masterHost e.2)
      | .ret (some err, result) =>
        if stringsContains (err.Error env.durationString) readOnlyMarker then
          let rb := RebuildConnectionPool r e.2
          match rb.1 with
          | .panic msg => (.panic msg, callClose conn r.masterHost rb.2)
          | .outOfFuel => (.outOfFuel, rb.2)
          | .ret (r1, some err1) =>
            (.ret ((result.getD Value.nil, some err1), r1), callClose conn r.masterHost rb.2)
          | .ret (r1, none) =>
            let again := Do env fuel r1 action params rb.2
            match again.1 with
            | .panic msg => (.panic msg, callClose conn r.masterHost again.2)
            | .outOfFuel => (.outOfFuel, again.2)
            | .ret res => (.ret res, callClose conn r.masterHost again.2)
        else
          (.ret ((result.getD Value.nil, some err), r), callClose conn r.masterHost e.2)

/-! ## Test doubles, after package fake -/

/-- A connection over a world that is a clock: every command takes `latency` nanoseconds
and is answered by `reply`; `Close` succeeds (as `FakeConnection.Close`). -/
def fakeConnection (latency : Int) (reply : String → List Value → Value × Option Error) :
    Connection Int :=
  { Close := fun w => (none, w)
    Do := fun commandName args w => (reply commandName args, w + latency) }

/-- A dialer over the clock world, answering by address. -/
def fakeDialer (dial dialTimeout : String → Except Error (Connection Int)) : RedisDialer Int :=
  { Dial := fun _ address w => (dial address, w)
    DialTimeout := fun _ address _ _ _ w => (dialTimeout address, w) }

/-- An environment over the clock world: the given dialer, a pool that hands out
`poolConn`, and a duration printer that only knows `1ms`. -/
def fakeEnv (dialer : RedisDialer Int) (poolConn : Connection Int) : Env Int :=
  { McRedisDialer := dialer
    poolGet := fun _ _ w => (poolConn, w)
    now := fun w => w
    sleep := fun d w => w + d
    durationString := fun _ => "1ms" }

/-- A sentinel that answers every command with the address `ip`, `port`. -/
def fakeSentinel (ip port : String) : Connection Int :=
  fakeConnection 0 (fun _ _ => (Value.array [Value.bytes ip, Value.bytes port], none))

/-- A Redis node that answers every command with the text `info`. -/
def fakeRedis (info : String) : Connection Int :=
  fakeConnection 0 (fun _ _ => (Value.bytes info, none))

/-- The start state: clock zero, empty log. -/
def st0 : St Int := ⟨0, []⟩

/-- A client as `NewSentinel` builds it before `initialize`, with the given dialer. -/
def sentinelWith (dialer : RedisDialer Int) (masterName : String) (servers : List String) :
    RedisSentinel Int :=
  { servers := servers, masterHost := "", masterPort := "", masterName := masterName,
    callTimeout := 0, timeout := 0, connPool := none, poolSize := 0, maxIdle := 0,
    dialer := dialer }

/-- The scenario of the spec: `bad:1` cannot be dialed, `good:2` answers `10.0.0.5`, `6379`,
and `10.0.0.5:6379` reports `role:master`. -/
def badGoodDialer : RedisDialer Int :=
  fakeDialer
    (fun address =>
      if address = "10.0.0.5:6379" then .ok (fakeRedis "role:master")
      else .error (Error.other "master connection error"))
    (fun address =>
      if address = "good:2" then .ok (fakeSentinel "10.0.0.5" "6379")
      else .error (Error.other "sentinel connection error"))

/-- A configuration with the given master name and nodes, and zero for the rest. -/
def confWith (masterName : String) (nodes : List String) : RedisConfig :=
  { MasterName := masterName, Nodes := nodes, CallTimeout := 0, Timeout := 0,
    PoolSize := 0, MaxIdle := 0 }

/-- A dialer whose every sentinel can be dialed and answers every command with a nil
reply and a nil error; no master can be dialed. -/
def nilReplyDialer : RedisDialer Int :=
  fakeDialer
    (fun _ => .error (Error.other "master connection error"))
    (fun _ => .ok (fakeConnection 0 (fun _ _ => (Value.nil, none))))

/-- The connection of `redissentinel_test.go`: `SENTINEL` is answered with `masterAddr`,
`port`, and any other command with the text `role`. -/
def testRedis (role : String) : Connection Int :=
  fakeConnection 0 (fun commandName _ =>
    if commandName = "SENTINEL" then (Value.array [Value.str "masterAddr", Value.str "port"], none)
    else (Value.str role, none))

/-- The dialer of `redissentinel_test.go`: `badMasterAddr:port` and `badSentinel` cannot be
dialed, every other address gives the test connection. -/
def testDialer (role : String) : RedisDialer Int :=
  fakeDialer
    (fun address =>
      if address = "badMasterAddr:port" then .error (Error.other "master connection error")
      else .ok (testRedis role))
    (fun address =>
      if address = "badSentinel" then .error (Error.other "sentinel connection error")
      else .ok (testRedis role))

/-- Two sentinels: `stale:1` reports `10.0.0.9`, a node that says `role:slave`; `good:2`
reports `10.0.0.5`, a node that says `role:master`.  Nothing else can be dialed. -/
def staleGoodDialer : RedisDialer Int :=
  fakeDialer
    (fun address =>
      if address = "10.0.0.9:6379" then .ok (fakeRedis "role:slave")
      else if address = "10.0.0.5:6379" then .ok (fakeRedis "role:master")
      else .error (Error.other "master connection error"))
    (fun address =>
      if address = "stale:1" then .ok (fakeSentinel "10.0.0.9" "6379")
      else if address = "good:2" then .ok (fakeSentinel "10.0.0.5" "6379")
      else .error (Error.other "sentinel connection error"))

/-- A client in the state `NewSentinel` leaves it in, with master `10.0.0.5:6379`, a pool
and the given call timeout. -/
def readyClient (callTimeout : Int) : RedisSentinel Int :=
  { servers := ["good:2"], masterHost := "10.0.0.5:6379", masterPort := "",
    masterName := "mymaster", callTimeout := callTimeout, timeout := 0,
    connPool := some ⟨0, 0, 0⟩, poolSize := 0, maxIdle := 0, dialer := badGoodDialer }

/-- A pooled connection that answers every command with `OK` after `latency`
nanoseconds. -/
def okConnection (latency : Int) : Connection Int :=
  fakeConnection latency (fun _ _ => (Value.str "OK", none))

/-! ## The typed methods of `mcredis.go` -/

/-- The interface `RedisCommander` of `mcredis.go`.  The state `τ` holds what the commander
reads and changes: for the sentinel client, its struct and the network. -/
structure RedisCommander (τ : Type) where
  Do : String → List Value → τ → Outcome (Value × Option Error) × τ
  GetInfo : τ → Outcome (String × String) × τ

/-- Apply a function to the values a call returns; a panic stays a panic. -/
def Outcome.map {α β : Type} (f : α → β) : Outcome α → Outcome β
  | .ret a => .ret (f a)
  | .panic msg => .panic msg
  | .outOfFuel => .outOfFuel

/-- What the reply helpers of redigo take from outside: the bit size of the Go type `int`,
`strconv.ParseInt(s, 10, 0)` and `strconv.ParseBool`. -/
structure Strconv where
  intSize : Nat
  ParseInt : String → Int × Option Error
  ParseBool : String → Bool × Option Error

/-- The Go conversion `int(reply)` of an `int64`: the value wrapped to `intSize` bits, two's
complement. -/
def toInt (intSize : Nat) (n : Int) : Int :=
  (n + 2 ^ (intSize - 1)) % 2 ^ intSize - 2 ^ (intSize - 1)

/-- The function `redis.Int` of redigo (`github.com/garyburd/redigo/redis`, which `mcredis.go`
imports): an error is passed on with 0; an `int64` reply is converted with `int(reply)` and
refused with `strconv.ErrRange` when the conversion changes it; a `[]byte` reply is parsed;
a nil reply is `ErrNil`; an error reply is returned as the error. -/
def redisInt (sc : Strconv) (reply : Value) (err : Option Error) : Int × Option Error :=
  match err with
  | some e => (0, some e)
  | none =>
    match reply with
    | .int n =>
      let x := toInt sc.intSize n
      if x ≠ n then (0, some (Error.other "value out of range")) else (x, none)
    | .bytes s => sc.ParseInt s
    | .nil => (0, some (Error.other "redigo: nil returned"))
    | .redisError s => (0, some (Error.other s))
    | _ => (0, some (Error.other "redigo: unexpected type for Int"))

/-- The function `redis.Bool` of redigo. -/
def redisBool (sc : Strconv) (reply : Value) (err : Option Error) : Bool × Option Error :=
  match err with
  | some e => (false, some e)
  | none =>
    match reply with
    | .int n => (n != 0, none)
    | .bytes s => sc.ParseBool s
    | .nil => (false, some (Error.other "redigo: nil returned"))
    | .redisError s => (false, some (Error.other s))
    | _ => (false, some (Error.other "redigo: unexpected type for Bool"))

/-- The loop of `redis.Strings` over the elements of a reply: a nil element leaves the
empty string, a byte slice is converted, anything else is an error. -/
def redisStringsLoop : List Value → List String × Option Error
  | [] => ([], none)
  | .nil :: rest =>
    match redisStringsLoop rest with
    | (_, some e) => ([], some e)
    | (xs, none) => ("" :: xs, none)
  | .bytes p :: rest =>
    match redisStringsLoop rest with
    | (_, some e) => ([], some e)
    | (xs, none) => (p :: xs, none)
  | _ :: _ => ([], some (Error.other "redigo: unexpected element type for Strings"))

/-- The function `redis.Strings` of redigo; the nil slice is the empty list. -/
def redisStrings (reply : Value) (err : Option Error) : List String × Option Error :=
  match err with
  | some e => ([], some e)
  | none =>
    match reply with
    | .array xs => redisStringsLoop xs
    | .nil => ([], some (Error.other "redigo: nil returned"))
    | .redisError s => ([], some (Error.other s))
    | _ => ([], some (Error.other "redigo: unexpected type for Strings"))

/-- The method `Do` that `RedisInstance` has from its embedded `RedisCommander`; the call
panics when the interface value is nil. -/
def RedisInstance.Do {τ : Type} (r : RedisInstance (Mcredis.RedisCommander τ)) (action : String)
    (params : List Value) (s : τ) : Outcome (Value × Option Error) × τ :=
  match r.RedisCommander with
  | none => (.panic "runtime error: invalid memory address or nil pointer dereference", s)
  | some c => c.Do action params s

/-- The method `RedisInstance.Set`. -/
def RedisInstance.Set {τ : Type} (r : RedisInstance (Mcredis.RedisCommander τ)) (key : String)
    (value : Value) (s : τ) : Outcome (Option Error) × τ :=
  let out := r.Do "SET" [Value.str key, value] s
  (out.1.map (fun res => res.2), out.2)

/-- The method `RedisInstance.Del`. -/
def RedisInstance.Del {τ : Type} (r : RedisInstance (Mcredis.RedisCommander τ)) (key : String)
    (s : τ) : Outcome (Option Error) × τ :=
  let out := r.Do "DEL" [Value.str key] s
  (out.1.map (fun res => res.2), out.2)

/-- The method `RedisInstance.Decr`. -/
def RedisInstance.Decr {τ : Type} (sc : Strconv) (r : RedisInstance (Mcredis.RedisCommander τ))
    (key : String) (s : τ) : Outcome (Int × Option Error) × τ :=
  let out := r.Do "DECR" [Value.str key] s
  (out.1.map (fun res => redisInt sc res.1 res.2), out.2)

/-- The method `RedisInstance.Incr`. -/
def RedisInstance.Incr {τ : Type} (sc : Strconv) (r : RedisInstance (Mcredis.RedisCommander τ))
    (key : String) (s : τ) : Outcome (Int × Option Error) × τ :=
  let out := r.Do "INCR" [Value.str key] s
  (out.1.map (fun res => redisInt sc res.1 res.2), out.2)

/-- The method `RedisInstance.Get`. -/
def RedisInstance.Get {τ : Type} (r : RedisInstance (Mcredis.RedisCommander τ)) (key : String)
    (s : τ) : Outcome (Value × Option Error) × τ :=
  r.Do "GET" [Value.str key] s

/-- The method `RedisInstance.GetInt`. -/
def RedisInstance.GetInt {τ : Type} (sc : Strconv) (r : RedisInstance (Mcredis.RedisCommander τ))
    (key : String) (s : τ) : Outcome (Int × Option Error) × τ :=
  let out := r.Do "GET" [Value.str key] s
  (out.1.map (fun res => redisInt sc res.1 res.2), out.2)

/-- The method `RedisInstance.Expire`. -/
def RedisInstance.Expire {τ : Type} (sc : Strconv) (r : RedisInstance (Mcredis.RedisCommander τ))
    (key : String) (ttl : Int) (s : τ) : Outcome (Int × Option Error) × τ :=
  let out := r.Do "EXPIRE" [Value.str key, Value.int ttl] s
  (out.1.map (fun res => redisInt sc res.1 res.2), out.2)

/-- The method `RedisInstance.Exists`. -/
def RedisInstance.Exists {τ : Type} (sc : Strconv) (r : RedisInstance (Mcredis.RedisCommander τ))
    (key : String) (s : τ) : Outcome (Bool × Option Error) × τ :=
  let out := r.Do "EXISTS" [Value.str key] s
  (out.1.map (fun res => redisBool sc res.1 res.2), out.2)

/-- The method `RedisInstance.SetDiff`: the arguments are `key` followed by `keys`. -/
def RedisInstance.SetDiff {τ : Type} (r : RedisInstance (Mcredis.RedisCommander τ)) (key : String)
    (keys : List String) (s : τ) : Outcome (List String × Option Error) × τ :=
  let out := r.Do "SDIFF" (Value.str key :: keys.map Value.str) s
  (out.1.map (fun res => redisStrings res.1 res.2), out.2)

/-- The method `RedisInstance.GetMembersOfSet`. -/
def RedisInstance.GetMembersOfSet {τ : Type} (r : RedisInstance (Mcredis.RedisCommander τ))
    (key : String) (s : τ) : Outcome (List String × Option Error) × τ :=
  let out := r.Do "SMEMBERS" [Value.str key] s
  (out.1.map (fun res => redisStrings res.1 res.2), out.2)

/-- Modelled from the spec: the method `RedisInstance.SetAdd`, which `mcredis.go` does not
define (only `rediscommander_test.go` calls it).  Spec 4.5: `SetAdd(key, ...members)`
issues `SADD key members...` and returns the error only. -/
def RedisInstance.SetAdd {τ : Type} (r : RedisInstance (Mcredis.RedisCommander τ)) (key : String)
    (members : List String) (s : τ) : Outcome (Option Error) × τ :=
  let out := r.Do "SADD" (Value.str key :: members.map Value.str) s
  (out.1.map (fun res => res.2), out.2)

/-- The sentinel client seen through the interface `RedisCommander`: the state is the
struct the pointer refers to, and the network.  `fuel` is the fuel given to each `Do`. -/
def sentinelCommander {σ : Type} (env : Env σ) (fuel : Nat) :
    RedisCommander (RedisSentinel σ × St σ) :=
  { Do := fun action params s =>
      let out := Do env fuel s.1 action params s.2
      match out.1 with
      | .ret (res, r1) => (.ret res, (r1, out.2))
      | .panic msg => (.panic msg, (s.1, out.2))
      | .outOfFuel => (.outOfFuel, (s.1, out.2))
    GetInfo := fun s =>
      let out := GetInfo s.1 s.2
      (out.1, (s.1, out.2)) }

/-- A commander that also records, oldest first, the `Do` calls made on it. -/
def loggedCommander {τ : Type} (c : RedisCommander τ) :
    RedisCommander (τ × List (String × List Value)) :=
  { Do := fun action params s =>
      let out := c.Do action params s.1
      (out.1, (out.2, s.2 ++ [(action, params)]))
    GetInfo := fun s =>
      let out := c.GetInfo s.1
      (out.1, (out.2, s.2)) }

/-! ## Test doubles for failover -/

/-- The error a replica gives to a write. -/
def readOnlyError : Error :=
  Error.other "READONLY You can\x27t write against a read only slave."

/-- A replica: every command is answered at once with the read-only error. -/
def readOnlyConnection : Connection Int :=
  fakeConnection 0 (fun _ _ => (Value.nil, some readOnlyError))

/-- A node that answers with the read-only error while the clock is before `healAt`, and
with `OK` from then on; every answer is immediate. -/
def healingConnection (healAt : Int) : Connection Int :=
  { Close := fun w => (none, w)
    Do := fun _ _ w =>
      if w < healAt then ((Value.nil, some readOnlyError), w) else ((Value.str "OK", none), w) }

/-- An environment over the clock world whose pool hands out `conns address` for a pool
that dials `address`. -/
def failoverEnv (dialer : RedisDialer Int) (conns : String → Connection Int) : Env Int :=
  { McRedisDialer := dialer
    poolGet := fun _ address w => (conns address, w)
    now := fun w => w
    sleep := fun d w => w + d
    durationString := fun _ => "1ms" }

/-- After a failover: `10.0.0.5:6379` is the master and answers `OK`, every other node is a
replica. -/
def failoverConns (address : String) : Connection Int :=
  if address = "10.0.0.5:6379" then okConnection 0 else readOnlyConnection

/-- A client still bound to the demoted master `10.0.0.9:6379`, with a pool, the given call
timeout and the given sentinel list; its dialer is `badGoodDialer`. -/
def staleClient (callTimeout : Int) (servers : List String) : RedisSentinel Int :=
  { servers := servers, masterHost := "10.0.0.9:6379", masterPort := "",
    masterName := "mymaster", callTimeout := callTimeout, timeout := 0,
    connPool := some ⟨0, 0, 0⟩, poolSize := 0, maxIdle := 0, dialer := badGoodDialer }

/-- A 64-bit platform with parsers that are not consulted by integer replies. -/
def strconv64 : Strconv :=
  { intSize := 64
    ParseInt := fun _ => (0, some (Error.other "strconv.ParseInt: invalid syntax"))
    ParseBool := fun _ => (false, some (Error.other "strconv.ParseBool: invalid syntax")) }

/-- A commander over a counter: each `Do` adds one to the counter and is answered by
`reply`. -/
def fakeCommander (reply : String → List Value → Value × Option Error) :
    RedisCommander Nat :=
  { Do := fun action params n => (.ret (reply action params), n + 1)
    GetInfo := fun n => (.ret ("", ""), n) }

/-- An environment like `fakeEnv` whose duration printer knows `0s` and `1ms`. -/
def printingEnv (dialer : RedisDialer Int) (poolConn : Connection Int) : Env Int :=
  { McRedisDialer := dialer
    poolGet := fun _ _ w => (poolConn, w)
    now := fun w => w
    sleep := fun d w => w + d
    durationString := fun d => if d = 0 then "0s" else "1ms" }

/-- A node that answers every command at once with the error `msg`. -/
def failingConnection (msg : String) : Connection Int :=
  fakeConnection 0 (fun _ _ => (Value.nil, some (Error.other msg)))

/-- A node that refuses the connection while the clock is before `loadingAt` and reports
that it is loading from then on; every answer is immediate and an error. -/
def startingConnection (loadingAt : Int) : Connection Int :=
  { Close := fun w => (none, w)
    Do := fun _ _ w =>
      if w < loadingAt then ((Value.nil, some (Error.other "connection refused")), w)
      else ((Value.nil, some (Error.other "LOADING Redis is loading the dataset in memory")), w) }

/-! ## Predicates used in the statements -/

/-- Every sentinel the dialer reaches answers a `SENTINEL` command, when it answers with a
nil error, with nil or with a list that is not empty. -/
def SentinelsAnswerLists {σ : Type} (d : RedisDialer σ) : Prop :=
  ∀ server w conn w1, d.DialTimeout "tcp" server (300 * Millisecond) 0 0 w = (.ok conn, w1) →
    ∀ args w2, (conn.Do "SENTINEL" args w2).1.2 = none →
      (conn.Do "SENTINEL" args w2).1.1 = Value.nil ∨
        ∃ x xs, (conn.Do "SENTINEL" args w2).1.1 = Value.array (x :: xs)

/-- The function `Do` hands to `waitfor.Func` to issue the command on `conn`: it assigns
the reply to `result` and returns the error. -/
def commandRound {σ : Type} (conn : Connection σ) (address action : String)
    (params : List Value) : St σ → Outcome (Option Error × Value) × St σ :=
  fun s =>
    let out := callDo conn address action params s
    (Outcome.ret (out.1.2, out.1.1), out.2)

/-- A run of failures of `f` under `waitfor.Func`, from state `s` to state `s1`: `f` is
invoked once for each entry of `errs`, in order; the invocation returns the error and the
values of the entry before the deadline, and `Func` sleeps `interval` after it.  `s1` is the
state after the last sleep (`s` itself when `errs` is empty). -/
def FailsInTime {σ β : Type} (env : Env σ) (f : St σ → Outcome (Option Error × β) × St σ)
    (interval deadline : Int) : List (Error × β) → St σ → St σ → Prop
  | [], s, s1 => s1 = s
  | (e, b) :: rest, s, s1 =>
    (f s).1 = .ret (some e, b) ∧ env.now (f s).2.world < deadline ∧
      FailsInTime env f interval deadline rest
        ⟨env.sleep interval (f s).2.world, (f s).2.calls ++ [Call.Sleep interval]⟩ s1

/-- The text of an `INFO replication` reply: the command returned no error and a byte slice
or a string. -/
def infoText (out : Value × Option Error) : Option String :=
  match out with
  | (.bytes s, none) => some s
  | (.str s, none) => some s
  | _ => none

/-- In world `w`, dialing `masterAddr` succeeds and the `INFO replication` reply of the node
contains `role:master`. -/
def Confirms {σ : Type} (d : RedisDialer σ) (masterAddr : String) (w : σ) : Prop :=
  ∃ masterConn, (d.Dial "tcp" masterAddr w).1 = .ok masterConn ∧
    ∃ info, infoText (masterConn.Do "info" [Value.str "replication"]
        (d.Dial "tcp" masterAddr w).2).1 = some info ∧
      stringsContains info "role:master" = true

/-- The sentinel at `server` reports a master that is not accepted: the address has a colon,
the client has a master name, in every world the sentinel can be dialed and answers the
query for the master name with a reply from which an address is built, and in no state is
that address confirmed. -/
def PointsAtNonMaster {σ : Type} (r : RedisSentinel σ) (server : String) : Prop :=
  stringsContains server ":" = true ∧ r.masterName ≠ "" ∧
  ∀ w, ∃ conn w1,
    r.dialer.DialTimeout "tcp" server (300 * Millisecond) 0 0 w = (.ok conn, w1) ∧
    ∀ w2, ∃ reply w3 masterAddr,
      conn.Do "SENTINEL" [Value.str "get-master-addr-by-name", Value.str r.masterName] w2
        = ((reply, none), w3) ∧
      constructMasterAddress reply = .ret masterAddr ∧
      ∀ st, (confirmMasterConnection r masterAddr st).1 = false

/-- A function for `waitfor.Func` over the clock world: it issues `PING` on `conn` and
returns the error of the reply. -/
def pingRound (conn : Connection Int) : St Int → Outcome (Option Error × Value) × St Int :=
  commandRound conn "node" "PING" []

/-- A sentinel that knows the master `name` only: `SENTINEL get-master-addr-by-name name`
is answered with `ip`, `port`, and every other command with a nil reply. -/
def namingSentinel (name ip port : String) : Connection Int :=
  fakeConnection 0 (fun _ args =>
    if args = [Value.str "get-master-addr-by-name", Value.str name] then
      (Value.array [Value.bytes ip, Value.bytes port], none)
    else (Value.nil, none))

/-- The scenario of the spec with a sentinel that answers by name: `good:2` knows
`mymaster` at `10.0.0.5`, and `10.0.0.5:6379` reports `role:master`. -/
def namingDialer : RedisDialer Int :=
  fakeDialer
    (fun address =>
      if address = "10.0.0.5:6379" then .ok (fakeRedis "role:master")
      else .error (Error.other "master connection error"))
    (fun address =>
      if address = "good:2" then .ok (namingSentinel "mymaster" "10.0.0.5" "6379")
      else .error (Error.other "sentinel connection error"))

/-- A dialer whose every sentinel can be dialed and answers every command with `reply` and
a nil error. -/
def replyDialer (reply : Value) : RedisDialer Int :=
  fakeDialer
    (fun _ => .error (Error.other "master connection error"))
    (fun _ => .ok (fakeConnection 0 (fun _ _ => (reply, none))))

end Mcredis

/-! # The adaptors of package chaos and the vendored utilities

The remaining packages are embedded one namespace per Go package.  What a package takes
from the Go standard library or from the network is a parameter of its functions. -/

namespace Strconv

/-- Go `strconv.Itoa`, also the verb `%d` of `fmt` on an `int`: the decimal rendering. -/
def Itoa (n : Int) : String := toString n

end Strconv

namespace Adaptor

/-- The struct `AdaptorError` of `chaos/adaptor/error.go`; `Err` is kept as its message. -/
structure AdaptorError where
  Err : String
  SuggestedStatusCode : Int
  Field : String
deriving DecidableEq

/-- The function `NewError`: status `http.StatusInternalServerError`. -/
def NewError (msg : String) : AdaptorError :=
  { Err := msg, SuggestedStatusCode := 500, Field := "" }

end Adaptor

namespace Apidadaptor

/-- The Go type `url.Values`, a map from a parameter name to its values. -/
abbrev Values := List (String × List String)

/-- The interface `apid.Client` for calls whose `dataPtr` points to a `δ`: `DoFunction`
returns what it stored through the pointer (`none` when it stored nothing) and the message
of its error. -/
structure Client (τ δ : Type) where
  DoFunction : String → Values → τ → (Option δ × Option String) × τ

/-- The function `toStringSlice`: `make([]string, len(vals), len(vals))` already holds
`len(vals)` empty strings, and each rendering is appended after them. -/
def toStringSlice (vals : List Int) : List String :=
  vals.foldl (fun result s => result ++ [Strconv.Itoa s]) (List.replicate vals.length "")

/-- The method `UnassignExternalIps` of `ip.go`: the parameter `userids`, one `DoFunction` call
storing into `count`, and `(0, NewError(err.Error()))` on an error. -/
def UnassignExternalIps {τ : Type} (a : Client τ Int) (userIDs : List Int) (s : τ) :
    (Int × Option Adaptor.AdaptorError) × τ :=
  let params : Values := [("userids", toStringSlice userIDs)]
  let out := a.DoFunction "unassignExternalIps" params s
  match out.1.2 with
  | some err => ((0, some (Adaptor.NewError err)), out.2)
  | none => ((out.1.1.getD 0, none), out.2)

/-- The method `DeleteAllUserIps` of `ip.go`: the parameter `userids`, one `DoFunction` call
storing into `count`, and `(0, NewError(err.Error()))` on an error. -/
def DeleteAllUserIps {τ : Type} (a : Client τ Int) (userIDs : List Int) (s : τ) :
    (Int × Option Adaptor.AdaptorError) × τ :=
  let params : Values := [("userids", toStringSlice userIDs)]
  let out := a.DoFunction "deleteAllUserIps" params s
  match out.1.2 with
  | some err => ((0, some (Adaptor.NewError err)), out.2)
  | none => ((out.1.1.getD 0, none), out.2)

/-- The method `DeleteAllUserIpGroups` of `ip.go`: the parameter `userids`, one `DoFunction` call
storing into `count`, and `(0, NewError(err.Error()))` on an error. -/
def DeleteAllUserIpGroups {τ : Type} (a : Client τ Int) (userIDs : List Int) (s : τ) :
    (Int × Option Adaptor.AdaptorError) × τ :=
  let params : Values := [("userids", toStringSlice userIDs)]
  let out := a.DoFunction "deleteAllUserIpGroups" params s
  match out.1.2 with
  | some err => ((0, some (Adaptor.NewError err)), out.2)
  | none => ((out.1.1.getD 0, none), out.2)

/-- The method `DeleteUserAlerts` of `alert.go`: the parameter `userids`, one `DoFunction` call
storing into `count`, and `(0, NewError(err.Error()))` on an error. -/
def DeleteUserAlerts {τ : Type} (a : Client τ Int) (userIDs : List Int) (s : τ) :
    (Int × Option Adaptor.AdaptorError) × τ :=
  let params : Values := [("userids", toStringSlice userIDs)]
  let out := a.DoFunction "deleteUserAlerts" params s
  match out.1.2 with
  | some err => ((0, some (Adaptor.NewError err)), out.2)
  | none => ((out.1.1.getD 0, none), out.2)

/-- The method `DeleteAllUserNotificationSettings` of `alert.go`: the parameter `userids`, one `DoFunction` call
storing into `count`, and `(0, NewError(err.Error()))` on an error. -/
def DeleteAllUserNotificationSettings {τ : Type} (a : Client τ Int) (userIDs : List Int) (s : τ) :
    (Int × Option Adaptor.AdaptorError) × τ :=
  let params : Values := [("userids", toStringSlice userIDs)]
  let out := a.DoFunction "deleteAllUserNotificationSettings" params s
  match out.1.2 with
  | some err => ((0, some (Adaptor.NewError err)), out.2)
  | none => ((out.1.1.getD 0, none), out.2)

/-- The struct `competitor` of `user_package.go`. -/
structure competitor where
  ID : Int
  Name : String
  UserID : Int
deriving DecidableEq

/-- A line written through package `ln`: the level and the message (the map of values is
left out). -/
structure LogLine where
  level : String
  message : String
deriving DecidableEq

/-- The method `getValidCompetitorID`: the id, the error, and the lines it logs.  The loop
returns `c.UserID` of the first entry whose `UserID` is 0. -/
def getValidCompetitorID {τ : Type} (a : Client τ (List competitor)) (otherProvider : String)
    (s : τ) : (Int × Option Adaptor.AdaptorError) × List LogLine × τ :=
  let params : Values :=
    [("tableName", ["competitors"]),
     ("where", ["\x7b\x22competitor\x22:\x22" ++ otherProvider ++ "\x22\x7d"])]
  let out := a.DoFunction "get" params s
  match out.1.2 with
  | some _ =>
    ((0, some (Adaptor.NewError "internal data storage error")),
      [⟨"err", "unable to get competitors value"⟩], out.2)
  | none =>
    let competition := out.1.1.getD []
    if competition.length = 0 then ((0, none), [], out.2)
    else
      match competition.find? (fun c => c.UserID == 0) with
      | some c => ((c.UserID, none), [], out.2)
      | none =>
        ((0, some (Adaptor.NewError "internal data storage error")),
          [⟨"info", "no valid competitor found"⟩], out.2)

/-- A client that records, oldest first, the name and the parameters of each call, and
answers every call with `reply`. -/
def recordingClient {δ : Type} (reply : String → Values → Option δ × Option String) :
    Client (List (String × Values)) δ :=
  { DoFunction := fun name params log => (reply name params, log ++ [(name, params)]) }

end Apidadaptor

namespace Authzd

/-- The struct `Adaptor` of `authzd.go`. -/
structure Adaptor where
  Host : String
  Port : Int
  HealthcheckPort : Int

/-- An `http.Request` as `SetUserTemplate` builds it. -/
structure Request where
  Method : String
  URL : String
  Body : String
  Header : List (String × String)
deriving DecidableEq

/-- An `http.Response`: the status code and the body as `ioutil.ReadAll` returns it. -/
structure Response where
  StatusCode : Int
  Body : String
deriving DecidableEq

/-- What `SetUserTemplate` takes from `net/http`: whether `http.NewRequest` accepts the URL
(it returns a nil request with its error otherwise), and `http.Client.Do`. -/
structure Http (τ : Type) where
  urlParses : String → Bool
  Do : Request → τ → Except String Response × τ

/-- The errors of `SetUserTemplate`, kept as the arguments of their `fmt.Errorf`. -/
inductive CallError where
  | calling (putURL : String) (err : String)
  | response (putURL : String) (errBody : String) (status : Int)
deriving DecidableEq

/-- Go `strings.Join`. -/
def stringsJoin (a : List String) (sep : String) : String := sep.intercalate a

/-- The request body of `SetUserTemplate` and the slice `removeScopes` as the function
leaves it: the quoted elements are written back into the caller's slice, and the list of
removals is added only when `len(removeScopes) > 1`. -/
def setUserTemplateData (template : String) (removeScopes : List String) :
    String × List String :=
  let data := "\x7b\x22new_template\x22:\x22" ++ template ++ "\x22\x7d"
  if removeScopes.length > 1 then
    let quoted := removeScopes.map (fun remove => "\x22" ++ remove ++ "\x22")
    let removePermissions := stringsJoin quoted ","
    ("\x7b\x22new_template\x22:\x22" ++ template ++ "\x22,\x22remove_permissions\x22:["
      ++ removePermissions ++ "]\x7d", quoted)
  else (data, removeScopes)

/-- The method `SetUserTemplate`: the error and `removeScopes` after the call.  The error
of `http.NewRequest` is not looked at, so a URL that does not parse makes
`req.Header.Add` dereference nil. -/
def SetUserTemplate {τ : Type} (net : Http τ) (adaptor : Adaptor) (userID : Int)
    (template : String) (removeScopes : List String) (s : τ) :
    Mcredis.Outcome (Option CallError × List String) × τ :=
  let putURL := "http://" ++ adaptor.Host ++ ":" ++ Strconv.Itoa adaptor.Port
    ++ "/v1/permissions/users/" ++ Strconv.Itoa userID ++ "/scopeset"
  let d := setUserTemplateData template removeScopes
  if !net.urlParses putURL then
    (.panic "runtime error: invalid memory address or nil pointer dereference", s)
  else
    let req : Request :=
      { Method := "PUT", URL := putURL, Body := d.1,
        Header := [("Content-Type", "application/json")] }
    let out := net.Do req s
    match out.1 with
    | .error err => (.ret (some (CallError.calling putURL err), d.2), out.2)
    | .ok resp =>
      if resp.StatusCode ≠ 200 then
        (.ret (some (CallError.response putURL resp.Body resp.StatusCode), d.2), out.2)
      else (.ret (none, d.2), out.2)

/-- A network that records, oldest first, the requests sent, and answers each with status
`status` and an empty body. -/
def recordingHttp (status : Int) : Http (List Request) :=
  { urlParses := fun _ => true
    Do := fun req log => (.ok ⟨status, ""⟩, log ++ [req]) }

end Authzd

namespace Ln

/-! ## Package ln: maps, the JSON logger and the constructor -/

/-- The severities of `log/syslog`. -/
def LOG_EMERG : Int := 0
/-- Severity 1 of `log/syslog`. -/
def LOG_ALERT : Int := 1
/-- Severity 2 of `log/syslog`. -/
def LOG_CRIT : Int := 2
/-- Severity 3 of `log/syslog`. -/
def LOG_ERR : Int := 3
/-- Severity 4 of `log/syslog`. -/
def LOG_WARNING : Int := 4
/-- Severity 5 of `log/syslog`. -/
def LOG_NOTICE : Int := 5
/-- Severity 6 of `log/syslog`. -/
def LOG_INFO : Int := 6
/-- Severity 7 of `log/syslog`. -/
def LOG_DEBUG : Int := 7

/-- What package ln takes from `strings`. -/
structure Strings where
  ToUpper : String → String
  ToLower : String → String

/-- The function `stringToLevel`. -/
def stringToLevel (str : Strings) (syslogLevel : String) : Int × Option String :=
  let u := str.ToUpper syslogLevel
  if u = "EMERG" then (LOG_EMERG, none)
  else if u = "ALERT" then (LOG_ALERT, none)
  else if u = "CRIT" then (LOG_CRIT, none)
  else if u = "ERR" then (LOG_ERR, none)
  else if u = "NOTICE" then (LOG_NOTICE, none)
  else if u = "WARNING" then (LOG_WARNING, none)
  else if u = "INFO" then (LOG_INFO, none)
  else if u = "DEBUG" then (LOG_DEBUG, none)
  else (-1, some ("unrecognized syslog level " ++ syslogLevel))

/-- The facilities of `log/syslog`, each `n << 3`, by name. -/
def facilities : List (String × Int) :=
  [("KERN", 0), ("USER", 8), ("MAIL", 16), ("DAEMON", 24), ("AUTH", 32), ("SYSLOG", 40),
   ("LPR", 48), ("NEWS", 56), ("UUCP", 64), ("CRON", 72), ("AUTHPRIV", 80), ("FTP", 88),
   ("LOCAL0", 128), ("LOCAL1", 136), ("LOCAL2", 144), ("LOCAL3", 152), ("LOCAL4", 160),
   ("LOCAL5", 168), ("LOCAL6", 176), ("LOCAL7", 184)]

/-- The function `stringToFacility`: the `switch` over the twenty names. -/
def stringToFacility (str : Strings) (syslogFacility : String) : Int × Option String :=
  match facilities.lookup (str.ToUpper syslogFacility) with
  | some f => (f, none)
  | none => (-1, some ("unrecognized syslog facility " ++ syslogFacility))

/-- Values of type `interface{}` held in a `Map`: strings, integers, booleans, nil, and
values of a type that `encoding/json` does not support (a channel, a function). -/
inductive Val where
  | str (s : String)
  | int (n : Int)
  | bool (b : Bool)
  | null
  | unsupported (goType : String)
deriving DecidableEq

/-- The entries of a Go map of type `Map`, in the order an iteration visits them; the keys
of a map are distinct. -/
abbrev Map := List (String × Val)

/-- The index expression `m[k]`. -/
def Map.index (m : Map) (k : String) : Option Val := m.lookup k

/-- The assignment `m[k] = v`: the entry of `k` is replaced, or a new entry is added. -/
def Map.assign (m : Map) (k : String) (v : Val) : Map :=
  if m.any (fun e => e.1 == k) then m.map (fun e => if e.1 == k then (k, v) else e)
  else m ++ [(k, v)]

/-- The keys of a map. -/
def Map.keys (m : Map) : List String := m.map Prod.fst

/-- Every map allocated so far; a map is known by its position. -/
abbrev Heap := List Map

/-- A Go value of type `Map`: nil, or a reference to an allocated map. -/
abbrev Ref := Option Nat

/-- The entries a map value refers to; a nil map has none. -/
def Heap.deref (h : Heap) (r : Ref) : Map :=
  match r with
  | none => []
  | some a => h.getD a []

/-- The function `Merge`: `newMap` is a map allocated by the call, every entry of every
argument is assigned into it in turn, and the reference to it is returned. -/
def Merge (maps : List Ref) (h : Heap) : Ref × Heap :=
  let newMap : Map :=
    maps.foldl
      (fun (acc : Map) currMap =>
        (h.deref currMap).foldl (fun (acc : Map) e => Map.assign acc e.1 e.2) acc)
      []
  (some h.length, h ++ [newMap])

/-- The interface `syslogger`: each method returns the message of its error. -/
structure Syslogger (τ : Type) where
  Close : τ → τ
  Emerg : String → τ → Option String × τ
  Alert : String → τ → Option String × τ
  Crit : String → τ → Option String × τ
  Err : String → τ → Option String × τ
  Notice : String → τ → Option String × τ
  Warning : String → τ → Option String × τ
  Info : String → τ → Option String × τ
  Debug : String → τ → Option String × τ

/-- The struct `jsonLogger`; a nil `callback` is `none`. -/
structure jsonLogger (τ : Type) where
  s : Syslogger τ
  level : Int
  facility : Int
  callback : Option (String → τ → τ)

/-- The struct `message`. -/
structure message where
  Message : String
  Values : Ref

/-- The function `newJSONLogger`. -/
def newJSONLogger {τ : Type} (s : Syslogger τ) (level facility : Int) : jsonLogger τ :=
  { s := s, level := level, facility := facility, callback := none }

/-- The method `output`.  `marshal` is `json.Marshal` on a `Map`, with the message of its
error.  `logMap` is the map of the caller unless that is nil, so the assignment of
`message` is made in the caller's map. -/
def jsonLogger.output {τ : Type} (marshal : Map → Except String String) (j : jsonLogger τ)
    (level : Int) (output : String → τ → Option String × τ) (m : message)
    (st : Heap × τ) : Option String × (Heap × τ) :=
  if j.level < level then (none, st)
  else
    let made : Nat × Heap :=
      match m.Values with
      | some a => (a, st.1)
      | none => (st.1.length, st.1 ++ [[]])
    let heap1 : Heap :=
      if m.Message ≠ "" then
        made.2.set made.1 (Map.assign (made.2.getD made.1 []) "message" (Val.str m.Message))
      else made.2
    match marshal (heap1.getD made.1 []) with
    | .error err => (some ("could not marshal json: " ++ err), (heap1, st.2))
    | .ok b =>
      let out := output b st.2
      match out.1 with
      | some err =>
        match j.callback with
        | some callback => (some err, (heap1, callback err out.2))
        | none => (some err, (heap1, out.2))
      | none => (none, (heap1, out.2))

/-- The method `Emerg`. -/
def jsonLogger.Emerg {τ : Type} (marshal : Map → Except String String) (j : jsonLogger τ)
    (msg : String) (v : Ref) (st : Heap × τ) : Option String × (Heap × τ) :=
  j.output marshal LOG_EMERG j.s.Emerg ⟨msg, v⟩ st

/-- The method `Alert`. -/
def jsonLogger.Alert {τ : Type} (marshal : Map → Except String String) (j : jsonLogger τ)
    (msg : String) (v : Ref) (st : Heap × τ) : Option String × (Heap × τ) :=
  j.output marshal LOG_ALERT j.s.Alert ⟨msg, v⟩ st

/-- The method `Crit`. -/
def jsonLogger.Crit {τ : Type} (marshal : Map → Except String String) (j : jsonLogger τ)
    (msg : String) (v : Ref) (st : Heap × τ) : Option String × (Heap × τ) :=
  j.output marshal LOG_CRIT j.s.Crit ⟨msg, v⟩ st

/-- The method `Err`. -/
def jsonLogger.Err {τ : Type} (marshal : Map → Except String String) (j : jsonLogger τ)
    (msg : String) (v : Ref) (st : Heap × τ) : Option String × (Heap × τ) :=
  j.output marshal LOG_ERR j.s.Err ⟨msg, v⟩ st

/-- The method `Notice`. -/
def jsonLogger.Notice {τ : Type} (marshal : Map → Except String String) (j : jsonLogger τ)
    (msg : String) (v : Ref) (st : Heap × τ) : Option String × (Heap × τ) :=
  j.output marshal LOG_NOTICE j.s.Notice ⟨msg, v⟩ st

/-- The method `Warning`. -/
def jsonLogger.Warning {τ : Type} (marshal : Map → Except String String) (j : jsonLogger τ)
    (msg : String) (v : Ref) (st : Heap × τ) : Option String × (Heap × τ) :=
  j.output marshal LOG_WARNING j.s.Warning ⟨msg, v⟩ st

/-- The method `Info`. -/
def jsonLogger.Info {τ : Type} (marshal : Map → Except String String) (j : jsonLogger τ)
    (msg : String) (v : Ref) (st : Heap × τ) : Option String × (Heap × τ) :=
  j.output marshal LOG_INFO j.s.Info ⟨msg, v⟩ st

/-- The method `Debug`. -/
def jsonLogger.Debug {τ : Type} (marshal : Map → Except String String) (j : jsonLogger τ)
    (msg : String) (v : Ref) (st : Heap × τ) : Option String × (Heap × τ) :=
  j.output marshal LOG_DEBUG j.s.Debug ⟨msg, v⟩ st

/-- The method `Event`: `v["event"] = event` panics on a nil map; the record is then
logged at `EVENT_LOG_LEVEL`, which is `LOG_INFO`, with no message. -/
def jsonLogger.Event {τ : Type} (marshal : Map → Except String String) (j : jsonLogger τ)
    (event : String) (v : Ref) (st : Heap × τ) :
    Mcredis.Outcome (Option String) × (Heap × τ) :=
  match v with
  | none => (.panic "assignment to entry in nil map", st)
  | some a =>
    let heap1 : Heap := st.1.set a (Map.assign (st.1.getD a []) "event" (Val.str event))
    let out := j.output marshal LOG_INFO j.s.Info ⟨"", some a⟩ (heap1, st.2)
    (.ret out.1, out.2)

/-- The eight level methods, each with the severity it passes to `output` and the method
of the syslogger it passes. -/
def levelMethods {τ : Type} (marshal : Map → Except String String) :
    List ((jsonLogger τ → String → Ref → Heap × τ → Option String × (Heap × τ)) × Int ×
      (Syslogger τ → String → τ → Option String × τ)) :=
  [(jsonLogger.Emerg marshal, LOG_EMERG, Syslogger.Emerg),
   (jsonLogger.Alert marshal, LOG_ALERT, Syslogger.Alert),
   (jsonLogger.Crit marshal, LOG_CRIT, Syslogger.Crit),
   (jsonLogger.Err marshal, LOG_ERR, Syslogger.Err),
   (jsonLogger.Notice marshal, LOG_NOTICE, Syslogger.Notice),
   (jsonLogger.Warning marshal, LOG_WARNING, Syslogger.Warning),
   (jsonLogger.Info marshal, LOG_INFO, Syslogger.Info),
   (jsonLogger.Debug marshal, LOG_DEBUG, Syslogger.Debug)]

/-- Where a `writerLogger` writes: `os.Stderr` or an opened file. -/
inductive Writer where
  | Stderr
  | File (name : String)
deriving DecidableEq

/-- What the constructors take from outside the package: `strings`, `os.OpenFile` (with
the message of its error), the `Output` method of a `log.Logger` made for a writer and a
tag, and `Openlog`, `Closelog` and the eight writers of the syslog library. -/
structure Env (τ : Type) where
  str : Strings
  OpenFile : String → τ → Option String × τ
  Output : Writer → String → String → τ → τ
  Openlog : String → Int → τ → τ
  Closelog : τ → τ
  Syslog : String → String → τ → τ

/-- The function `newWriterLogger` with the eight methods of `writerLogger`. -/
def newWriterLogger {τ : Type} (env : Env τ) (w : Writer) (tag : String) : Syslogger τ :=
  { Close := fun s => s
    Emerg := fun msg s => (none, env.Output w tag ("[emerg] " ++ msg) s)
    Alert := fun msg s => (none, env.Output w tag ("[alert] " ++ msg) s)
    Crit := fun msg s => (none, env.Output w tag ("[crit] " ++ msg) s)
    Err := fun msg s => (none, env.Output w tag ("[err] " ++ msg) s)
    Notice := fun msg s => (none, env.Output w tag ("[notice] " ++ msg) s)
    Warning := fun msg s => (none, env.Output w tag ("[warning] " ++ msg) s)
    Info := fun msg s => (none, env.Output w tag ("[info] " ++ msg) s)
    Debug := fun msg s => (none, env.Output w tag ("[debug] " ++ msg) s) }

/-- The function `newBSyslogger` with the methods of `bSyslogger`: the call opens the
system log. -/
def newBSyslogger {τ : Type} (env : Env τ) (facility : Int) (tag : String) (s : τ) :
    Syslogger τ × τ :=
  ({ Close := env.Closelog
     Emerg := fun msg s => (none, env.Syslog "Emerg" msg s)
     Alert := fun msg s => (none, env.Syslog "Alert" msg s)
     Crit := fun msg s => (none, env.Syslog "Crit" msg s)
     Err := fun msg s => (none, env.Syslog "Err" msg s)
     Notice := fun msg s => (none, env.Syslog "Notice" msg s)
     Warning := fun msg s => (none, env.Syslog "Warning" msg s)
     Info := fun msg s => (none, env.Syslog "Info" msg s)
     Debug := fun msg s => (none, env.Syslog "Debug" msg s) },
    env.Openlog (tag ++ ": " ++ tag) facility s)

/-- The function `newLogger`: the level is resolved first, and an error of it panics. -/
def newLogger {τ : Type} (env : Env τ) (endpoint strLevel strFacility tag : String) (s : τ) :
    Mcredis.Outcome (jsonLogger τ) × τ :=
  let l := stringToLevel env.str strLevel
  match l.2 with
  | some err => (.panic ("Initializing in ln logger: " ++ err), s)
  | none =>
    if env.str.ToLower endpoint = "stderr" then
      (.ret (newJSONLogger (newWriterLogger env Writer.Stderr tag) l.1 (-1)), s)
    else if env.str.ToLower endpoint = "syslog" then
      let f := stringToFacility env.str strFacility
      match f.2 with
      | some err => (.panic ("Initializing in ln logger : " ++ err), s)
      | none =>
        let b := newBSyslogger env f.1 tag s
        (.ret (newJSONLogger b.1 l.1 f.1), b.2)
    else
      let o := env.OpenFile endpoint s
      match o.1 with
      | some err =>
        (.panic ("Initializing ln logger: could not create endpoint " ++ endpoint
          ++ ", error: " ++ err), o.2)
      | none => (.ret (newJSONLogger (newWriterLogger env (Writer.File endpoint) tag) l.1 (-1)), o.2)

/-- The function `New`: the package logger `baseLogger` is closed, then `newLogger`. -/
def New {τ : Type} (env : Env τ) (baseLogger : jsonLogger τ)
    (output level facility tag : String) (s : τ) : Mcredis.Outcome (jsonLogger τ) × τ :=
  newLogger env output level facility tag (baseLogger.s.Close s)

/-! ### Test doubles -/

/-- Upper case of the letters `a` to `z`; agrees with `strings.ToUpper` on ASCII. -/
def asciiUpper (s : String) : String := ⟨s.data.map Char.toUpper⟩

/-- Lower case of the letters `A` to `Z`; agrees with `strings.ToLower` on ASCII. -/
def asciiLower (s : String) : String := ⟨s.data.map Char.toLower⟩

/-- An environment whose state is the list of lines written, oldest first; no file can be
opened. -/
def recordingEnv : Env (List String) :=
  { str := { ToUpper := asciiUpper, ToLower := asciiLower }
    OpenFile := fun name s => (some ("open " ++ name ++ ": permission denied"), s)
    Output := fun _ tag line s => s ++ ["[" ++ tag ++ "] " ++ line]
    Openlog := fun ident _ s => s ++ ["openlog " ++ ident]
    Closelog := fun s => s ++ ["closelog"]
    Syslog := fun level msg s => s ++ [level ++ " " ++ msg] }

/-- A syslogger that records, oldest first, the method called and the record passed; with
`returnError` every method also returns an error, as `MockSysLogger` of `json_test.go`. -/
def recordingSyslogger (returnError : Bool) : Syslogger (List (String × String)) :=
  let call := fun (name msg : String) (s : List (String × String)) =>
    (if returnError then some ("error when calling " ++ name ++ " " ++ msg) else none,
      s ++ [(name, msg)])
  { Close := fun s => s
    Emerg := call "Emerg", Alert := call "Alert", Crit := call "Crit", Err := call "Err"
    Notice := call "Notice", Warning := call "Warning", Info := call "Info"
    Debug := call "Debug" }

/-- The encoding of one value by `json.Marshal`, for strings that need no escaping. -/
def testMarshalVal : Val → Except String String
  | .str s => .ok ("\x22" ++ s ++ "\x22")
  | .int n => .ok (toString n)
  | .bool b => .ok (if b then "true" else "false")
  | .null => .ok "null"
  | .unsupported goType => .error ("json: unsupported type: " ++ goType)

/-- The entries of a map encoded one by one; the first error ends the encoding. -/
def testMarshalEntries : List (String × Val) → Except String (List String)
  | [] => .ok []
  | (k, v) :: rest =>
    match testMarshalVal v, testMarshalEntries rest with
    | .error err, _ => .error err
    | .ok _, .error err => .error err
    | .ok b, .ok bs => .ok (("\x22" ++ k ++ "\x22:" ++ b) :: bs)

/-- A stand-in for `json.Marshal` on a map whose entries are listed in key order and whose
keys and strings need no escaping. -/
def testMarshal (m : Map) : Except String String :=
  match testMarshalEntries m with
  | .error err => .error err
  | .ok bs => .ok ("\x7b" ++ ",".intercalate bs ++ "\x7d")

end Ln

namespace Envy

/-! ## Package go-envy: loading a configuration struct -/

/-- The two error variables of `envy.go`. -/
inductive Error where
  | ErrInvalidConfigType
  | ErrConfigInvalid
deriving DecidableEq

/-- The kinds of field `LoadFromEnv` tells apart: a string, an integer of the given size
(`reflect.Int` to `reflect.Int64`), a boolean, a slice of `int`, a slice of `string`, a
slice of another type, an array, and any other kind. -/
inductive Kind where
  | string
  | int (bits : Nat)
  | bool
  | sliceOfInt
  | sliceOfString
  | sliceOther
  | array
  | other
deriving DecidableEq

/-- A field of the struct, as reflection shows it: its name, its `name` and `example`
tags (empty when absent), its kind, and whether it can be set (it is exported). -/
structure StructField where
  Name : String
  tagName : String
  tagExample : String
  Kind : Kind
  CanSet : Bool
deriving DecidableEq

/-- What a pointer passed as `configSpec` points to: nothing (a nil pointer), a value that
is not a struct, or a struct with its fields in order. -/
inductive Elem where
  | invalid
  | notStruct
  | struct (fields : List StructField)

/-- The argument `configSpec`: a pointer, or a value of any other kind. -/
inductive ConfigSpec where
  | notPointer
  | ptr (elem : Elem)

/-- The interface `EnvironmentReader`: the map `Read()` returns, as its entries, and the
string `GetPrefix()` returns. -/
structure EnvironmentReader where
  Read : List (String × String)
  GetPrefix : String

/-- What `LoadFromEnv` takes from `strings` and `strconv`; the parsers return the message
of their error. -/
structure Std where
  ToUpper : String → String
  Atoi : String → Int × Option String
  ParseBool : String → Bool × Option String
  Split : String → String → List String

/-- The errors `LoadFromEnv` collects and logs, kept as the arguments of their
`fmt.Errorf`. -/
inductive Issue where
  | count (actual expected : Nat)
  | notFound (key exampleTag : String)
  | invalidInt (name value exampleTag : String)
  | invalidBool (name value exampleTag : String)
  | arrayNotSupported (name value exampleTag : String)
deriving DecidableEq

/-- A value stored into a field. -/
inductive Value where
  | str (s : String)
  | int (n : Int)
  | bool (b : Bool)
  | ints (ns : List Int)
  | strs (ss : List String)
deriving DecidableEq

/-- The key of a field: the `name` tag when it is not empty, else the upper-cased name. -/
def keyOf (std : Std) (f : StructField) : String :=
  if f.tagName ≠ "" then f.tagName else std.ToUpper f.Name

/-- The loop over the elements of a slice of `int`: an element that does not parse is
reported and left out. -/
def loadInts (std : Std) (name value exampleTag : String) :
    List String → List Issue × List Int
  | [] => ([], [])
  | v :: rest =>
    let r := loadInts std name value exampleTag rest
    match (std.Atoi v).2 with
    | some _ => (Issue.invalidInt name value exampleTag :: r.1, r.2)
    | none => (r.1, (std.Atoi v).1 :: r.2)

/-- One round of the loop over the fields: the errors it appends and the value it stores.
Storing a slice of strings into a slice of another element type panics in `reflect`. -/
def loadField (std : Std) (SeparatorCharacter : String) (reader : EnvironmentReader)
    (f : StructField) : Mcredis.Outcome (List Issue × Option Value) :=
  if !f.CanSet then .ret ([], none)
  else
    let key := keyOf std f
    let exampleTag := f.tagExample
    let name := reader.GetPrefix ++ key
    match reader.Read.lookup key with
    | none => .ret ([Issue.notFound name exampleTag], none)
    | some value =>
      match f.Kind with
      | .string => .ret ([], some (Value.str value))
      | .int bits =>
        match (std.Atoi value).2 with
        | some _ => .ret ([Issue.invalidInt name value exampleTag], none)
        | none => .ret ([], some (Value.int (Mcredis.toInt bits (std.Atoi value).1)))
      | .bool =>
        match (std.ParseBool value).2 with
        | some _ => .ret ([Issue.invalidBool name value exampleTag], none)
        | none => .ret ([], some (Value.bool (std.ParseBool value).1))
      | .sliceOfInt =>
        let r := loadInts std name value exampleTag (std.Split value SeparatorCharacter)
        .ret (r.1, some (Value.ints r.2))
      | .sliceOfString => .ret ([], some (Value.strs (std.Split value SeparatorCharacter)))
      | .sliceOther =>
        .panic "reflect.Set: value of type []string is not assignable to the field"
      | .array => .ret ([Issue.arrayNotSupported name value exampleTag], none)
      | .other => .ret ([], none)

/-- The loop over the fields: the errors collected, in order, and what was stored into
each field. -/
def loadFields (std : Std) (SeparatorCharacter : String) (reader : EnvironmentReader) :
    List StructField → Mcredis.Outcome (List Issue × List (Option Value))
  | [] => .ret ([], [])
  | f :: rest =>
    match loadField std SeparatorCharacter reader f with
    | .panic msg => .panic msg
    | .outOfFuel => .outOfFuel
    | .ret (errs, v) =>
      match loadFields std SeparatorCharacter reader rest with
      | .panic msg => .panic msg
      | .outOfFuel => .outOfFuel
      | .ret (errs1, vs) => .ret (errs ++ errs1, v :: vs)

/-- The function `LoadFromEnv`: the error, what was stored into each field, and the lines
given to the logger. -/
def LoadFromEnv (std : Std) (SeparatorCharacter : String) (reader : EnvironmentReader)
    (configSpec : ConfigSpec) :
    Mcredis.Outcome (Option Error × List (Option Value) × List Issue) :=
  let source := reader.Read
  match configSpec with
  | .notPointer => .ret (some Error.ErrInvalidConfigType, [], [])
  | .ptr .invalid => .ret (some Error.ErrInvalidConfigType, [], [])
  | .ptr .notStruct => .ret (some Error.ErrInvalidConfigType, [], [])
  | .ptr (.struct fields) =>
    let expectedConfigCount := fields.length
    let actualConfigCount := source.length
    let errors0 : List Issue :=
      if expectedConfigCount > actualConfigCount then
        [Issue.count actualConfigCount expectedConfigCount]
      else []
    match loadFields std SeparatorCharacter reader fields with
    | .panic msg => .panic msg
    | .outOfFuel => .outOfFuel
    | .ret (errs, vs) =>
      let errors := errors0 ++ errs
      if errors.length > 0 then .ret (some Error.ErrConfigInvalid, vs, errors)
      else .ret (none, vs, [])

/-! ### Test doubles and predicates -/

/-- The value of a string of decimal digits, most significant first. -/
def digitsValue : List Char → Nat → Option Nat
  | [], acc => some acc
  | c :: cs, acc =>
    if c.isDigit then digitsValue cs (acc * 10 + (c.toNat - '0'.toNat)) else none

/-- A stand-in for `strconv.Atoi` on decimal numerals with an optional minus sign. -/
def testAtoi (s : String) : Int × Option String :=
  match s.data with
  | [] => (0, some "strconv.Atoi: invalid syntax")
  | '-' :: c :: cs =>
    match digitsValue (c :: cs) 0 with
    | some n => (-(n : Int), none)
    | none => (0, some "strconv.Atoi: invalid syntax")
  | c :: cs =>
    match digitsValue (c :: cs) 0 with
    | some n => ((n : Int), none)
    | none => (0, some "strconv.Atoi: invalid syntax")

/-- The function `strconv.ParseBool`: twelve spellings are accepted. -/
def testParseBool (s : String) : Bool × Option String :=
  if s ∈ ["1", "t", "T", "true", "TRUE", "True"] then (true, none)
  else if s ∈ ["0", "f", "F", "false", "FALSE", "False"] then (false, none)
  else (false, some "strconv.ParseBool: invalid syntax")

/-- A standard library for the tests: ASCII upper case, the two parsers above, and a split
that is not used by the fields of the tests. -/
def testStd : Std :=
  { ToUpper := Ln.asciiUpper, Atoi := testAtoi, ParseBool := testParseBool
    Split := fun s _ => [s] }

/-- A field that can be set and whose kind is string, integer or boolean. -/
def Plain (f : StructField) : Prop :=
  f.CanSet = true ∧ (f.Kind = Kind.string ∨ (∃ bits, f.Kind = Kind.int bits) ∨ f.Kind = Kind.bool)

/-- The key of the field is in the source and, for an integer or a boolean field, its
value parses. -/
def Loads (std : Std) (reader : EnvironmentReader) (f : StructField) : Prop :=
  ∃ value, reader.Read.lookup (keyOf std f) = some value ∧
    (∀ bits, f.Kind = Kind.int bits → (std.Atoi value).2 = none) ∧
    (f.Kind = Kind.bool → (std.ParseBool value).2 = none)

end Envy

namespace Apid

/-! ## Package go-apid: the HTTP client -/

/-- The struct `FunctionInfo`. -/
structure FunctionInfo where
  Return : String
  Path : String
deriving DecidableEq

/-- The entries of a map of type `functionsList`. -/
abbrev functionsList := List (String × FunctionInfo)

/-- The Go type `url.Values`. -/
abbrev Values := List (String × List String)

/-- An `http.Request` as the client builds it: the method and the URL. -/
structure Request where
  Method : String
  URL : String
deriving DecidableEq

/-- An `http.Response`: the status code, and the body as `ioutil.ReadAll` returns it (or
the message of its error). -/
structure Response where
  StatusCode : Int
  Body : Except String String

/-- The interface `HTTPRequester`: `Do` returns a response or the message of an error. -/
structure HTTPRequester (τ : Type) where
  Do : Request → τ → Except String Response × τ

/-- What the client takes from `net/url`, `net/http` and `encoding/json`:
`url.Values.Encode`, `http.NewRequest`, `json.Unmarshal` into a
`map[string]json.RawMessage` (the entries of the map) and `json.Unmarshal` into a
`functionsList` that starts nil.  Errors are kept as their messages. -/
structure Std where
  Encode : Values → String
  NewRequest : String → String → Except String Request
  UnmarshalEnvelope : String → Except String (List (String × String))
  UnmarshalFunctions : String → Except String (Option functionsList)

/-- The struct `HTTPClient`.  `functions` is a map value, nil or allocated.
`RequestHandler` is what the handler does to the request it is given. -/
structure HTTPClient (τ : Type) where
  BaseURL : String
  functions : Option functionsList
  hasFunctions : Bool
  Client : HTTPRequester τ
  RequestHandler : Option (Request → Request)

/-- The function `NewHTTPClient`; `defaultClient` is `http.DefaultClient`. -/
def NewHTTPClient {τ : Type} (defaultClient : HTTPRequester τ) (url : String) : HTTPClient τ :=
  { BaseURL := url, functions := some [], hasFunctions := false, Client := defaultClient,
    RequestHandler := none }

/-- The index expression `apid.functions[name]`; a nil map holds nothing. -/
def lookupFunction {τ : Type} (apid : HTTPClient τ) (name : String) : Option FunctionInfo :=
  (apid.functions.getD []).lookup name

/-- The method `AddFunction`; assigning into a nil map panics. -/
def HTTPClient.AddFunction {τ : Type} (apid : HTTPClient τ) (name : String)
    (function : FunctionInfo) : Mcredis.Outcome (HTTPClient τ) :=
  match apid.functions with
  | none => .panic "assignment to entry in nil map"
  | some m =>
    let m1 : functionsList :=
      if m.any (fun e => e.1 == name) then
        m.map (fun e => if e.1 == name then (name, function) else e)
      else m ++ [(name, function)]
    .ret { apid with functions := some m1, hasFunctions := true }

/-- The method `makeRequestToAPId` for a `dataPtr` that points to a `δ`: `decode` is
`json.Unmarshal` into it.  The result is the error and, when there is none, the value
stored. -/
def HTTPClient.makeRequestToAPId {τ δ : Type} (std : Std) (apid : HTTPClient τ)
    (url : String) (params : Values) (decode : String → Except String δ)
    (resultName : String) (s : τ) : (Option String × Option δ) × τ :=
  let requestURL := url ++ "?" ++ std.Encode params
  match std.NewRequest "GET" requestURL with
  | .error err => ((some err, none), s)
  | .ok request =>
    let request1 :=
      match apid.RequestHandler with
      | some handler => handler request
      | none => request
    let out := apid.Client.Do request1 s
    match out.1 with
    | .error err => ((some err, none), out.2)
    | .ok response =>
      match response.Body with
      | .error err => ((some err, none), out.2)
      | .ok responseBody =>
        match std.UnmarshalEnvelope responseBody with
        | .error err => ((some err, none), out.2)
        | .ok apidResponse =>
          if response.StatusCode ≠ 200 then
            ((some ((apidResponse.lookup "error").getD ""), none), out.2)
          else
            match decode ((apidResponse.lookup resultName).getD "") with
            | .error err => ((some err, none), out.2)
            | .ok d => ((none, some d), out.2)

/-- The method `do` (a reserved word in Lean, hence the longer name). -/
def HTTPClient.doGet {τ δ : Type} (std : Std) (apid : HTTPClient τ) (urlFragment : String)
    (params : Values) (decode : String → Except String δ) (resultName : String) (s : τ) :
    (Option String × Option δ) × τ :=
  apid.makeRequestToAPId std (apid.BaseURL ++ urlFragment) params decode resultName s

/-- The method `updateFunctionCache`: the error and the client after the call. -/
def HTTPClient.updateFunctionCache {τ : Type} (std : Std) (apid : HTTPClient τ) (s : τ) :
    (Option String × HTTPClient τ) × τ :=
  let out := apid.doGet std "/api/functions.json" [] std.UnmarshalFunctions "functions" s
  match out.1 with
  | (some err, _) => ((some err, apid), out.2)
  | (none, funcs) =>
    ((none, { apid with functions := funcs.getD none, hasFunctions := true }), out.2)

/-- The method `getFunctionInfo`: the three results and the client after the call. -/
def HTTPClient.getFunctionInfo {τ : Type} (std : Std) (apid : HTTPClient τ) (name : String)
    (s : τ) : ((FunctionInfo × Bool × Option String) × HTTPClient τ) × τ :=
  match lookupFunction apid name with
  | some thisFunc => (((thisFunc, true, none), apid), s)
  | none =>
    let u := apid.updateFunctionCache std s
    match u.1.1 with
    | some err => (((⟨"", ""⟩, false, some err), u.1.2), u.2)
    | none =>
      match lookupFunction u.1.2 name with
      | some thisFunc => (((thisFunc, true, none), u.1.2), u.2)
      | none => (((⟨"", ""⟩, false, none), u.1.2), u.2)

/-- The method `DoFunction`: the error, the value stored through `dataPtr`, and the client
after the call. -/
def HTTPClient.DoFunction {τ δ : Type} (std : Std) (apid : HTTPClient τ) (name : String)
    (params : Values) (decode : String → Except String δ) (s : τ) :
    ((Option String × Option δ) × HTTPClient τ) × τ :=
  let g := apid.getFunctionInfo std name s
  match g.1.1 with
  | (_, _, some err) => (((some err, none), g.1.2), g.2)
  | (_, false, none) => (((some ("unknown function: " ++ name), none), g.1.2), g.2)
  | (thisFunc, true, none) =>
    let out := g.1.2.doGet std thisFunc.Path params decode thisFunc.Return g.2
    ((out.1, g.1.2), out.2)

/-! ### Test doubles and predicates -/

/-- A requester that records, oldest first, the requests it is given, and answers each
with `reply`. -/
def recordingRequester (reply : Request → Except String Response) :
    HTTPRequester (List Request) :=
  { Do := fun request log => (reply request, log ++ [request]) }

/-- The request that `do` hands to the requester, when `http.NewRequest` builds one. -/
def sent {τ : Type} (std : Std) (apid : HTTPClient τ) (urlFragment : String)
    (params : Values) : List Request :=
  match std.NewRequest "GET" (apid.BaseURL ++ urlFragment ++ "?" ++ std.Encode params) with
  | .error _ => []
  | .ok request =>
    match apid.RequestHandler with
    | some handler => [handler request]
    | none => [request]

/-- The server answers the request for the function list with status 200 and a body from
which the list `funcs` is decoded. -/
def ListsFunctions (std : Std) (apid : HTTPClient (List Request))
    (reply : Request → Except String Response) (funcs : Option functionsList) : Prop :=
  ∃ request body envelope,
    sent std apid "/api/functions.json" [] = [request] ∧
    reply request = .ok ⟨200, .ok body⟩ ∧
    std.UnmarshalEnvelope body = .ok envelope ∧
    std.UnmarshalFunctions ((envelope.lookup "functions").getD "") = .ok funcs

/-- The three functions of `functionsListJSON` in `http_client_test.go`. -/
def testFunctions : functionsList :=
  [("getCredentials", ⟨"result", "/api/credential/get.json"⟩),
   ("getUserPermissions", ⟨"success", "/api/user/permissions/get.json"⟩),
   ("addTeslaTemplate", ⟨"result", "/api/tesla/transactional/add.json"⟩)]

/-- A standard library for the tests.  Parameters are not encoded (the tests below send
none), every URL gives a request, and two bodies are understood: `functionsListJSON`,
whose member `functions` decodes to `testFunctions`, and a body with one member
`result`. -/
def testStd : Std :=
  { Encode := fun _ => ""
    NewRequest := fun method url => .ok ⟨method, url⟩
    UnmarshalEnvelope := fun body =>
      if body = "functionsListJSON" then .ok [("functions", "the three functions")]
      else if body = "\x7b\x22result\x22: \x229000\x22\x7d" then .ok [("result", "\x229000\x22")]
      else .error "invalid character"
    UnmarshalFunctions := fun raw =>
      if raw = "the three functions" then .ok (some testFunctions)
      else .error "unexpected end of JSON input" }

/-- The server of `Test_HTTPClient_DoFunction_QueriesFunctionsOnce`: status 200 always, the
function list at `/api/functions.json` and a result at the path of `addTeslaTemplate`. -/
def testServer (request : Request) : Except String Response :=
  if request.URL = "http://apid/api/functions.json?" then .ok ⟨200, .ok "functionsListJSON"⟩
  else if request.URL = "http://apid/api/tesla/transactional/add.json?" then
    .ok ⟨200, .ok "\x7b\x22result\x22: \x229000\x22\x7d"⟩
  else .ok ⟨200, .ok ""⟩

/-- A decoder for a `dataPtr` that points to a string: a quoted string is stored without
its quotes. -/
def decodeString (raw : String) : Except String String :=
  match raw.data with
  | '\x22' :: rest =>
    match rest.reverse with
    | '\x22' :: inner => .ok ⟨inner.reverse⟩
    | _ => .error "unexpected end of JSON input"
  | _ => .error "cannot unmarshal into Go value of type string"

/-- The client of the tests: `NewHTTPClient` on the recording requester. -/
def testClient : HTTPClient (List Request) :=
  NewHTTPClient (recordingRequester testServer) "http://apid"

end Apid

namespace Redisadaptor

open Mcredis

/-! ## Package redisadaptor: the key store on top of mcredis -/

/-- What the adaptor takes from the packages `mcredis` and `uuid`: `mcredis.NewMcRedis`,
whose instance holds a commander over the state `τ`, and `uuid.New`. -/
structure Packages (τ : Type) where
  NewMcRedis : RedisConfig → τ →
    Outcome (RedisInstance (RedisCommander τ) × Option Error) × τ
  uuidNew : τ → String × τ

/-- The struct `redisAdaptor`. -/
structure redisAdaptor where
  config : Mcredis.RedisConfig

/-- The method `Get`: the data and the error.  A nil reply gives empty data; the type
assertion panics on a reply that is neither nil nor a byte slice. -/
def redisAdaptor.Get {τ : Type} (pk : Packages τ) (adaptor : redisAdaptor) (key : String)
    (s : τ) : Outcome (String × Option Error) × τ :=
  let emptyData := ""
  let n := pk.NewMcRedis adaptor.config s
  match n.1 with
  | .panic msg => (.panic msg, n.2)
  | .outOfFuel => (.outOfFuel, n.2)
  | .ret (_, some err) => (.ret (emptyData, some err), n.2)
  | .ret (r, none) =>
    let out := r.Get key n.2
    match out.1 with
    | .panic msg => (.panic msg, out.2)
    | .outOfFuel => (.outOfFuel, out.2)
    | .ret (_, some err) => (.ret (emptyData, some err), out.2)
    | .ret (Value.nil, none) => (.ret (emptyData, none), out.2)
    | .ret (Value.bytes data, none) => (.ret (data, none), out.2)
    | .ret (_, none) =>
      (.panic "interface conversion: interface is not a byte slice", out.2)

/-- The method `Set`: `SETEX key ttl data` when `ttl > 0`, else `SET key data`. -/
def redisAdaptor.Set {τ : Type} (pk : Packages τ) (adaptor : redisAdaptor) (key : String)
    (data : String) (ttl : Int) (s : τ) : Outcome (Option Error) × τ :=
  let n := pk.NewMcRedis adaptor.config s
  match n.1 with
  | .panic msg => (.panic msg, n.2)
  | .outOfFuel => (.outOfFuel, n.2)
  | .ret (_, some err) => (.ret (some err), n.2)
  | .ret (r, none) =>
    let out :=
      if ttl > 0 then r.Do "SETEX" [Value.str key, Value.int ttl, Value.bytes data] n.2
      else r.Do "SET" [Value.str key, Value.bytes data] n.2
    match out.1 with
    | .panic msg => (.panic msg, out.2)
    | .outOfFuel => (.outOfFuel, out.2)
    | .ret (_, some err) => (.ret (some err), out.2)
    | .ret (_, none) => (.ret none, out.2)

/-- The method `availableUUID`; the fuel bounds the rounds of its loop. -/
def redisAdaptor.availableUUID {τ : Type} (pk : Packages τ) (adaptor : redisAdaptor) :
    Nat → τ → Outcome (String × Option Error) × τ
  | 0, s => (.outOfFuel, s)
  | fuel + 1, s =>
    let u := pk.uuidNew s
    let g := adaptor.Get pk u.1 u.2
    match g.1 with
    | .panic msg => (.panic msg, g.2)
    | .outOfFuel => (.outOfFuel, g.2)
    | .ret (_, some err) => (.ret ("", some err), g.2)
    | .ret (data, none) =>
      if data.length = 0 then (.ret (u.1, none), g.2)
      else redisAdaptor.availableUUID pk adaptor fuel g.2

/-- The method `SetWithUUID`. -/
def redisAdaptor.SetWithUUID {τ : Type} (pk : Packages τ) (adaptor : redisAdaptor)
    (fuel : Nat) (data : String) (ttl : Int) (s : τ) : Outcome (String × Option Error) × τ :=
  let a := adaptor.availableUUID pk fuel s
  match a.1 with
  | .panic msg => (.panic msg, a.2)
  | .outOfFuel => (.outOfFuel, a.2)
  | .ret (_, some err) => (.ret ("", some err), a.2)
  | .ret (UUID, none) =>
    let e := adaptor.Set pk UUID data ttl a.2
    match e.1 with
    | .panic msg => (.panic msg, e.2)
    | .outOfFuel => (.outOfFuel, e.2)
    | .ret err => (.ret (UUID, err), e.2)

/-- The sentinel client seen through the interface `RedisCommander` by a caller that uses
it for one command: the state is the network. -/
def clientCommander {σ : Type} (env : Env σ) (fuel : Nat) (rs : RedisSentinel σ) :
    RedisCommander (St σ) :=
  { Do := fun action params st =>
      let out := Mcredis.Do env fuel rs action params st
      (out.1.map (fun res => res.1), out.2)
    GetInfo := fun st => Mcredis.GetInfo rs st }

/-- The packages as they are: `NewMcRedis` of package mcredis on the environment `env`,
and a generator `uuid` of identifiers. -/
def sentinelPackages {σ : Type} (env : Env σ) (fuel : Nat) (uuid : σ → String × σ) :
    Packages (St σ) :=
  { NewMcRedis := fun conf st =>
      let out := Mcredis.NewMcRedis env conf st
      (out.1.map (fun r => (⟨r.1.RedisCommander.map (clientCommander env fuel)⟩, r.2)), out.2)
    uuidNew := fun st => ((uuid st.world).1, ⟨(uuid st.world).2, st.calls⟩) }

/-- The packages with every commander recording, oldest first, the commands given to
it. -/
def recording {τ : Type} (pk : Packages τ) : Packages (τ × List (String × List Value)) :=
  { NewMcRedis := fun conf s =>
      let out := pk.NewMcRedis conf s.1
      (out.1.map (fun r => (⟨r.1.RedisCommander.map loggedCommander⟩, r.2)), (out.2, s.2))
    uuidNew := fun s => ((pk.uuidNew s.1).1, ((pk.uuidNew s.1).2, s.2)) }

/-! ### Test doubles and predicates -/

/-- A store over the clock world in which the key `taken` holds `old` and no other key
holds anything: `GET taken` is answered with the bytes `old`, any other `GET` with nil, and
any other command with `OK`. -/
def storeConnection : Connection Int :=
  fakeConnection 0 (fun commandName args =>
    if commandName = "GET" then
      if args = [Value.str "taken"] then (Value.bytes "old", none) else (Value.nil, none)
    else (Value.str "OK", none))

/-- A generator whose first identifier, at clock zero, is `taken`, and whose identifiers
are `fresh` from then on; each call takes a nanosecond. -/
def testUUID (w : Int) : String × Int :=
  (if w = 0 then "taken" else "fresh", w + 1)

/-- The adaptor of the tests: the master `mymaster`, the sentinel `good:2` and a call
timeout of 1ms. -/
def testAdaptor : redisAdaptor :=
  { config := { confWith "mymaster" ["good:2"] with CallTimeout := 1 * Millisecond } }

/-- From the state `s` the generator yields the identifiers `ids` one after the other, the
`Get` of each returns data that is not empty with a nil error, and the state is then
`s1`. -/
def Skipped {τ : Type} (pk : Packages τ) (adaptor : redisAdaptor) :
    List String → τ → τ → Prop
  | [], s, s1 => s1 = s
  | u :: us, s, s1 =>
    ∃ data s2, (pk.uuidNew s).1 = u ∧
      adaptor.Get pk u (pk.uuidNew s).2 = (.ret (data, none), s2) ∧ data ≠ "" ∧
      Skipped pk adaptor us s2 s1

/-- The command `Set` sends for a key: `SETEX` with the ttl when `ttl > 0`, else `SET`. -/
def writeOf (key data : String) (ttl : Int) : String × List Value :=
  if ttl > 0 then ("SETEX", [Value.str key, Value.int ttl, Value.bytes data])
  else ("SET", [Value.str key, Value.bytes data])

end Redisadaptor

/-! # Theorems -/

namespace Mcredis

/-! ## Counting calls -/

theorem dialCount_append (xs ys : List Call) :
    dialCount (xs ++ ys) = dialCount xs + dialCount ys := by
  simp [dialCount, List.countP_append]

theorem dialTimeoutCount_append (xs ys : List Call) :
    dialTimeoutCount (xs ++ ys) = dialTimeoutCount xs + dialTimeoutCount ys := by
  simp [dialTimeoutCount, List.countP_append]

theorem runDeferred_dialCount {σ : Type} (ds : List (Connection σ × String)) (st : St σ) :
    dialCount (runDeferred ds st).calls = dialCount st.calls := by
  induction ds generalizing st with
  | nil => rfl
  | cons d ds ih =>
    obtain ⟨conn, address⟩ := d
    rw [runDeferred, ih, callClose]
    show dialCount (st.calls ++ [Call.Close address]) = _
    rw [dialCount_append]; rfl

theorem runDeferred_dialTimeoutCount {σ : Type} (ds : List (Connection σ × String))
    (st : St σ) : dialTimeoutCount (runDeferred ds st).calls = dialTimeoutCount st.calls := by
  induction ds generalizing st with
  | nil => rfl
  | cons d ds ih =>
    obtain ⟨conn, address⟩ := d
    rw [runDeferred, ih, callClose]
    show dialTimeoutCount (st.calls ++ [Call.Close address]) = _
    rw [dialTimeoutCount_append]; rfl

/-! ## Steps of the resolver loop -/

theorem loop_malformed {σ : Type} (r : RedisSentinel σ) (server : String) (rest : List String)
    (deferred : List (Connection σ × String)) (st : St σ)
    (h : stringsContains server ":" = false) :
    connectAndGetMasterLoop r (server :: rest) deferred st =
      (.ret ("", some (Error.MalformedServerNodeError
        ("Node: " ++ server ++ " does not contain a port"))), deferred, st) := by
  simp [connectAndGetMasterLoop, h]

theorem loop_dial_error {σ : Type} (r : RedisSentinel σ) (server : String) (rest : List String)
    (deferred : List (Connection σ × String)) (st : St σ) (e : Error)
    (h : stringsContains server ":" = true)
    (hd : (r.dialer.DialTimeout "tcp" server (300 * Millisecond) 0 0 st.world).1 = .error e) :
    (connectAndGetMasterLoop r (server :: rest) deferred st).1 = .ret noSentinelFound := by
  simp [connectAndGetMasterLoop, h, callDialTimeout, hd]

theorem getMasterAddress_ok {σ : Type} (r : RedisSentinel σ) (conn : Connection σ)
    (address : String) (st : St σ) (reply : Value) (w : σ) (masterAddr : String)
    (hname : r.masterName ≠ "")
    (hdo : conn.Do "SENTINEL" [Value.str "get-master-addr-by-name", Value.str r.masterName]
      st.world = ((reply, none), w))
    (haddr : constructMasterAddress reply = .ret masterAddr) :
    getMasterAddressGivenClusterConnection r conn address st =
      (.ret (masterAddr, none), ⟨w, st.calls ++ [Call.Do address "SENTINEL"
        [Value.str "get-master-addr-by-name", Value.str r.masterName]]⟩) := by
  cases reply <;>
    simp_all [getMasterAddressGivenClusterConnection, callDo, constructMasterAddress]

theorem confirm_dialCount {σ : Type} (r : RedisSentinel σ) (masterAddr : String) (st : St σ) :
    dialCount (confirmMasterConnection r masterAddr st).2.calls = dialCount st.calls + 1 := by
  unfold confirmMasterConnection callDial
  cases hd : (r.dialer.Dial "tcp" masterAddr st.world).1 with
  | error e =>
    simp only [hd]
    rw [dialCount_append]; rfl
  | ok masterConn =>
    simp only [hd]
    split <;>
    · simp only [callDo]
      rw [dialCount_append, dialCount_append]; rfl

theorem confirm_dialTimeoutCount {σ : Type} (r : RedisSentinel σ) (masterAddr : String)
    (st : St σ) :
    dialTimeoutCount (confirmMasterConnection r masterAddr st).2.calls
      = dialTimeoutCount st.calls := by
  unfold confirmMasterConnection callDial
  cases hd : (r.dialer.Dial "tcp" masterAddr st.world).1 with
  | error e =>
    simp only [hd]
    rw [dialTimeoutCount_append]; rfl
  | ok masterConn =>
    simp only [hd]
    split <;>
    · simp only [callDo]
      rw [dialTimeoutCount_append, dialTimeoutCount_append]; rfl

theorem loop_step_nonMaster {σ : Type} (r : RedisSentinel σ) (server : String)
    (rest : List String) (deferred : List (Connection σ × String)) (st : St σ)
    (h : PointsAtNonMaster r server) :
    ∃ deferred1 st1,
      connectAndGetMasterLoop r (server :: rest) deferred st
        = connectAndGetMasterLoop r rest deferred1 st1 ∧
      dialTimeoutCount st1.calls = dialTimeoutCount st.calls + 1 ∧
      dialCount st1.calls = dialCount st.calls + 1 := by
  obtain ⟨hwf, hname, hw⟩ := h
  obtain ⟨conn, w1, hdial, hdo⟩ := hw st.world
  obtain ⟨reply, w3, masterAddr, hq, haddr, hconf⟩ := hdo w1
  have hm := getMasterAddress_ok r conn server
    ⟨w1, st.calls ++ [Call.DialTimeout "tcp" server (300 * Millisecond) 0 0]⟩
    reply w3 masterAddr hname hq haddr
  refine ⟨(conn, server) :: deferred, (confirmMasterConnection r masterAddr
    ⟨w3, (st.calls ++ [Call.DialTimeout "tcp" server (300 * Millisecond) 0 0]) ++
      [Call.Do server "SENTINEL"
        [Value.str "get-master-addr-by-name", Value.str r.masterName]]⟩).2, ?_, ?_, ?_⟩
  · rw [connectAndGetMasterLoop]
    simp only [hwf, callDialTimeout, hdial, hm, hconf]
    simp
  · rw [confirm_dialTimeoutCount]
    show dialTimeoutCount (_ ++ _) = _
    rw [dialTimeoutCount_append, dialTimeoutCount_append]; rfl
  · rw [confirm_dialCount]
    show dialCount (_ ++ _) + 1 = _
    rw [dialCount_append, dialCount_append]; rfl

theorem loop_prefix_nonMaster {σ : Type} (r : RedisSentinel σ) (pre rest : List String)
    (deferred : List (Connection σ × String)) (st : St σ)
    (h : ∀ s ∈ pre, PointsAtNonMaster r s) :
    ∃ deferred1 st1,
      connectAndGetMasterLoop r (pre ++ rest) deferred st
        = connectAndGetMasterLoop r rest deferred1 st1 ∧
      dialTimeoutCount st1.calls = dialTimeoutCount st.calls + pre.length ∧
      dialCount st1.calls = dialCount st.calls + pre.length := by
  induction pre generalizing deferred st with
  | nil => exact ⟨deferred, st, rfl, rfl, rfl⟩
  | cons server pre ih =>
    obtain ⟨d1, s1, hstep, h1, h2⟩ :=
      loop_step_nonMaster r server (pre ++ rest) deferred st (h server (List.mem_cons_self _ _))
    obtain ⟨d2, s2, hrest, h3, h4⟩ :=
      ih d1 s1 (fun s hs => h s (List.mem_cons_of_mem _ hs))
    refine ⟨d2, s2, by rw [List.cons_append, hstep, hrest], ?_, ?_⟩
    · rw [h3, h1, List.length_cons]; omega
    · rw [h4, h2, List.length_cons]; omega

theorem NewSentinel_of_error {σ : Type} (env : Env σ) (conf : RedisConfig) (st : St σ)
    (a : String) (e : Error)
    (h : (connectAndGetMaster (NewSentinel.rs env conf) st).1 = .ret (a, some e)) :
    (NewSentinel env conf st).1 = .ret (none, some e) := by
  simp [NewSentinel, initializeSentinel, h]

theorem stale_pointsAtNonMaster (servers : List String) :
    PointsAtNonMaster (sentinelWith staleGoodDialer "mymaster" servers) "stale:1" := by
  refine ⟨by decide, (by decide : "mymaster" ≠ ""), fun w =>
    ⟨fakeSentinel "10.0.0.9" "6379", w, rfl, fun w2 =>
    ⟨Value.array [Value.bytes "10.0.0.9", Value.bytes "6379"], w2 + 0, "10.0.0.9:6379",
      rfl, by decide, fun st => ?_⟩⟩⟩
  rfl

theorem redisString_contains_roleMaster (out : Value × Option Error) :
    stringsContains (redisString out.1 out.2).1 "role:master" = true ↔
      ∃ info, infoText out = some info ∧ stringsContains info "role:master" = true := by
  have hempty : stringsContains "" "role:master" = false := by decide
  obtain ⟨reply, err⟩ := out
  cases err with
  | some e => simp [redisString, infoText, hempty]
  | none => cases reply <;> simp [redisString, infoText, hempty]

theorem confirm_iff {σ : Type} (r : RedisSentinel σ) (masterAddr : String) (st : St σ) :
    (confirmMasterConnection r masterAddr st).1 = true ↔
      Confirms r.dialer masterAddr st.world := by
  unfold confirmMasterConnection callDial Confirms
  cases hd : (r.dialer.Dial "tcp" masterAddr st.world).1 with
  | error e => simp [hd]
  | ok masterConn =>
    simp only [hd, callDo, Except.ok.injEq, exists_eq_left']
    rw [← redisString_contains_roleMaster]
    split <;> simp_all

theorem Func_first_ok {σ β : Type} (env : Env σ)
    (f : St σ → Outcome (Option Error × β) × St σ) (interval timeout : Int) (fuel : Nat)
    (st st1 : St σ) (b : β)
    (hle : interval ≤ timeout)
    (hf : f st = (.ret (none, b), st1))
    (hnow : env.now st1.world < env.now st.world + timeout) :
    Func env f interval timeout (fuel + 1) st = (.ret (none, some b), st1) := by
  have h1 : ¬ (interval > timeout) := not_lt.mpr hle
  have h2 : ¬ (env.now st.world + timeout ≤ env.now st1.world) := not_le.mpr hnow
  rw [Func, if_neg h1, FuncLoop]
  simp only [hf, if_neg h2]

theorem loop_result {σ : Type} (r : RedisSentinel σ) (servers : List String)
    (deferred : List (Connection σ × String)) (st : St σ)
    (hwf : ∀ s ∈ servers, stringsContains s ":" = true)
    (addr : String) (err : Option Error)
    (h : (connectAndGetMasterLoop r servers deferred st).1 = .ret (addr, err)) :
    (err = none ∧ ∃ st1, (confirmMasterConnection r addr st1).1 = true) ∨
      (addr, err) = noSentinelFound := by
  induction servers generalizing deferred st with
  | nil =>
    right
    simp only [connectAndGetMasterLoop, Outcome.ret.injEq] at h
    exact h.symm
  | cons server rest ih =>
    have hs : stringsContains server ":" = true := hwf server (List.mem_cons_self _ _)
    have hrest : ∀ s ∈ rest, stringsContains s ":" = true :=
      fun s hmem => hwf s (List.mem_cons_of_mem _ hmem)
    rw [connectAndGetMasterLoop] at h
    simp only [hs, Bool.not_true, Bool.false_eq_true, if_false] at h
    cases hd : (callDialTimeout r.dialer "tcp" server (300 * Millisecond) 0 0 st).1 with
    | error e =>
      simp only [hd, Outcome.ret.injEq] at h
      exact Or.inr h.symm
    | ok initialConn =>
      simp only [hd] at h
      cases hm : (getMasterAddressGivenClusterConnection r initialConn server
          (callDialTimeout r.dialer "tcp" server (300 * Millisecond) 0 0 st).2).1 with
      | panic msg => simp [hm] at h
      | outOfFuel => simp [hm] at h
      | ret p =>
        obtain ⟨masterAddr, e⟩ := p
        cases e with
        | some e =>
          simp only [hm, Outcome.ret.injEq] at h
          exact Or.inr h.symm
        | none =>
          simp only [hm] at h
          split at h
          · rename_i hc
            simp only [Outcome.ret.injEq, Prod.mk.injEq] at h
            obtain ⟨h1, h2⟩ := h
            subst h1 h2
            exact Or.inl ⟨rfl, _, hc⟩
          · exact ih _ _ hrest h

/-! ## Calls that a count ignores -/

theorem countP_snoc_false (p : Call → Bool) (calls : List Call) (c : Call) (h : p c = false) :
    (calls ++ [c]).countP p = calls.countP p := by
  simp [List.countP_append, h]

theorem runDeferred_countP {σ : Type} (p : Call → Bool)
    (hClose : ∀ a, p (Call.Close a) = false)
    (ds : List (Connection σ × String)) (st : St σ) :
    (runDeferred ds st).calls.countP p = st.calls.countP p := by
  induction ds generalizing st with
  | nil => rfl
  | cons d ds ih =>
    obtain ⟨conn, address⟩ := d
    rw [runDeferred, ih, callClose]
    exact countP_snoc_false p _ _ (hClose address)

theorem confirm_countP {σ : Type} (p : Call → Bool)
    (hDial : ∀ a b, p (Call.Dial a b) = false)
    (hDo : ∀ a b c, p (Call.Do a b c) = false)
    (r : RedisSentinel σ) (masterAddr : String) (st : St σ) :
    (confirmMasterConnection r masterAddr st).2.calls.countP p = st.calls.countP p := by
  unfold confirmMasterConnection callDial
  cases hd : (r.dialer.Dial "tcp" masterAddr st.world).1 with
  | error e =>
    simp only [hd]
    exact countP_snoc_false p _ _ (hDial _ _)
  | ok masterConn =>
    simp only [hd]
    split <;>
    · simp only [callDo]
      rw [countP_snoc_false p _ _ (hDo _ _ _), countP_snoc_false p _ _ (hDial _ _)]

theorem getMasterAddress_countP {σ : Type} (p : Call → Bool)
    (hDo : ∀ a b c, p (Call.Do a b c) = false)
    (r : RedisSentinel σ) (conn : Connection σ) (address : String) (st : St σ) :
    (getMasterAddressGivenClusterConnection r conn address st).2.calls.countP p
      = st.calls.countP p := by
  unfold getMasterAddressGivenClusterConnection
  have hc : (callDo conn address "SENTINEL"
      [Value.str "get-master-addr-by-name", Value.str r.masterName] st).2.calls.countP p
      = st.calls.countP p := by
    simp only [callDo]
    exact countP_snoc_false p _ _ (hDo _ _ _)
  dsimp only
  repeat' split
  all_goals first | rfl | exact hc

theorem loop_countP {σ : Type} (p : Call → Bool)
    (hDial : ∀ a b, p (Call.Dial a b) = false)
    (hDialTimeout : ∀ a b c d e, p (Call.DialTimeout a b c d e) = false)
    (hDo : ∀ a b c, p (Call.Do a b c) = false)
    (r : RedisSentinel σ) (servers : List String)
    (deferred : List (Connection σ × String)) (st : St σ) :
    (connectAndGetMasterLoop r servers deferred st).2.2.calls.countP p
      = st.calls.countP p := by
  induction servers generalizing deferred st with
  | nil => rfl
  | cons server rest ih =>
    rw [connectAndGetMasterLoop]
    have hd : (callDialTimeout r.dialer "tcp" server (300 * Millisecond) 0 0 st).2.calls.countP p
        = st.calls.countP p := by
      simp only [callDialTimeout]
      exact countP_snoc_false p _ _ (hDialTimeout _ _ _ _ _)
    dsimp only
    split
    · rfl
    · split
      · exact hd
      · rename_i initialConn _
        have hm := getMasterAddress_countP p hDo r initialConn server
          (callDialTimeout r.dialer "tcp" server (300 * Millisecond) 0 0 st).2
        split
        · exact hm.trans hd
        · exact hm.trans hd
        · exact hm.trans hd
        · rename_i masterAddr _
          have hc := confirm_countP p hDial hDo r masterAddr
            (getMasterAddressGivenClusterConnection r initialConn server
              (callDialTimeout r.dialer "tcp" server (300 * Millisecond) 0 0 st).2).2
          split
          · exact hc.trans (hm.trans hd)
          · rw [ih]
            exact hc.trans (hm.trans hd)

theorem connectAndGetMaster_countP {σ : Type} (p : Call → Bool)
    (hDial : ∀ a b, p (Call.Dial a b) = false)
    (hDialTimeout : ∀ a b c d e, p (Call.DialTimeout a b c d e) = false)
    (hDo : ∀ a b c, p (Call.Do a b c) = false)
    (hClose : ∀ a, p (Call.Close a) = false)
    (r : RedisSentinel σ) (st : St σ) :
    (connectAndGetMaster r st).2.calls.countP p = st.calls.countP p := by
  simp only [connectAndGetMaster]
  rw [runDeferred_countP p hClose]
  exact loop_countP p hDial hDialTimeout hDo r r.servers [] st

theorem initializeSentinel_snd {σ : Type} (r : RedisSentinel σ) (st : St σ) :
    (initializeSentinel r st).2 = (connectAndGetMaster r st).2 := by
  unfold initializeSentinel
  dsimp only
  repeat' split
  all_goals rfl

theorem rebuild_rebuildCount {σ : Type} (r : RedisSentinel σ) (st : St σ) :
    rebuildCount (RebuildConnectionPool r st).2.calls = rebuildCount st.calls + 1 := by
  unfold RebuildConnectionPool
  rw [initializeSentinel_snd]
  unfold rebuildCount
  rw [connectAndGetMaster_countP _ (fun _ _ => rfl) (fun _ _ _ _ _ => rfl) (fun _ _ _ => rfl)
    (fun _ => rfl)]
  simp [List.countP_append]

theorem FuncLoop_countP {σ β : Type} (p : Call → Bool)
    (hSleep : ∀ d, p (Call.Sleep d) = false)
    (env : Env σ) (f : St σ → Outcome (Option Error × β) × St σ)
    (hf : ∀ s, (f s).2.calls.countP p = s.calls.countP p)
    (interval timeout deadline : Int) (fuel : Nat) (lastError : Option Error)
    (last : Option β) (st : St σ) :
    (FuncLoop env f interval timeout deadline fuel lastError last st).2.calls.countP p
      = st.calls.countP p := by
  induction fuel generalizing lastError last st with
  | zero => rfl
  | succ fuel ih =>
    rw [FuncLoop]
    split
    · exact hf st
    · exact hf st
    · split
      · exact hf st
      · split
        · exact hf st
        · rw [ih]
          exact (countP_snoc_false p _ _ (hSleep _)).trans (hf st)

theorem Func_countP {σ β : Type} (p : Call → Bool)
    (hSleep : ∀ d, p (Call.Sleep d) = false)
    (env : Env σ) (f : St σ → Outcome (Option Error × β) × St σ)
    (hf : ∀ s, (f s).2.calls.countP p = s.calls.countP p)
    (interval timeout : Int) (fuel : Nat) (st : St σ) :
    (Func env f interval timeout fuel st).2.calls.countP p = st.calls.countP p := by
  unfold Func
  split
  · rfl
  · exact FuncLoop_countP p hSleep env f hf _ _ _ _ _ _ _

theorem getConn_countP {σ : Type} (p : Call → Bool) (hGet : ∀ a, p (Call.Get a) = false)
    (env : Env σ) (r : RedisSentinel σ) (s : St σ) :
    (getConn env r s).2.calls.countP p = s.calls.countP p := by
  unfold getConn
  dsimp only
  split
  · rfl
  · exact countP_snoc_false p _ _ (hGet _)

/-! ## Rounds of `waitfor.Func` -/

theorem Func_fail_then_timeout {σ β : Type} (env : Env σ)
    (f : St σ → Outcome (Option Error × β) × St σ) (interval timeout : Int) (fuel : Nat)
    (st st1 st2 : St σ) (e : Error) (b : β) (res2 : Option Error × β)
    (hle : interval ≤ timeout)
    (hf1 : f st = (.ret (some e, b), st1))
    (hnow1 : env.now st1.world < env.now st.world + timeout)
    (hf2 : f ⟨env.sleep interval st1.world, st1.calls ++ [Call.Sleep interval]⟩
      = (.ret res2, st2))
    (hnow2 : env.now st.world + timeout ≤ env.now st2.world) :
    Func env f interval timeout (fuel + 2) st
      = (.ret (some (newTimeoutError timeout (timeoutMessage env.durationString (some e))),
          some b), st2) := by
  have h1 : ¬ (interval > timeout) := not_lt.mpr hle
  have h2 : ¬ (env.now st.world + timeout ≤ env.now st1.world) := not_le.mpr hnow1
  obtain ⟨err2, b2⟩ := res2
  rw [Func, if_neg h1, FuncLoop]
  simp only [hf1, if_neg h2]
  rw [FuncLoop]
  simp only [hf2, if_pos hnow2]

theorem FuncLoop_no_panic {σ β : Type} (env : Env σ)
    (f : St σ → Outcome (Option Error × β) × St σ)
    (hf : ∀ s msg, (f s).1 ≠ .panic msg)
    (interval timeout deadline : Int) (fuel : Nat) (lastError : Option Error)
    (last : Option β) (st : St σ) (msg : String) :
    (FuncLoop env f interval timeout deadline fuel lastError last st).1 ≠ .panic msg := by
  induction fuel generalizing lastError last st with
  | zero => simp [FuncLoop]
  | succ fuel ih =>
    rw [FuncLoop]
    split
    · rename_i m hm
      exact absurd hm (hf st m)
    · simp
    · split
      · simp
      · split
        · simp
        · exact ih _ _ _

theorem Func_no_panic {σ β : Type} (env : Env σ)
    (f : St σ → Outcome (Option Error × β) × St σ)
    (hf : ∀ s msg, (f s).1 ≠ .panic msg)
    (interval timeout : Int) (hle : interval ≤ timeout) (fuel : Nat) (st : St σ)
    (msg : String) :
    (Func env f interval timeout fuel st).1 ≠ .panic msg := by
  rw [Func, if_neg (not_lt.mpr hle)]
  exact FuncLoop_no_panic env f hf _ _ _ _ _ _ _ _

theorem FuncLoop_count_le {σ β : Type} (env : Env σ)
    (f : St σ → Outcome (Option Error × β) × St σ)
    (count : St σ → Nat)
    (hf : ∀ s, count s + 1 ≤ count (f s).2)
    (hsleep : ∀ (s : St σ) d, count s ≤ count ⟨env.sleep d s.world, s.calls ++ [Call.Sleep d]⟩)
    (interval timeout deadline : Int) (fuel : Nat) (lastError : Option Error)
    (last : Option β) (st : St σ) :
    count st ≤ count (FuncLoop env f interval timeout deadline fuel lastError last st).2 := by
  induction fuel generalizing lastError last st with
  | zero => exact le_refl _
  | succ fuel ih =>
    have h0 : count st ≤ count (f st).2 := Nat.le_of_succ_le (hf st)
    rw [FuncLoop]
    split
    · exact h0
    · exact h0
    · split
      · exact h0
      · split
        · exact h0
        · exact le_trans (le_trans h0 (hsleep _ _)) (ih _ _ _)

theorem FuncLoop_invoked {σ β : Type} (env : Env σ)
    (f : St σ → Outcome (Option Error × β) × St σ)
    (count : St σ → Nat)
    (hf : ∀ s, count s + 1 ≤ count (f s).2)
    (hsleep : ∀ (s : St σ) d, count s ≤ count ⟨env.sleep d s.world, s.calls ++ [Call.Sleep d]⟩)
    (interval timeout deadline : Int) (fuel : Nat) (lastError : Option Error)
    (last : Option β) (st : St σ) :
    count st + 1 ≤ count
      (FuncLoop env f interval timeout deadline (fuel + 1) lastError last st).2 := by
  rw [FuncLoop]
  split
  · exact hf st
  · exact hf st
  · split
    · exact hf st
    · split
      · exact hf st
      · exact le_trans (le_trans (hf st) (hsleep _ _))
          (FuncLoop_count_le env f count hf hsleep _ _ _ _ _ _ _)

/-- What `FuncLoop` returns next to an error: a `TimeoutError` built from the last error
received.  Either the timer fired in the first round of this loop, and the last error and
values are those the loop started with, or they are those of an invocation of `f` that
returned before the deadline. -/
theorem FuncLoop_error {σ β : Type} (env : Env σ)
    (f : St σ → Outcome (Option Error × β) × St σ)
    (interval timeout deadline : Int) (fuel : Nat) (lastError : Option Error)
    (last : Option β) (st st1 : St σ) (err : Error) (result : Option β)
    (h : FuncLoop env f interval timeout deadline fuel lastError last st
      = (.ret (some err, result), st1)) :
    ∃ le, err = newTimeoutError timeout (timeoutMessage env.durationString le) ∧
      ((le = lastError ∧ result = last ∧ deadline ≤ env.now (f st).2.world) ∨
        ∃ s e b, le = some e ∧ result = some b ∧ (f s).1 = .ret (some e, b) ∧
          env.now (f s).2.world < deadline) := by
  induction fuel generalizing lastError last st with
  | zero => simp [FuncLoop] at h
  | succ fuel ih =>
    rw [FuncLoop] at h
    split at h
    · simp at h
    · simp at h
    · rename_i e0 b0 hf0
      split at h
      · rename_i hlate
        simp only [Prod.mk.injEq, Outcome.ret.injEq, Option.some.injEq] at h
        obtain ⟨⟨h1, h2⟩, _⟩ := h
        exact ⟨lastError, h1.symm, Or.inl ⟨rfl, h2.symm, hlate⟩⟩
      · rename_i hearly
        split at h
        · simp at h
        · rename_i e1
          obtain ⟨le, hle, hcase⟩ := ih _ _ _ h
          refine ⟨le, hle, Or.inr ?_⟩
          rcases hcase with ⟨h1, h2, _⟩ | hex
          · exact ⟨st, e1, b0, h1, h2, hf0, not_le.mp hearly⟩
          · exact hex

theorem Func_error {σ β : Type} (env : Env σ)
    (f : St σ → Outcome (Option Error × β) × St σ)
    (interval timeout : Int) (fuel : Nat) (st st1 : St σ) (err : Error) (result : Option β)
    (h : Func env f interval timeout fuel st = (.ret (some err, result), st1)) :
    ∃ le, err = newTimeoutError timeout (timeoutMessage env.durationString le) ∧
      ((le = none ∧ result = none ∧ env.now st.world + timeout ≤ env.now (f st).2.world) ∨
        ∃ s e b, le = some e ∧ result = some b ∧ (f s).1 = .ret (some e, b) ∧
          env.now (f s).2.world < env.now st.world + timeout) := by
  unfold Func at h
  split at h
  · simp at h
  · exact FuncLoop_error env f _ _ _ _ _ _ _ _ _ _ h

theorem FuncLoop_ok {σ β : Type} (env : Env σ)
    (f : St σ → Outcome (Option Error × β) × St σ)
    (interval timeout deadline : Int) (fuel : Nat) (lastError : Option Error)
    (last : Option β) (st st1 : St σ) (result : Option β)
    (h : FuncLoop env f interval timeout deadline fuel lastError last st
      = (.ret (none, result), st1)) :
    ∃ s b, result = some b ∧ (f s).1 = .ret (none, b) ∧ st1 = (f s).2 := by
  induction fuel generalizing lastError last st with
  | zero => simp [FuncLoop] at h
  | succ fuel ih =>
    rw [FuncLoop] at h
    split at h
    · simp at h
    · simp at h
    · rename_i e0 b0 hf0
      split at h
      · simp [newTimeoutError] at h
      · split at h
        · simp only [Prod.mk.injEq, Outcome.ret.injEq] at h
          obtain ⟨⟨_, h2⟩, h3⟩ := h
          exact ⟨st, b0, h2.symm, hf0, h3.symm⟩
        · exact ih _ _ _ h

theorem Func_ok {σ β : Type} (env : Env σ)
    (f : St σ → Outcome (Option Error × β) × St σ)
    (interval timeout : Int) (fuel : Nat) (st st1 : St σ) (result : Option β)
    (h : Func env f interval timeout fuel st = (.ret (none, result), st1)) :
    ∃ s b, result = some b ∧ (f s).1 = .ret (none, b) ∧ st1 = (f s).2 := by
  unfold Func at h
  split at h
  · simp at h
  · exact FuncLoop_ok env f _ _ _ _ _ _ _ _ _ h

theorem getConn_ret {σ : Type} (env : Env σ) (r : RedisSentinel σ) (s : St σ)
    (oe : Option Error) (conn : Connection σ)
    (h : (getConn env r s).1 = .ret (oe, conn)) :
    ∃ pool, r.connPool = some pool ∧ conn = (env.poolGet pool r.masterHost s.world).1 := by
  unfold getConn at h
  cases hp : r.connPool with
  | none => simp [hp] at h
  | some pool =>
    simp only [hp, Outcome.ret.injEq, Prod.mk.injEq] at h
    exact ⟨pool, rfl, h.2.symm⟩

theorem getConn_no_panic {σ : Type} (env : Env σ) (r : RedisSentinel σ)
    (hpool : r.connPool ≠ none) (s : St σ) (msg : String) :
    (getConn env r s).1 ≠ .panic msg := by
  unfold getConn
  cases hp : r.connPool with
  | none => exact absurd hp hpool
  | some pool => simp

theorem commandRound_countP {σ : Type} (p : Call → Bool)
    (hDo : ∀ a b c, p (Call.Do a b c) = false)
    (conn : Connection σ) (address action : String) (params : List Value) (s : St σ) :
    (commandRound conn address action params s).2.calls.countP p = s.calls.countP p := by
  simp only [commandRound, callDo]
  exact countP_snoc_false p _ _ (hDo _ _ _)

/-! ## Substrings -/

theorem stringsContains_iff (s sub : String) :
    stringsContains s sub = true ↔ sub.data <:+: s.data := by
  unfold stringsContains
  rw [List.any_eq_true]
  constructor
  · rintro ⟨t, ht, hp⟩
    rw [List.mem_tails] at ht
    rw [List.isPrefixOf_iff_prefix] at hp
    exact List.infix_iff_prefix_suffix.2 ⟨t, hp, ht⟩
  · intro h
    obtain ⟨t, hp, ht⟩ := List.infix_iff_prefix_suffix.1 h
    exact ⟨t, (List.mem_tails _ _).2 ht, List.isPrefixOf_iff_prefix.2 hp⟩

theorem stringsContains_middle (a s b : String) : stringsContains (a ++ s ++ b) s = true := by
  rw [stringsContains_iff]
  simp only [String.data_append]
  exact List.infix_append _ _ _

theorem stringsContains_of_middle (a s b sub : String) (h : stringsContains s sub = true) :
    stringsContains (a ++ s ++ b) sub = true := by
  rw [stringsContains_iff] at h ⊢
  simp only [String.data_append]
  exact h.trans (List.infix_append _ _ _)

theorem infix_strip_left {α : Type} (c : α) (rest : List α) (pre tail : List α)
    (hc : c ∉ pre) (h : (c :: rest) <:+: pre ++ tail) : (c :: rest) <:+: tail := by
  induction pre with
  | nil => simpa using h
  | cons a pre ih =>
    rw [List.cons_append, List.infix_cons_iff] at h
    rcases h with h | h
    · exfalso
      obtain ⟨t, ht⟩ := h
      rw [List.cons_append] at ht
      injection ht with h1 _
      exact hc (by rw [h1]; exact List.mem_cons_self _ _)
    · exact ih (fun hm => hc (List.mem_cons_of_mem _ hm)) h

theorem infix_strip_right {α : Type} (d : α) (front : List α) (body post : List α)
    (hd : d ∉ post) (h : (front ++ [d]) <:+: body ++ post) : (front ++ [d]) <:+: body := by
  have h1 : (d :: front.reverse) <:+: post.reverse ++ body.reverse := by
    have := List.reverse_infix.2 h
    simpa using this
  have h2 := infix_strip_left d front.reverse post.reverse body.reverse
    (fun hm => hd (List.mem_reverse.1 hm)) h1
  have h3 := List.reverse_infix.2 h2
  simpa using h3

theorem readOnlyMarker_needs_Y (s : String) (h : ¬ 'Y' ∈ s.data) :
    stringsContains s readOnlyMarker = false := by
  rw [Bool.eq_false_iff]
  intro hc
  rw [stringsContains_iff] at hc
  have hm : readOnlyMarker.data
      = 'Y' :: "ou can\x27t write against a read only slave.".data := by decide
  rw [hm] at hc
  have h0 : ('Y' :: "ou can\x27t write against a read only slave.".data) <:+: s.data ++ [] := by
    simpa using hc
  have h1 := infix_strip_left _ _ _ _ h h0
  simp at h1

/-- The message of a `TimeoutError` carries the read-only marker only when the last error
it quotes does, as long as the printed duration has no capital `Y`. -/
theorem timeoutError_marker {ds : Int → String} (t : Int) (lastError : Option Error)
    (hY : ∀ d, ¬ 'Y' ∈ (ds d).data)
    (hlast : ∀ e, lastError = some e → stringsContains (e.Error ds) readOnlyMarker = false) :
    stringsContains ((newTimeoutError t (timeoutMessage ds lastError)).Error ds)
      readOnlyMarker = false := by
  cases lastError with
  | none =>
    apply readOnlyMarker_needs_Y
    simp only [newTimeoutError, Error.Error, timeoutMessage, String.data_append,
      List.mem_append, not_or]
    exact ⟨⟨⟨by decide, hY t⟩, by decide⟩, by decide⟩
  | some e =>
    have he := hlast e rfl
    rw [Bool.eq_false_iff] at he ⊢
    intro hc
    apply he
    rw [stringsContains_iff] at hc ⊢
    have hm1 : readOnlyMarker.data
        = 'Y' :: "ou can\x27t write against a read only slave.".data := by decide
    have hm2 : readOnlyMarker.data
        = "You can\x27t write against a read only slave".data ++ ['.'] := by decide
    simp only [newTimeoutError, Error.Error, timeoutMessage, String.data_append] at hc
    have hpre : ¬ 'Y' ∈ "waitfor: timed out waiting ".data ++ (ds t).data ++ " ".data
        ++ ("; last error: ".data ++ "\x27".data) := by
      simp only [List.mem_append, not_or]
      exact ⟨⟨⟨by decide, hY t⟩, by decide⟩, ⟨by decide, by decide⟩⟩
    have hc2 : readOnlyMarker.data <:+:
        ("waitfor: timed out waiting ".data ++ (ds t).data ++ " ".data
          ++ ("; last error: ".data ++ "\x27".data)) ++ ((e.Error ds).data ++ "\x27".data) := by
      simpa [List.append_assoc] using hc
    rw [hm1] at hc2
    have hc3 := infix_strip_left _ _ _ _ hpre hc2
    rw [← hm1, hm2] at hc3
    have hc4 := infix_strip_right '.' _ _ _ (by decide) hc3
    rw [← hm2] at hc4
    exact hc4

/-! ## Levels of `Do` -/

theorem Do_step_g_panic {σ : Type} (env : Env σ) (fuel : Nat) (r : RedisSentinel σ)
    (action : String) (params : List Value) (st st1 : St σ)
    (msg : String)
    (hg : Func env (getConn env r) (1 * Millisecond) r.callTimeout (fuel + 1) st
      = (.panic msg, st1)) :
    Do env (fuel + 1) r action params st = (.panic msg, st1) := by
  rw [Do]
  simp only [hg]

theorem Do_step_g_fuel {σ : Type} (env : Env σ) (fuel : Nat) (r : RedisSentinel σ)
    (action : String) (params : List Value) (st st1 : St σ)
    (hg : Func env (getConn env r) (1 * Millisecond) r.callTimeout (fuel + 1) st
      = (.outOfFuel, st1)) :
    Do env (fuel + 1) r action params st = (.outOfFuel, st1) := by
  rw [Do]
  simp only [hg]

theorem Do_step_g_err {σ : Type} (env : Env σ) (fuel : Nat) (r : RedisSentinel σ)
    (action : String) (params : List Value) (st st1 : St σ)
    (err : Error) (x : Option (Connection σ))
    (hg : Func env (getConn env r) (1 * Millisecond) r.callTimeout (fuel + 1) st
      = (.ret (some err, x), st1)) :
    Do env (fuel + 1) r action params st = (.ret ((Value.nil, some err), r), st1) := by
  rw [Do]
  simp only [hg]

theorem Do_step_g_nil {σ : Type} (env : Env σ) (fuel : Nat) (r : RedisSentinel σ)
    (action : String) (params : List Value) (st st1 : St σ)
    (hg : Func env (getConn env r) (1 * Millisecond) r.callTimeout (fuel + 1) st
      = (.ret (none, none), st1)) :
    Do env (fuel + 1) r action params st = 
      (.panic "runtime error: invalid memory address or nil pointer dereference", st1) := by
  rw [Do]
  simp only [hg]

theorem Do_step_e_panic {σ : Type} (env : Env σ) (fuel : Nat) (r : RedisSentinel σ)
    (action : String) (params : List Value) (st st1 : St σ)
    (conn : Connection σ)
    (hg : Func env (getConn env r) (1 * Millisecond) r.callTimeout (fuel + 1) st
      = (.ret (none, some conn), st1))
    (st2 : St σ) (msg : String)
    (he : Func env (commandRound conn r.masterHost action params) (1 * Millisecond)
      r.callTimeout (fuel + 1) st1 = (.panic msg, st2)) :
    Do env (fuel + 1) r action params st = (.panic msg, callClose conn r.masterHost st2) := by
  have he1 : Func env
      (fun s =>
        let out := callDo conn r.masterHost action params s
        (Outcome.ret (out.1.2, out.1.1), out.2))
      (1 * Millisecond) r.callTimeout (fuel + 1) st1 = (.panic msg, st2) := he
  rw [Do]
  simp only [hg, he1]

theorem Do_step_e_fuel {σ : Type} (env : Env σ) (fuel : Nat) (r : RedisSentinel σ)
    (action : String) (params : List Value) (st st1 : St σ)
    (conn : Connection σ)
    (hg : Func env (getConn env r) (1 * Millisecond) r.callTimeout (fuel + 1) st
      = (.ret (none, some conn), st1))
    (st2 : St σ)
    (he : Func env (commandRound conn r.masterHost action params) (1 * Millisecond)
      r.callTimeout (fuel + 1) st1 = (.outOfFuel, st2)) :
    Do env (fuel + 1) r action params st = (.outOfFuel, st2) := by
  have he1 : Func env
      (fun s =>
        let out := callDo conn r.masterHost action params s
        (Outcome.ret (out.1.2, out.1.1), out.2))
      (1 * Millisecond) r.callTimeout (fuel + 1) st1 = (.outOfFuel, st2) := he
  rw [Do]
  simp only [hg, he1]

theorem Do_step_e_ok {σ : Type} (env : Env σ) (fuel : Nat) (r : RedisSentinel σ)
    (action : String) (params : List Value) (st st1 : St σ)
    (conn : Connection σ)
    (hg : Func env (getConn env r) (1 * Millisecond) r.callTimeout (fuel + 1) st
      = (.ret (none, some conn), st1))
    (st2 : St σ) (result : Option Value)
    (he : Func env (commandRound conn r.masterHost action params) (1 * Millisecond)
      r.callTimeout (fuel + 1) st1 = (.ret (none, result), st2)) :
    Do env (fuel + 1) r action params st = 
      (.ret ((result.getD Value.nil, none), r), callClose conn r.masterHost st2) := by
  have he1 : Func env
      (fun s =>
        let out := callDo conn r.masterHost action params s
        (Outcome.ret (out.1.2, out.1.1), out.2))
      (1 * Millisecond) r.callTimeout (fuel + 1) st1 = (.ret (none, result), st2) := he
  rw [Do]
  simp only [hg, he1]

theorem Do_step_e_err {σ : Type} (env : Env σ) (fuel : Nat) (r : RedisSentinel σ)
    (action : String) (params : List Value) (st st1 : St σ)
    (conn : Connection σ)
    (hg : Func env (getConn env r) (1 * Millisecond) r.callTimeout (fuel + 1) st
      = (.ret (none, some conn), st1))
    (st2 : St σ) (err : Error) (result : Option Value)
    (he : Func env (commandRound conn r.masterHost action params) (1 * Millisecond)
      r.callTimeout (fuel + 1) st1 = (.ret (some err, result), st2))
    (hmarker : stringsContains (err.Error env.durationString) readOnlyMarker = false) :
    Do env (fuel + 1) r action params st = 
      (.ret ((result.getD Value.nil, some err), r), callClose conn r.masterHost st2) := by
  have he1 : Func env
      (fun s =>
        let out := callDo conn r.masterHost action params s
        (Outcome.ret (out.1.2, out.1.1), out.2))
      (1 * Millisecond) r.callTimeout (fuel + 1) st1 = (.ret (some err, result), st2) := he
  rw [Do]
  simp only [hg, he1, hmarker, Bool.false_eq_true, if_false]

theorem Do_step_rb_panic {σ : Type} (env : Env σ) (fuel : Nat) (r : RedisSentinel σ)
    (action : String) (params : List Value) (st st1 : St σ)
    (conn : Connection σ)
    (hg : Func env (getConn env r) (1 * Millisecond) r.callTimeout (fuel + 1) st
      = (.ret (none, some conn), st1))
    (st2 : St σ) (err : Error) (result : Option Value) (st3 : St σ) (msg : String)
    (he : Func env (commandRound conn r.masterHost action params) (1 * Millisecond)
      r.callTimeout (fuel + 1) st1 = (.ret (some err, result), st2))
    (hmarker : stringsContains (err.Error env.durationString) readOnlyMarker = true)
    (hrb : RebuildConnectionPool r st2 = (.panic msg, st3)) :
    Do env (fuel + 1) r action params st = 
      (.panic msg, callClose conn r.masterHost st3) := by
  have he1 : Func env
      (fun s =>
        let out := callDo conn r.masterHost action params s
        (Outcome.ret (out.1.2, out.1.1), out.2))
      (1 * Millisecond) r.callTimeout (fuel + 1) st1 = (.ret (some err, result), st2) := he
  rw [Do]
  simp only [hg, he1, hmarker, if_true, hrb]

theorem Do_step_rb_fuel {σ : Type} (env : Env σ) (fuel : Nat) (r : RedisSentinel σ)
    (action : String) (params : List Value) (st st1 : St σ)
    (conn : Connection σ)
    (hg : Func env (getConn env r) (1 * Millisecond) r.callTimeout (fuel + 1) st
      = (.ret (none, some conn), st1))
    (st2 : St σ) (err : Error) (result : Option Value) (st3 : St σ)
    (he : Func env (commandRound conn r.masterHost action params) (1 * Millisecond)
      r.callTimeout (fuel + 1) st1 = (.ret (some err, result), st2))
    (hmarker : stringsContains (err.Error env.durationString) readOnlyMarker = true)
    (hrb : RebuildConnectionPool r st2 = (.outOfFuel, st3)) :
    Do env (fuel + 1) r action params st = (.outOfFuel, st3) := by
  have he1 : Func env
      (fun s =>
        let out := callDo conn r.masterHost action params s
        (Outcome.ret (out.1.2, out.1.1), out.2))
      (1 * Millisecond) r.callTimeout (fuel + 1) st1 = (.ret (some err, result), st2) := he
  rw [Do]
  simp only [hg, he1, hmarker, if_true, hrb]

theorem Do_step_rb_err {σ : Type} (env : Env σ) (fuel : Nat) (r : RedisSentinel σ)
    (action : String) (params : List Value) (st st1 : St σ)
    (conn : Connection σ)
    (hg : Func env (getConn env r) (1 * Millisecond) r.callTimeout (fuel + 1) st
      = (.ret (none, some conn), st1))
    (st2 : St σ) (err err1 : Error) (result : Option Value) (st3 : St σ)
    (r1 : RedisSentinel σ)
    (he : Func env (commandRound conn r.masterHost action params) (1 * Millisecond)
      r.callTimeout (fuel + 1) st1 = (.ret (some err, result), st2))
    (hmarker : stringsContains (err.Error env.durationString) readOnlyMarker = true)
    (hrb : RebuildConnectionPool r st2 = (.ret (r1, some err1), st3)) :
    Do env (fuel + 1) r action params st = 
      (.ret ((result.getD Value.nil, some err1), r1), callClose conn r.masterHost st3) := by
  have he1 : Func env
      (fun s =>
        let out := callDo conn r.masterHost action params s
        (Outcome.ret (out.1.2, out.1.1), out.2))
      (1 * Millisecond) r.callTimeout (fuel + 1) st1 = (.ret (some err, result), st2) := he
  rw [Do]
  simp only [hg, he1, hmarker, if_true, hrb]

theorem Do_step_rb_ok {σ : Type} (env : Env σ) (fuel : Nat) (r : RedisSentinel σ)
    (action : String) (params : List Value) (st st1 : St σ)
    (conn : Connection σ)
    (hg : Func env (getConn env r) (1 * Millisecond) r.callTimeout (fuel + 1) st
      = (.ret (none, some conn), st1))
    (st2 : St σ) (err : Error) (result : Option Value) (st3 : St σ)
    (r1 : RedisSentinel σ)
    (he : Func env (commandRound conn r.masterHost action params) (1 * Millisecond)
      r.callTimeout (fuel + 1) st1 = (.ret (some err, result), st2))
    (hmarker : stringsContains (err.Error env.durationString) readOnlyMarker = true)
    (hrb : RebuildConnectionPool r st2 = (.ret (r1, none), st3)) :
    Do env (fuel + 1) r action params st = 
      match (Do env fuel r1 action params st3).1 with
      | .panic msg => (.panic msg, callClose conn r.masterHost (Do env fuel r1 action params st3).2)
      | .outOfFuel => (.outOfFuel, (Do env fuel r1 action params st3).2)
      | .ret res => (.ret res, callClose conn r.masterHost (Do env fuel r1 action params st3).2) := by
  have he1 : Func env
      (fun s =>
        let out := callDo conn r.masterHost action params s
        (Outcome.ret (out.1.2, out.1.1), out.2))
      (1 * Millisecond) r.callTimeout (fuel + 1) st1 = (.ret (some err, result), st2) := he
  rw [Do]
  simp only [hg, he1, hmarker, if_true, hrb]

theorem timeoutError_contains_last (ds : Int → String) (t : Int) (e : Error) (sub : String)
    (h : stringsContains (e.Error ds) sub = true) :
    stringsContains ((newTimeoutError t (timeoutMessage ds (some e))).Error ds) sub = true := by
  show stringsContains ("waitfor: timed out waiting " ++ ds t ++ " "
    ++ ("; last error: " ++ "\x27" ++ e.Error ds ++ "\x27")) sub = true
  generalize e.Error ds = m at h ⊢
  rw [stringsContains_iff] at h ⊢
  simp only [String.data_append]
  exact h.trans ⟨"waitfor: timed out waiting ".data ++ (ds t).data ++ " ".data
    ++ ("; last error: ".data ++ "\x27".data), "\x27".data, by simp [List.append_assoc]⟩

theorem stringsContains_self (s : String) : stringsContains s s = true :=
  (stringsContains_iff s s).2 (List.infix_refl _)

theorem timeoutError_contains_did_not_return (ds : Int → String) (t : Int) :
    stringsContains ((newTimeoutError t (timeoutMessage ds none)).Error ds)
      "function did not return" = true := by
  show stringsContains ("waitfor: timed out waiting " ++ ds t ++ " "
    ++ "; function did not return") "function did not return" = true
  rw [stringsContains_iff]
  simp only [String.data_append]
  exact ⟨"waitfor: timed out waiting ".data ++ (ds t).data ++ " ".data ++ "; ".data, [],
    by simp [List.append_assoc]⟩

theorem rebuild_fields {σ : Type} (r r1 : RedisSentinel σ) (st st1 : St σ)
    (oe : Option Error) (h : RebuildConnectionPool r st = (.ret (r1, oe), st1)) :
    r1.callTimeout = r.callTimeout ∧ r1.servers = r.servers ∧ r1.dialer = r.dialer ∧
      r1.masterName = r.masterName ∧ (oe = none → r1.connPool = some (newPool r1)) := by
  unfold RebuildConnectionPool initializeSentinel at h
  dsimp only at h
  split at h
  · simp at h
  · simp at h
  · simp only [Prod.mk.injEq, Outcome.ret.injEq] at h
    obtain ⟨⟨h1, h2⟩, _⟩ := h
    subst h1 h2
    simp
  · simp only [Prod.mk.injEq, Outcome.ret.injEq] at h
    obtain ⟨⟨h1, h2⟩, _⟩ := h
    subst h1 h2
    simp [newPool]

theorem Do_ok_of_first_reply {σ : Type} (env : Env σ) (r : RedisSentinel σ) (pool : Pool)
    (action : String) (params : List Value) (st : St σ) (fuel : Nat) (v : Value)
    (conn : Connection σ) (w1 w2 : σ)
    (hpool : r.connPool = some pool)
    (htimeout : 1 * Millisecond ≤ r.callTimeout)
    (hget : env.poolGet pool r.masterHost st.world = (conn, w1))
    (hnow1 : env.now w1 < env.now st.world + r.callTimeout)
    (hdo : conn.Do action params w1 = ((v, none), w2))
    (hnow2 : env.now w2 < env.now w1 + r.callTimeout) :
    Do env (fuel + 1) r action params st
      = (.ret ((v, none), r), callClose conn r.masterHost
          ⟨w2, st.calls ++ [Call.Get r.masterHost] ++ [Call.Do r.masterHost action params]⟩) := by
  have hg : Func env (getConn env r) (1 * Millisecond) r.callTimeout (fuel + 1) st
      = (.ret (none, some conn), ⟨w1, st.calls ++ [Call.Get r.masterHost]⟩) :=
    Func_first_ok env _ _ _ fuel st _ conn htimeout
      (by simp only [getConn, hpool, hget]) hnow1
  have he : Func env (commandRound conn r.masterHost action params) (1 * Millisecond)
      r.callTimeout (fuel + 1) ⟨w1, st.calls ++ [Call.Get r.masterHost]⟩
      = (.ret (none, some v), ⟨w2, st.calls ++ [Call.Get r.masterHost] ++
          [Call.Do r.masterHost action params]⟩) :=
    Func_first_ok env _ _ _ fuel _ _ v htimeout
      (by simp only [commandRound, callDo, hdo]) hnow2
  rw [Do_step_e_ok env fuel r action params st _ conn hg _ _ he]
  rfl

/-- The first level of `Do` when the command fails once with the marker and its retry is
not answered before the timeout: both rounds of `waitfor.Func`. -/
theorem Do_marker_rounds {σ : Type} (env : Env σ) (r : RedisSentinel σ) (pool : Pool)
    (action : String) (params : List Value) (st : St σ) (fuel : Nat)
    (conn : Connection σ) (w1 w2 w3 : σ) (v1 : Value) (e1 : Error)
    (out2 : Value × Option Error)
    (hpool : r.connPool = some pool)
    (htimeout : 1 * Millisecond ≤ r.callTimeout)
    (hget : env.poolGet pool r.masterHost st.world = (conn, w1))
    (hnow1 : env.now w1 < env.now st.world + r.callTimeout)
    (hdo1 : conn.Do action params w1 = ((v1, some e1), w2))
    (hin1 : env.now w2 < env.now w1 + r.callTimeout)
    (hdo2 : conn.Do action params (env.sleep (1 * Millisecond) w2) = (out2, w3))
    (hout2 : env.now w1 + r.callTimeout ≤ env.now w3) :
    Func env (getConn env r) (1 * Millisecond) r.callTimeout (fuel + 2) st
      = (.ret (none, some conn), ⟨w1, st.calls ++ [Call.Get r.masterHost]⟩) ∧
    Func env (commandRound conn r.masterHost action params) (1 * Millisecond)
      r.callTimeout (fuel + 2) ⟨w1, st.calls ++ [Call.Get r.masterHost]⟩
      = (.ret (some (newTimeoutError r.callTimeout
            (timeoutMessage env.durationString (some e1))), some v1),
          ⟨w3, st.calls ++ [Call.Get r.masterHost] ++ [Call.Do r.masterHost action params]
            ++ [Call.Sleep (1 * Millisecond)] ++ [Call.Do r.masterHost action params]⟩) := by
  constructor
  · exact Func_first_ok env _ _ _ (fuel + 1) st _ conn htimeout
      (by simp only [getConn, hpool, hget]) hnow1
  · exact Func_fail_then_timeout env _ _ _ fuel _
      ⟨w2, st.calls ++ [Call.Get r.masterHost] ++ [Call.Do r.masterHost action params]⟩
      _ e1 v1 (out2.2, out2.1) htimeout
      (by simp only [commandRound, callDo, hdo1]) hin1
      (by simp only [commandRound, callDo, hdo2]) hout2

theorem callClose_countP {σ : Type} (p : Call → Bool)
    (hClose : ∀ a, p (Call.Close a) = false)
    (conn : Connection σ) (address : String) (st : St σ) :
    (callClose conn address st).calls.countP p = st.calls.countP p :=
  countP_snoc_false p _ _ (hClose address)

theorem rebuildCount_callClose {σ : Type} (conn : Connection σ) (address : String)
    (st : St σ) : rebuildCount (callClose conn address st).calls = rebuildCount st.calls :=
  callClose_countP _ (fun _ => rfl) conn address st

theorem rebuildCount_Func_getConn {σ : Type} (env : Env σ) (r : RedisSentinel σ)
    (interval timeout : Int) (fuel : Nat) (st : St σ) :
    rebuildCount (Func env (getConn env r) interval timeout fuel st).2.calls
      = rebuildCount st.calls :=
  Func_countP _ (fun _ => rfl) env _ (getConn_countP _ (fun _ => rfl) env r) _ _ _ _

theorem rebuildCount_Func_command {σ : Type} (env : Env σ) (conn : Connection σ)
    (address action : String) (params : List Value)
    (interval timeout : Int) (fuel : Nat) (st : St σ) :
    rebuildCount (Func env (commandRound conn address action params) interval timeout
      fuel st).2.calls = rebuildCount st.calls :=
  Func_countP _ (fun _ => rfl) env _
    (commandRound_countP _ (fun _ _ _ => rfl) conn address action params) _ _ _ _

/-- Every level of `Do` invokes `RebuildConnectionPool` at most once; after a rebuild that
succeeds it calls `Do` again, once, and ends as that call ends. -/
theorem Do_level {σ : Type} (env : Env σ) (fuel : Nat) (r : RedisSentinel σ)
    (action : String) (params : List Value) (st : St σ) :
    rebuildCount (Do env (fuel + 1) r action params st).2.calls ≤ rebuildCount st.calls + 1 ∨
    ∃ r1 st2 st3, RebuildConnectionPool r st2 = (.ret (r1, none), st3) ∧
      rebuildCount st2.calls = rebuildCount st.calls ∧
      (Do env (fuel + 1) r action params st).1 = (Do env fuel r1 action params st3).1 ∧
      rebuildCount (Do env (fuel + 1) r action params st).2.calls
        = rebuildCount (Do env fuel r1 action params st3).2.calls := by
  rcases hG : Func env (getConn env r) (1 * Millisecond) r.callTimeout (fuel + 1) st
    with ⟨og, st1⟩
  have hc1 : rebuildCount st1.calls = rebuildCount st.calls := by
    have h := rebuildCount_Func_getConn env r (1 * Millisecond) r.callTimeout (fuel + 1) st
    rw [hG] at h
    exact h
  cases og with
  | panic msg =>
    left
    rw [Do_step_g_panic env fuel r action params st st1 msg hG, hc1]
    exact Nat.le_succ _
  | outOfFuel =>
    left
    rw [Do_step_g_fuel env fuel r action params st st1 hG, hc1]
    exact Nat.le_succ _
  | ret pr =>
    obtain ⟨oe, oc⟩ := pr
    cases oe with
    | some err =>
      left
      rw [Do_step_g_err env fuel r action params st st1 err oc hG, hc1]
      exact Nat.le_succ _
    | none =>
      cases oc with
      | none =>
        left
        rw [Do_step_g_nil env fuel r action params st st1 hG, hc1]
        exact Nat.le_succ _
      | some conn =>
        rcases hE : Func env (commandRound conn r.masterHost action params) (1 * Millisecond)
          r.callTimeout (fuel + 1) st1 with ⟨oe2, st2⟩
        have hc2 : rebuildCount st2.calls = rebuildCount st.calls := by
          have h := rebuildCount_Func_command env conn r.masterHost action params
            (1 * Millisecond) r.callTimeout (fuel + 1) st1
          rw [hE] at h
          rw [h, hc1]
        cases oe2 with
        | panic msg =>
          left
          rw [Do_step_e_panic env fuel r action params st st1 conn hG st2 msg hE,
            rebuildCount_callClose, hc2]
          exact Nat.le_succ _
        | outOfFuel =>
          left
          rw [Do_step_e_fuel env fuel r action params st st1 conn hG st2 hE, hc2]
          exact Nat.le_succ _
        | ret pr2 =>
          obtain ⟨oerr, result⟩ := pr2
          cases oerr with
          | none =>
            left
            rw [Do_step_e_ok env fuel r action params st st1 conn hG st2 result hE,
              rebuildCount_callClose, hc2]
            exact Nat.le_succ _
          | some err =>
            cases hm : stringsContains (err.Error env.durationString) readOnlyMarker with
            | false =>
              left
              rw [Do_step_e_err env fuel r action params st st1 conn hG st2 err result hE hm,
                rebuildCount_callClose, hc2]
              exact Nat.le_succ _
            | true =>
              rcases hR : RebuildConnectionPool r st2 with ⟨orb, st3⟩
              have hc3 : rebuildCount st3.calls = rebuildCount st.calls + 1 := by
                have h := rebuild_rebuildCount r st2
                rw [hR] at h
                rw [h, hc2]
              cases orb with
              | panic msg =>
                left
                rw [Do_step_rb_panic env fuel r action params st st1 conn hG st2 err result
                  st3 msg hE hm hR, rebuildCount_callClose, hc3]
              | outOfFuel =>
                left
                rw [Do_step_rb_fuel env fuel r action params st st1 conn hG st2 err result
                  st3 hE hm hR, hc3]
              | ret pr3 =>
                obtain ⟨r1, oe3⟩ := pr3
                cases oe3 with
                | some err1 =>
                  left
                  rw [Do_step_rb_err env fuel r action params st st1 conn hG st2 err err1
                    result st3 r1 hE hm hR, rebuildCount_callClose, hc3]
                | none =>
                  right
                  refine ⟨r1, st2, st3, hR, hc2, ?_⟩
                  rw [Do_step_rb_ok env fuel r action params st st1 conn hG st2 err result
                    st3 r1 hE hm hR]
                  cases (Do env fuel r1 action params st3).1 with
                  | panic msg => exact ⟨rfl, rebuildCount_callClose _ _ _⟩
                  | outOfFuel => exact ⟨rfl, rfl⟩
                  | ret res => exact ⟨rfl, rebuildCount_callClose _ _ _⟩

/-- When no error of the command carries the marker, `Do` leaves the client as it was and
appends to the log only borrows, commands, sleeps and closes. -/
theorem Do_no_marker {σ : Type} (p : Call → Bool)
    (hGet : ∀ a, p (Call.Get a) = false)
    (hDo : ∀ a b c, p (Call.Do a b c) = false)
    (hClose : ∀ a, p (Call.Close a) = false)
    (hSleep : ∀ d, p (Call.Sleep d) = false)
    (env : Env σ) (fuel : Nat) (r : RedisSentinel σ)
    (action : String) (params : List Value) (st : St σ)
    (hY : ∀ d, ¬ 'Y' ∈ (env.durationString d).data)
    (hcmd : ∀ pool w0 w e, r.connPool = some pool →
      ((env.poolGet pool r.masterHost w0).1.Do action params w).1.2 = some e →
      stringsContains (e.Error env.durationString) readOnlyMarker = false) :
    (∀ res r1, (Do env fuel r action params st).1 = .ret (res, r1) → r1 = r) ∧
    (Do env fuel r action params st).2.calls.countP p = st.calls.countP p := by
  cases fuel with
  | zero => simp [Do]
  | succ fuel =>
    rcases hG : Func env (getConn env r) (1 * Millisecond) r.callTimeout (fuel + 1) st
      with ⟨og, st1⟩
    have hc1 : st1.calls.countP p = st.calls.countP p := by
      have h := Func_countP p hSleep env _ (getConn_countP p hGet env r)
        (1 * Millisecond) r.callTimeout (fuel + 1) st
      rw [hG] at h
      exact h
    cases og with
    | panic msg =>
      rw [Do_step_g_panic env fuel r action params st st1 msg hG]
      exact ⟨by simp, hc1⟩
    | outOfFuel =>
      rw [Do_step_g_fuel env fuel r action params st st1 hG]
      exact ⟨by simp, hc1⟩
    | ret pr =>
      obtain ⟨oe, oc⟩ := pr
      cases oe with
      | some err =>
        rw [Do_step_g_err env fuel r action params st st1 err oc hG]
        refine ⟨fun res r1 h => ?_, hc1⟩
        simp only [Outcome.ret.injEq, Prod.mk.injEq] at h
        exact h.2.symm
      | none =>
        cases oc with
        | none =>
          rw [Do_step_g_nil env fuel r action params st st1 hG]
          exact ⟨by simp, hc1⟩
        | some conn =>
          obtain ⟨s0, conn0, hconn0, hf0, _⟩ := Func_ok env _ _ _ _ _ _ _ hG
          obtain ⟨pool, hpool, hconn⟩ := getConn_ret env r s0 none conn0 hf0
          have hconn1 : conn = (env.poolGet pool r.masterHost s0.world).1 := by
            rw [← hconn]
            exact Option.some.inj hconn0
          rcases hE : Func env (commandRound conn r.masterHost action params)
            (1 * Millisecond) r.callTimeout (fuel + 1) st1 with ⟨oe2, st2⟩
          have hc2 : st2.calls.countP p = st.calls.countP p := by
            have h := Func_countP p hSleep env _
              (commandRound_countP p hDo conn r.masterHost action params)
              (1 * Millisecond) r.callTimeout (fuel + 1) st1
            rw [hE] at h
            rw [h, hc1]
          have hclose : (callClose conn r.masterHost st2).calls.countP p
              = st.calls.countP p := by
            rw [callClose_countP p hClose, hc2]
          cases oe2 with
          | panic msg =>
            rw [Do_step_e_panic env fuel r action params st st1 conn hG st2 msg hE]
            exact ⟨by simp, hclose⟩
          | outOfFuel =>
            rw [Do_step_e_fuel env fuel r action params st st1 conn hG st2 hE]
            exact ⟨by simp, hc2⟩
          | ret pr2 =>
            obtain ⟨oerr, result⟩ := pr2
            cases oerr with
            | none =>
              rw [Do_step_e_ok env fuel r action params st st1 conn hG st2 result hE]
              refine ⟨fun res r1 h => ?_, hclose⟩
              simp only [Outcome.ret.injEq, Prod.mk.injEq] at h
              exact h.2.symm
            | some err =>
              have hm : stringsContains (err.Error env.durationString) readOnlyMarker
                  = false := by
                obtain ⟨le, hle, hcase⟩ := Func_error env _ _ _ _ _ _ _ _ hE
                rw [hle]
                apply timeoutError_marker _ _ hY
                intro e he
                rcases hcase with ⟨hnone, _, _⟩ | ⟨s, e2, b, hsome, _, hround, _⟩
                · rw [hnone] at he
                  exact absurd he (by simp)
                · rw [hsome] at he
                  have he2 : e2 = e := Option.some.inj he
                  subst he2
                  simp only [commandRound, callDo, Outcome.ret.injEq, Prod.mk.injEq] at hround
                  rw [hconn1] at hround
                  exact hcmd pool s0.world s.world e2 hpool hround.1
              rw [Do_step_e_err env fuel r action params st st1 conn hG st2 err result hE hm]
              refine ⟨fun res r1 h => ?_, hclose⟩
              simp only [Outcome.ret.injEq, Prod.mk.injEq] at h
              exact h.2.symm

/-! ## Panics -/

theorem getMasterAddress_no_panic {σ : Type} (r : RedisSentinel σ) (conn : Connection σ)
    (address : String) (st : St σ) (msg : String)
    (hans : ∀ args w2, (conn.Do "SENTINEL" args w2).1.2 = none →
      (conn.Do "SENTINEL" args w2).1.1 = Value.nil ∨
        ∃ x xs, (conn.Do "SENTINEL" args w2).1.1 = Value.array (x :: xs)) :
    (getMasterAddressGivenClusterConnection r conn address st).1 ≠ .panic msg := by
  unfold getMasterAddressGivenClusterConnection callDo
  dsimp only
  split
  · simp
  · cases he : (conn.Do "SENTINEL"
        [Value.str "get-master-addr-by-name", Value.str r.masterName] st.world).1.2 with
    | some e => simp
    | none =>
      rcases hans _ _ he with h | ⟨x, xs, h⟩
      · simp [h]
      · simp [h, constructMasterAddress]

theorem loop_no_panic {σ : Type} (r : RedisSentinel σ) (hsent : SentinelsAnswerLists r.dialer)
    (servers : List String) (deferred : List (Connection σ × String)) (st : St σ)
    (msg : String) :
    (connectAndGetMasterLoop r servers deferred st).1 ≠ .panic msg := by
  induction servers generalizing deferred st with
  | nil => simp [connectAndGetMasterLoop]
  | cons server rest ih =>
    rw [connectAndGetMasterLoop]
    dsimp only
    split
    · simp
    · unfold callDialTimeout
      dsimp only
      rcases hd : r.dialer.DialTimeout "tcp" server (300 * Millisecond) 0 0 st.world
        with ⟨res, w1⟩
      cases res with
      | error e => simp
      | ok initialConn =>
        dsimp only
        have hm := fun m => getMasterAddress_no_panic r initialConn server
          ⟨w1, st.calls ++ [Call.DialTimeout "tcp" server (300 * Millisecond) 0 0]⟩ m
          (hsent server st.world initialConn w1 hd)
        split
        · rename_i m hmp
          exact absurd hmp (hm m)
        · simp
        · simp
        · split
          · simp
          · exact ih _ _

theorem rebuild_no_panic {σ : Type} (r : RedisSentinel σ)
    (hsent : SentinelsAnswerLists r.dialer) (st : St σ) (msg : String) :
    (RebuildConnectionPool r st).1 ≠ .panic msg := by
  unfold RebuildConnectionPool initializeSentinel connectAndGetMaster
  dsimp only
  split
  · rename_i m hm
    exact absurd hm (loop_no_panic r hsent _ _ _ m)
  · simp
  · simp
  · simp

theorem commandRound_no_panic {σ : Type} (conn : Connection σ) (address action : String)
    (params : List Value) (s : St σ) (msg : String) :
    (commandRound conn address action params s).1 ≠ .panic msg := by
  simp [commandRound]

theorem Do_no_panic {σ : Type} (env : Env σ) (fuel : Nat) (r : RedisSentinel σ)
    (action : String) (params : List Value) (st : St σ) (msg : String)
    (hpool : r.connPool ≠ none)
    (htimeout : 1 * Millisecond ≤ r.callTimeout)
    (hsent : SentinelsAnswerLists r.dialer) :
    (Do env fuel r action params st).1 ≠ .panic msg := by
  induction fuel generalizing r st with
  | zero => simp [Do]
  | succ fuel ih =>
    rcases hG : Func env (getConn env r) (1 * Millisecond) r.callTimeout (fuel + 1) st
      with ⟨og, st1⟩
    have hgp := fun m => Func_no_panic env (getConn env r)
      (fun s m2 => getConn_no_panic env r hpool s m2) (1 * Millisecond) r.callTimeout
      htimeout (fuel + 1) st m
    rw [hG] at hgp
    cases og with
    | panic m => exact absurd rfl (hgp m)
    | outOfFuel =>
      rw [Do_step_g_fuel env fuel r action params st st1 hG]
      simp
    | ret pr =>
      obtain ⟨oe, oc⟩ := pr
      cases oe with
      | some err =>
        rw [Do_step_g_err env fuel r action params st st1 err oc hG]
        simp
      | none =>
        cases oc with
        | none =>
          obtain ⟨_, _, h, _⟩ := Func_ok env _ _ _ _ _ _ _ hG
          simp at h
        | some conn =>
          rcases hE : Func env (commandRound conn r.masterHost action params)
            (1 * Millisecond) r.callTimeout (fuel + 1) st1 with ⟨oe2, st2⟩
          have hep := fun m => Func_no_panic env
            (commandRound conn r.masterHost action params)
            (fun s m2 => commandRound_no_panic conn r.masterHost action params s m2)
            (1 * Millisecond) r.callTimeout htimeout (fuel + 1) st1 m
          rw [hE] at hep
          cases oe2 with
          | panic m => exact absurd rfl (hep m)
          | outOfFuel =>
            rw [Do_step_e_fuel env fuel r action params st st1 conn hG st2 hE]
            simp
          | ret pr2 =>
            obtain ⟨oerr, result⟩ := pr2
            cases oerr with
            | none =>
              rw [Do_step_e_ok env fuel r action params st st1 conn hG st2 result hE]
              simp
            | some err =>
              cases hm : stringsContains (err.Error env.durationString) readOnlyMarker with
              | false =>
                rw [Do_step_e_err env fuel r action params st st1 conn hG st2 err result
                  hE hm]
                simp
              | true =>
                rcases hR : RebuildConnectionPool r st2 with ⟨orb, st3⟩
                have hrp := fun m => rebuild_no_panic r hsent st2 m
                rw [hR] at hrp
                cases orb with
                | panic m => exact absurd rfl (hrp m)
                | outOfFuel =>
                  rw [Do_step_rb_fuel env fuel r action params st st1 conn hG st2 err result
                    st3 hE hm hR]
                  simp
                | ret pr3 =>
                  obtain ⟨r1, oe3⟩ := pr3
                  cases oe3 with
                  | some err1 =>
                    rw [Do_step_rb_err env fuel r action params st st1 conn hG st2 err err1
                      result st3 r1 hE hm hR]
                    simp
                  | none =>
                    obtain ⟨hct, _, hdial, _, hp⟩ := rebuild_fields r r1 st2 st3 none hR
                    have hin := ih r1 st3 (by rw [hp rfl]; simp) (by rw [hct]; exact htimeout)
                      (by rw [hdial]; exact hsent)
                    rw [Do_step_rb_ok env fuel r action params st st1 conn hG st2 err result
                      st3 r1 hE hm hR]
                    cases hin1 : (Do env fuel r1 action params st3).1 with
                    | panic m =>
                      simp only [ne_eq, Outcome.panic.injEq]
                      intro hmm
                      exact hin (by rw [hin1, hmm])
                    | outOfFuel => simp
                    | ret res => simp

theorem Outcome.map_ne_panic {α β : Type} (f : α → β) (o : Outcome α) (msg : String)
    (h : o ≠ .panic msg) : o.map f ≠ .panic msg := by
  cases o with
  | ret a => simp [Outcome.map]
  | panic m =>
    simp only [Outcome.map, ne_eq, Outcome.panic.injEq]
    intro hm
    exact h (by rw [hm])
  | outOfFuel => simp [Outcome.map]

theorem sentinelCommander_no_panic {σ : Type} (env : Env σ) (fuel : Nat)
    (r : RedisSentinel σ) (st : St σ) (action : String) (params : List Value) (msg : String)
    (h : (Do env fuel r action params st).1 ≠ .panic msg) :
    ((sentinelCommander env fuel).Do action params (r, st)).1 ≠ .panic msg := by
  simp only [sentinelCommander]
  cases hd : (Do env fuel r action params st).1 with
  | ret res => simp
  | panic m =>
    simp only [ne_eq, Outcome.panic.injEq]
    intro hm
    exact h (by rw [hd, hm])
  | outOfFuel => simp

theorem NewSentinel_fields {σ : Type} (env : Env σ) (conf : RedisConfig) (st : St σ)
    (rs : RedisSentinel σ) (h : (NewSentinel env conf st).1 = .ret (some rs, none)) :
    rs.callTimeout = conf.CallTimeout ∧ rs.connPool ≠ none ∧
      rs.dialer = env.McRedisDialer := by
  unfold NewSentinel initializeSentinel at h
  dsimp only at h
  cases hc : (connectAndGetMaster (NewSentinel.rs env conf) st).1 with
  | panic m => simp [hc] at h
  | outOfFuel => simp [hc] at h
  | ret pr =>
    obtain ⟨addr, oe⟩ := pr
    cases oe with
    | some e => simp [hc] at h
    | none =>
      simp only [hc, Outcome.ret.injEq, Prod.mk.injEq, Option.some.injEq, and_true] at h
      subst h
      simp [NewSentinel.rs]

theorem Do_rebuild_bound {σ : Type} (env : Env σ) (fuel : Nat) (r : RedisSentinel σ)
    (action : String) (params : List Value) (st : St σ) :
    rebuildCount (Do env fuel r action params st).2.calls ≤ rebuildCount st.calls + fuel := by
  induction fuel generalizing r st with
  | zero => simp [Do]
  | succ fuel ih =>
    rcases Do_level env fuel r action params st with h | ⟨r1, st2, st3, hR, hc, _, hcount⟩
    · omega
    · have h1 := rebuild_rebuildCount r st2
      rw [hR] at h1
      have h2 := ih r1 st3
      rw [hcount]
      simp only at h1
      omega

theorem badGoodDialer_answers_lists : SentinelsAnswerLists badGoodDialer := by
  intro server w conn w1 h args w2 _
  by_cases hs : server = "good:2"
  · subst hs
    have hc : conn = fakeSentinel "10.0.0.5" "6379" := by
      simp only [badGoodDialer, fakeDialer, if_true, Prod.mk.injEq, Except.ok.injEq] at h
      exact h.1.symm
    subst hc
    exact Or.inr ⟨_, _, rfl⟩
  · simp [badGoodDialer, fakeDialer, hs] at h

theorem Func_first_late {σ β : Type} (env : Env σ)
    (f : St σ → Outcome (Option Error × β) × St σ) (interval timeout : Int) (fuel : Nat)
    (st : St σ) (res : Option Error × β)
    (hle : interval ≤ timeout)
    (hf : (f st).1 = .ret res)
    (hlate : env.now st.world + timeout ≤ env.now (f st).2.world) :
    Func env f interval timeout (fuel + 1) st
      = (.ret (some (newTimeoutError timeout (timeoutMessage env.durationString none)), none),
          (f st).2) := by
  have h1 : ¬ (interval > timeout) := not_lt.mpr hle
  obtain ⟨err, b⟩ := res
  rw [Func, if_neg h1, FuncLoop]
  simp only [hf, if_pos hlate]

/-! ## A command that never gets through -/

/-- A client whose pool keeps handing out a read-only replica while its sentinel keeps
answering: whatever the fuel, `Do` has not returned when the fuel is spent.  Each level
times out on the marker after 1ms, rebuilds with success and calls `Do` again. -/
theorem Do_readOnly_never_returns (fuel : Nat) : ∀ (host : String) (st : St Int),
    (Do (fakeEnv badGoodDialer readOnlyConnection) fuel
      { staleClient (1 * Millisecond) ["good:2"] with masterHost := host }
      "SET" [Value.str "k", Value.str "v"] st).1 = .outOfFuel := by
  induction fuel using Nat.strong_induction_on with
  | _ fuel ih =>
    intro host st
    match fuel, ih with
    | 0, _ => rfl
    | 1, _ =>
      have hg := Func_first_ok (fakeEnv badGoodDialer readOnlyConnection)
        (getConn (fakeEnv badGoodDialer readOnlyConnection)
          { staleClient (1 * Millisecond) ["good:2"] with masterHost := host })
        (1 * Millisecond) (1 * Millisecond) 0 st ⟨st.world, st.calls ++ [Call.Get host]⟩
        readOnlyConnection (by decide) rfl
        (by show st.world < st.world + 1 * Millisecond
            have : (0 : Int) < 1 * Millisecond := by decide
            omega)
      have he : Func (fakeEnv badGoodDialer readOnlyConnection)
          (commandRound readOnlyConnection host "SET" [Value.str "k", Value.str "v"])
          (1 * Millisecond) (1 * Millisecond) (0 + 1)
          ⟨st.world, st.calls ++ [Call.Get host]⟩
          = (.outOfFuel, ⟨st.world + 0 + 1 * Millisecond, st.calls ++ [Call.Get host]
              ++ [Call.Do host "SET" [Value.str "k", Value.str "v"]]
              ++ [Call.Sleep (1 * Millisecond)]⟩) := by
        have h1 : ¬ ((1 * Millisecond : Int) > 1 * Millisecond) := by decide
        have h2 : ¬ (st.world + 1 * Millisecond ≤ st.world + 0) := by
          have : (0 : Int) < 1 * Millisecond := by decide
          omega
        rw [Func, if_neg h1, FuncLoop]
        simp only [commandRound, callDo, readOnlyConnection, fakeConnection, fakeEnv,
          if_neg h2, FuncLoop]
      rw [Do_step_e_fuel (fakeEnv badGoodDialer readOnlyConnection) 0
        { staleClient (1 * Millisecond) ["good:2"] with masterHost := host }
        "SET" [Value.str "k", Value.str "v"] st _ readOnlyConnection hg _ he]
    | n + 2, ih =>
      obtain ⟨hg, he⟩ := Do_marker_rounds (fakeEnv badGoodDialer readOnlyConnection)
        { staleClient (1 * Millisecond) ["good:2"] with masterHost := host } ⟨0, 0, 0⟩
        "SET" [Value.str "k", Value.str "v"] st n readOnlyConnection st.world (st.world + 0)
        (st.world + 0 + 1 * Millisecond + 0) Value.nil readOnlyError
        (Value.nil, some readOnlyError) rfl (le_refl _) rfl
        (by show st.world < st.world + 1 * Millisecond
            have : (0 : Int) < 1 * Millisecond := by decide
            omega)
        rfl
        (by show st.world + 0 < st.world + 1 * Millisecond
            have : (0 : Int) < 1 * Millisecond := by decide
            omega)
        rfl
        (by show st.world + 1 * Millisecond ≤ st.world + 0 + 1 * Millisecond + 0
            omega)
      have hm := timeoutError_contains_last (fun _ => "1ms") (1 * Millisecond) readOnlyError
        _ (by decide : stringsContains (readOnlyError.Error (fun _ => "1ms")) readOnlyMarker = true)
      have hdo := Do_step_rb_ok (fakeEnv badGoodDialer readOnlyConnection) (n + 1)
        { staleClient (1 * Millisecond) ["good:2"] with masterHost := host }
        "SET" [Value.str "k", Value.str "v"] st _ readOnlyConnection hg _ _ _
        _ { staleClient (1 * Millisecond) ["good:2"] with masterHost := "10.0.0.5:6379" } he hm
        (rfl : RebuildConnectionPool _ _ = (_, (RebuildConnectionPool
          { staleClient (1 * Millisecond) ["good:2"] with masterHost := host }
          ⟨st.world + 0 + 1 * Millisecond + 0, st.calls ++ [Call.Get host]
            ++ [Call.Do host "SET" [Value.str "k", Value.str "v"]]
            ++ [Call.Sleep (1 * Millisecond)]
            ++ [Call.Do host "SET" [Value.str "k", Value.str "v"]]⟩).2))
      rw [hdo, ih (n + 1) (by omega)]

/-! ## The typed methods -/

theorem logged_Do {τ : Type} (c : RedisCommander τ) (action : String) (params : List Value)
    (s : τ) (log : List (String × List Value)) :
    RedisInstance.Do ⟨some (loggedCommander c)⟩ action params (s, log)
      = ((c.Do action params s).1, ((c.Do action params s).2, log ++ [(action, params)])) :=
  rfl

theorem redisInt_of_int (sc : Strconv) (n : Int) (h : toInt sc.intSize n = n) :
    redisInt sc (Value.int n) none = (n, none) := by
  simp [redisInt, h]

theorem redisInt_of_error (sc : Strconv) (v : Value) (e : Error) :
    redisInt sc v (some e) = (0, some e) := rfl

/-- A method that makes one `Do` call and converts the reply with `redis.Int`. -/
theorem logged_int_method {τ : Type} (sc : Strconv) (c : RedisCommander τ) (action : String)
    (params : List Value) (s : τ) (log : List (String × List Value)) :
    (((RedisInstance.Do ⟨some (loggedCommander c)⟩ action params (s, log)).1.map
        (fun res => redisInt sc res.1 res.2),
      (RedisInstance.Do ⟨some (loggedCommander c)⟩ action params (s, log)).2).2
      = ((c.Do action params s).2, log ++ [(action, params)])) ∧
    (∀ n, toInt sc.intSize n = n → (c.Do action params s).1 = .ret (Value.int n, none) →
      (RedisInstance.Do ⟨some (loggedCommander c)⟩ action params (s, log)).1.map
        (fun res => redisInt sc res.1 res.2) = .ret (n, none)) ∧
    (∀ v e, (c.Do action params s).1 = .ret (v, some e) →
      (RedisInstance.Do ⟨some (loggedCommander c)⟩ action params (s, log)).1.map
        (fun res => redisInt sc res.1 res.2) = .ret (0, some e)) := by
  rw [logged_Do]
  refine ⟨rfl, fun n hn h => ?_, fun v e h => ?_⟩
  · simp only [h, Outcome.map, redisInt_of_int sc n hn]
  · simp only [h, Outcome.map, redisInt_of_error]

/-! ## Runs of `waitfor.Func` that end at the timeout -/

theorem foldl_last_eq {α γ : Type} (g : α → γ) (xs : List α) (init : Option γ) :
    xs.foldl (fun _ p => some (g p)) init
      = match xs.getLast? with
        | some p => some (g p)
        | none => init := by
  induction xs generalizing init with
  | nil => rfl
  | cons x rest ih =>
    rw [List.foldl_cons, ih]
    cases rest with
    | nil => rfl
    | cons y ys =>
      rw [List.getLast?_cons_cons]
      cases h : (y :: ys).getLast? with
      | none => simp at h
      | some p => rfl

/-- The loop of `waitfor.Func` on a run of failures followed by an invocation that has not
returned by the deadline: it answers the `TimeoutError` made from the last error of the
run, or from the error the loop started with when the run is empty. -/
theorem FuncLoop_run {σ β : Type} (env : Env σ)
    (f : St σ → Outcome (Option Error × β) × St σ) (interval timeout deadline : Int)
    (errs : List (Error × β)) (k : Nat) (lastError : Option Error) (last : Option β)
    (s s1 s2 : St σ) (res : Option Error × β)
    (hrun : FailsInTime env f interval deadline errs s s1)
    (hlate : f s1 = (.ret res, s2))
    (hdead : deadline ≤ env.now s2.world) :
    FuncLoop env f interval timeout deadline (errs.length + k + 1) lastError last s
      = (.ret (some (newTimeoutError timeout (timeoutMessage env.durationString
            (errs.foldl (fun _ p => some p.1) lastError))),
          errs.foldl (fun _ p => some p.2) last), s2) := by
  induction errs generalizing lastError last s with
  | nil =>
    obtain ⟨err, b⟩ := res
    have hs : s1 = s := hrun
    subst hs
    rw [FuncLoop]
    simp only [hlate, if_pos hdead, List.foldl_nil]
  | cons x rest ih =>
    obtain ⟨e, b⟩ := x
    obtain ⟨hf, hin, hrest⟩ := hrun
    have hk : ((e, b) :: rest).length + k + 1 = (rest.length + k + 1) + 1 := by
      simp only [List.length_cons]
      omega
    have hf1 : f s = (.ret (some e, b), (f s).2) := Prod.ext hf rfl
    rw [hk, FuncLoop]
    rw [hf1]
    simp only [if_neg (not_le.mpr hin), List.foldl_cons]
    rw [hf1] at hrest
    exact ih _ _ _ hrest

/-- Every error the loop of `waitfor.Func` answers comes from such a run. -/
theorem FuncLoop_error_run {σ β : Type} (env : Env σ)
    (f : St σ → Outcome (Option Error × β) × St σ) (interval timeout deadline : Int)
    (fuel : Nat) (lastError : Option Error) (last : Option β) (s st1 : St σ)
    (err : Error) (result : Option β)
    (h : FuncLoop env f interval timeout deadline fuel lastError last s
      = (.ret (some err, result), st1)) :
    ∃ (errs : List (Error × β)) (s1 : St σ) (res : Option Error × β),
      FailsInTime env f interval deadline errs s s1 ∧ f s1 = (.ret res, st1) ∧
      deadline ≤ env.now st1.world ∧
      err = newTimeoutError timeout (timeoutMessage env.durationString
        (errs.foldl (fun _ p => some p.1) lastError)) := by
  induction fuel generalizing lastError last s with
  | zero => simp [FuncLoop] at h
  | succ fuel ih =>
    rw [FuncLoop] at h
    split at h
    · simp at h
    · simp at h
    · rename_i e0 b0 hf0
      split at h
      · rename_i hlate
        simp only [Prod.mk.injEq, Outcome.ret.injEq, Option.some.injEq] at h
        obtain ⟨⟨h1, _⟩, h3⟩ := h
        refine ⟨[], s, (e0, b0), rfl, Prod.ext hf0 h3, ?_, h1.symm⟩
        rw [← h3]
        exact hlate
      · rename_i hearly
        split at h
        · simp at h
        · rename_i e1
          obtain ⟨errs, s1, res, hrun, hlast, hdead, herr⟩ := ih _ _ _ h
          exact ⟨(e1, b0) :: errs, s1, res, ⟨hf0, not_le.mp hearly, hrun⟩, hlast, hdead, herr⟩

theorem Func_run {σ β : Type} (env : Env σ)
    (f : St σ → Outcome (Option Error × β) × St σ) (interval timeout : Int)
    (errs : List (Error × β)) (k : Nat) (st s1 s2 : St σ) (res : Option Error × β)
    (hle : interval ≤ timeout)
    (hrun : FailsInTime env f interval (env.now st.world + timeout) errs st s1)
    (hlate : f s1 = (.ret res, s2))
    (hdead : env.now st.world + timeout ≤ env.now s2.world) :
    Func env f interval timeout (errs.length + k + 1) st
      = (.ret (some (newTimeoutError timeout (timeoutMessage env.durationString
            (errs.getLast?.map Prod.fst))),
          errs.getLast?.map Prod.snd), s2) := by
  rw [Func, if_neg (not_lt.mpr hle),
    FuncLoop_run env f interval timeout _ errs k none none st s1 s2 res hrun hlate hdead,
    foldl_last_eq, foldl_last_eq]
  cases errs.getLast? <;> rfl

theorem Func_error_run {σ β : Type} (env : Env σ)
    (f : St σ → Outcome (Option Error × β) × St σ) (interval timeout : Int)
    (fuel : Nat) (st st1 : St σ) (err : Error) (result : Option β)
    (h : Func env f interval timeout fuel st = (.ret (some err, result), st1)) :
    ∃ (errs : List (Error × β)) (s1 : St σ) (res : Option Error × β),
      FailsInTime env f interval (env.now st.world + timeout) errs st s1 ∧
      f s1 = (.ret res, st1) ∧ env.now st.world + timeout ≤ env.now st1.world ∧
      err = newTimeoutError timeout (timeoutMessage env.durationString
        (errs.getLast?.map Prod.fst)) := by
  unfold Func at h
  split at h
  · simp at h
  · obtain ⟨errs, s1, res, hrun, hlast, hdead, herr⟩ :=
      FuncLoop_error_run env f _ _ _ _ _ _ _ _ _ _ h
    refine ⟨errs, s1, res, hrun, hlast, hdead, ?_⟩
    rw [herr, foldl_last_eq]
    cases errs.getLast? <;> rfl

/-! ## The claims -/

/-- C1 (the code departs from the claim).  In the scenario of the claim, servers `bad:1` and
`good:2` with master name `mymaster`, `connectAndGetMaster` does not skip the candidate that
cannot be dialed: it leaves the loop there, makes the single call `DialTimeout` to `bad:1`
and returns `NoSentinelFound`, although `good:2` alone resolves to `10.0.0.5:6379`. -/
theorem connectAndGetMaster_stops_at_first_dial_failure :
    (connectAndGetMaster (sentinelWith badGoodDialer "mymaster" ["bad:1", "good:2"]) st0).1
      = .ret ("", some (Error.NoSentinelFound "Failed to connect to a sentinel")) ∧
    (connectAndGetMaster (sentinelWith badGoodDialer "mymaster" ["bad:1", "good:2"]) st0).2.calls
      = [Call.DialTimeout "tcp" "bad:1" 300000000 0 0] ∧
    (connectAndGetMaster (sentinelWith badGoodDialer "mymaster" ["good:2"]) st0).1
      = .ret ("10.0.0.5:6379", none) := by
  decide

/-- C2 (the claim as stated fails).  The list `good:2`, `nocolon` contains an address
without a colon, yet `connectAndGetMaster` returns the master `10.0.0.5:6379` with a nil
error, after one `DialTimeout` and one `Dial`. -/
theorem malformed_node_after_good_sentinel_is_not_reported :
    stringsContains "nocolon" ":" = false ∧
    (connectAndGetMaster (sentinelWith badGoodDialer "mymaster" ["good:2", "nocolon"]) st0).1
      = .ret ("10.0.0.5:6379", none) ∧
    dialTimeoutCount
      (connectAndGetMaster (sentinelWith badGoodDialer "mymaster" ["good:2", "nocolon"])
        st0).2.calls = 1 ∧
    dialCount
      (connectAndGetMaster (sentinelWith badGoodDialer "mymaster" ["good:2", "nocolon"])
        st0).2.calls = 1 := by
  decide

/-- C2 (amended).  When the first address without a colon is preceded only by sentinels
that are dialed, report a master and see it rejected, `connectAndGetMaster` fails with the
`MalformedServerNodeError` naming that address, and the dials it has made are those of the
sentinels before it, one `DialTimeout` and one `Dial` each: none at all when the address
without a colon is the first of the list. -/
theorem connectAndGetMaster_malformed_node {σ : Type} (r : RedisSentinel σ) (st : St σ)
    (pre : List String) (bad : String) (post : List String)
    (hservers : r.servers = pre ++ bad :: post)
    (hpre : ∀ s ∈ pre, PointsAtNonMaster r s)
    (hbad : stringsContains bad ":" = false) :
    (connectAndGetMaster r st).1
      = .ret ("", some (Error.MalformedServerNodeError
          ("Node: " ++ bad ++ " does not contain a port"))) ∧
    dialTimeoutCount (connectAndGetMaster r st).2.calls
      = dialTimeoutCount st.calls + pre.length ∧
    dialCount (connectAndGetMaster r st).2.calls = dialCount st.calls + pre.length := by
  obtain ⟨d1, s1, hloop, h1, h2⟩ := loop_prefix_nonMaster r pre (bad :: post) [] st hpre
  have hout : connectAndGetMasterLoop r r.servers [] st
      = (.ret ("", some (Error.MalformedServerNodeError
          ("Node: " ++ bad ++ " does not contain a port"))), d1, s1) := by
    rw [hservers, hloop, loop_malformed r bad post d1 s1 hbad]
  simp only [connectAndGetMaster, hout, runDeferred_dialTimeoutCount, runDeferred_dialCount]
  exact ⟨trivial, h1, h2⟩

/-- C2 (amended), at a concrete input: with servers `stale:1`, `nocolon`, `good:2` the
sentinel `stale:1` is dialed and its master rejected, then the error names `nocolon`. -/
theorem connectAndGetMaster_malformed_node_witness :
    (connectAndGetMaster
        (sentinelWith staleGoodDialer "mymaster" ["stale:1", "nocolon", "good:2"]) st0).1
      = .ret ("", some (Error.MalformedServerNodeError
          ("Node: " ++ "nocolon" ++ " does not contain a port"))) ∧
    dialTimeoutCount (connectAndGetMaster
        (sentinelWith staleGoodDialer "mymaster" ["stale:1", "nocolon", "good:2"]) st0).2.calls
      = dialTimeoutCount st0.calls + ["stale:1"].length ∧
    dialCount (connectAndGetMaster
        (sentinelWith staleGoodDialer "mymaster" ["stale:1", "nocolon", "good:2"]) st0).2.calls
      = dialCount st0.calls + ["stale:1"].length :=
  connectAndGetMaster_malformed_node
    (sentinelWith staleGoodDialer "mymaster" ["stale:1", "nocolon", "good:2"]) st0
    ["stale:1"] "nocolon" ["good:2"] rfl
    (fun s hs => by
      rw [List.mem_singleton] at hs
      subst hs
      exact stale_pointsAtNonMaster _)
    (by decide)

/-- C3.  When every node address has a colon and `DialTimeout` fails for every one of them
in every state of the network, `connectAndGetMaster` returns `NoSentinelFound`, and so does
`NewSentinel`, with a nil client; the message is `Failed to connect to a sentinel`. -/
theorem all_sentinels_unreachable {σ : Type} (env : Env σ) (conf : RedisConfig) (st : St σ)
    (hwf : ∀ s ∈ conf.Nodes, stringsContains s ":" = true)
    (hdial : ∀ s ∈ conf.Nodes, ∀ w,
      ∃ e, (env.McRedisDialer.DialTimeout "tcp" s (300 * Millisecond) 0 0 w).1 = .error e) :
    (connectAndGetMaster (NewSentinel.rs env conf) st).1
      = .ret ("", some (Error.NoSentinelFound "Failed to connect to a sentinel")) ∧
    (NewSentinel env conf st).1
      = .ret (none, some (Error.NoSentinelFound "Failed to connect to a sentinel")) ∧
    (Error.NoSentinelFound "Failed to connect to a sentinel").Error env.durationString
      = "Failed to connect to a sentinel" := by
  have h : (connectAndGetMaster (NewSentinel.rs env conf) st).1
      = .ret ("", some (Error.NoSentinelFound "Failed to connect to a sentinel")) := by
    show (connectAndGetMasterLoop (NewSentinel.rs env conf) conf.Nodes [] st).1 = _
    cases hn : conf.Nodes with
    | nil => rfl
    | cons server rest =>
      have hmem : server ∈ conf.Nodes := by rw [hn]; exact List.mem_cons_self _ _
      obtain ⟨e, he⟩ := hdial server hmem st.world
      exact loop_dial_error (NewSentinel.rs env conf) server rest [] st e (hwf server hmem) he
  exact ⟨h, NewSentinel_of_error env conf st "" _ h, rfl⟩

/-- C3, at a concrete input: the nodes `bad:1` and `bad:2`, neither of which can be
dialed. -/
theorem all_sentinels_unreachable_witness :
    (connectAndGetMaster (NewSentinel.rs (fakeEnv badGoodDialer (fakeRedis ""))
        (confWith "mymaster" ["bad:1", "bad:2"])) st0).1
      = .ret ("", some (Error.NoSentinelFound "Failed to connect to a sentinel")) ∧
    (NewSentinel (fakeEnv badGoodDialer (fakeRedis ""))
        (confWith "mymaster" ["bad:1", "bad:2"]) st0).1
      = .ret (none, some (Error.NoSentinelFound "Failed to connect to a sentinel")) ∧
    (Error.NoSentinelFound "Failed to connect to a sentinel").Error
        (fakeEnv badGoodDialer (fakeRedis "")).durationString
      = "Failed to connect to a sentinel" :=
  all_sentinels_unreachable (fakeEnv badGoodDialer (fakeRedis ""))
    (confWith "mymaster" ["bad:1", "bad:2"]) st0
    (by decide)
    (fun s hs w => by
      have hs2 : s = "bad:1" ∨ s = "bad:2" := by simpa [confWith] using hs
      rcases hs2 with rfl | rfl <;> exact ⟨_, rfl⟩)

/-- C4 (the code departs from the claim).  With two sentinels that can be dialed and answer
the query with a nil reply, `connectAndGetMaster` dials the first one only and returns
`NoSentinelFound`: the `MasterNameNotKnownError` that
`getMasterAddressGivenClusterConnection` builds for the caller is dropped at the `break`. -/
theorem nil_reply_stops_the_resolver :
    (connectAndGetMaster
        (sentinelWith nilReplyDialer "unknownMaster" ["s1:26379", "s2:26379"]) st0).1
      = .ret ("", some (Error.NoSentinelFound "Failed to connect to a sentinel")) ∧
    dialTimeoutCount (connectAndGetMaster
        (sentinelWith nilReplyDialer "unknownMaster" ["s1:26379", "s2:26379"]) st0).2.calls
      = 1 ∧
    (getMasterAddressGivenClusterConnection
        (sentinelWith nilReplyDialer "unknownMaster" ["s1:26379", "s2:26379"])
        (fakeConnection 0 (fun _ _ => (Value.nil, none))) "s1:26379" st0).1
      = .ret ("", some (Error.MasterNameNotKnownError
          "Sentinel does not know the master: unknownMaster")) := by
  decide

/-- C5 (the code departs from the claim).  With an empty master name and a sentinel that
can be dialed, `NewSentinel` fails, but with `NoSentinelFound`: the `NoMasterNameError`
that `getMasterAddressGivenClusterConnection` builds is dropped at the `break`. -/
theorem empty_master_name_reported_as_no_sentinel :
    (NewSentinel (fakeEnv badGoodDialer (fakeRedis "")) (confWith "" ["good:2"]) st0).1
      = .ret (none, some (Error.NoSentinelFound "Failed to connect to a sentinel")) ∧
    (getMasterAddressGivenClusterConnection
        (NewSentinel.rs (fakeEnv badGoodDialer (fakeRedis "")) (confWith "" ["good:2"]))
        (fakeSentinel "10.0.0.5" "6379") "good:2" st0).1
      = .ret ("", some (Error.NoMasterNameError
          "You must include a MasterName in your sentinel config")) :=
  ⟨rfl, by decide⟩

/-- C6.  A candidate master is accepted by `confirmMasterConnection` exactly when dialing it
succeeds and its `INFO replication` reply is a text containing `role:master`; when every
sentinel of the list reports a master that is not accepted, the resolver goes through the
whole list, one `DialTimeout` and one `Dial` per sentinel, and fails with
`NoSentinelFound`; and over any list of addresses with a colon, whatever the resolver
returns is either a master address it has seen accepted, with a nil error, or
`NoSentinelFound`. -/
theorem master_accepted_iff_role_master {σ : Type} (r : RedisSentinel σ) (st : St σ) :
    (∀ masterAddr, (confirmMasterConnection r masterAddr st).1 = true ↔
      Confirms r.dialer masterAddr st.world) ∧
    ((∀ s ∈ r.servers, PointsAtNonMaster r s) →
      (connectAndGetMaster r st).1
        = .ret ("", some (Error.NoSentinelFound "Failed to connect to a sentinel")) ∧
      dialTimeoutCount (connectAndGetMaster r st).2.calls
        = dialTimeoutCount st.calls + r.servers.length ∧
      dialCount (connectAndGetMaster r st).2.calls
        = dialCount st.calls + r.servers.length) ∧
    ((∀ s ∈ r.servers, stringsContains s ":" = true) →
      ∀ masterAddr err, (connectAndGetMaster r st).1 = .ret (masterAddr, err) →
        (err = none ∧ ∃ st1, (confirmMasterConnection r masterAddr st1).1 = true) ∨
        (masterAddr = "" ∧
          err = some (Error.NoSentinelFound "Failed to connect to a sentinel"))) := by
  refine ⟨fun masterAddr => confirm_iff r masterAddr st, fun h => ?_,
    fun hwf masterAddr err hret => ?_⟩
  swap
  · rcases loop_result r r.servers [] st hwf masterAddr err hret with h1 | h2
    · exact Or.inl h1
    · simp only [noSentinelFound, Prod.mk.injEq] at h2
      exact Or.inr h2
  obtain ⟨d1, s1, hloop, h1, h2⟩ := loop_prefix_nonMaster r r.servers [] [] st h
  rw [List.append_nil] at hloop
  have hout : connectAndGetMasterLoop r r.servers [] st = (.ret noSentinelFound, d1, s1) := by
    rw [hloop]; rfl
  simp only [connectAndGetMaster, hout, runDeferred_dialTimeoutCount, runDeferred_dialCount]
  exact ⟨rfl, h1, h2⟩

/-- C7 (the code departs from the claim).  `constructMasterAddress` ignores the port of the
reply and appends the constant `6379`: the reply `masterAddr`, `port` gives
`masterAddr:6379`, and `GetInfo` in the setting of the repository's test returns
`masterAddr:6379` with `goodSentinel`, where the test expects `masterAddr:port`. -/
theorem constructMasterAddress_ignores_reply_port :
    (∀ ip port : String, constructMasterAddress (Value.array [Value.bytes ip, Value.bytes port])
      = .ret (ip ++ ":" ++ "6379")) ∧
    constructMasterAddress (Value.array [Value.str "masterAddr", Value.str "port"])
      = .ret "masterAddr:6379" ∧
    (GetInfo (sentinelWith (testDialer "role:master") "master" ["goodSentinel"]) st0).1
      = .ret ("masterAddr:6379", "goodSentinel") :=
  ⟨fun _ _ => rfl, by decide, by decide⟩

/-- C6, at a concrete input: two sentinels that both report `masterAddr`, a node that says
`role:slave`, give two sentinel dials, two master dials and `NoSentinelFound`. -/
theorem master_accepted_iff_role_master_witness :
    (connectAndGetMaster (sentinelWith (testDialer "role:slave") "master"
        ["goodSentinel:1", "goodSentinel:2"]) st0).1
      = .ret ("", some (Error.NoSentinelFound "Failed to connect to a sentinel")) ∧
    dialTimeoutCount (connectAndGetMaster (sentinelWith (testDialer "role:slave") "master"
        ["goodSentinel:1", "goodSentinel:2"]) st0).2.calls
      = dialTimeoutCount st0.calls + ["goodSentinel:1", "goodSentinel:2"].length ∧
    dialCount (connectAndGetMaster (sentinelWith (testDialer "role:slave") "master"
        ["goodSentinel:1", "goodSentinel:2"]) st0).2.calls
      = dialCount st0.calls + ["goodSentinel:1", "goodSentinel:2"].length :=
  (master_accepted_iff_role_master (sentinelWith (testDialer "role:slave") "master"
      ["goodSentinel:1", "goodSentinel:2"]) st0).2.1
    (fun s hs => by
      have hs2 : s = "goodSentinel:1" ∨ s = "goodSentinel:2" := by simpa [sentinelWith] using hs
      rcases hs2 with rfl | rfl
      · exact ⟨by decide, (by decide : "master" ≠ ""), fun w =>
          ⟨testRedis "role:slave", w, rfl, fun w2 =>
            ⟨Value.array [Value.str "masterAddr", Value.str "port"], w2 + 0,
              "masterAddr:6379", rfl, by decide, fun _ => rfl⟩⟩⟩
      · exact ⟨by decide, (by decide : "master" ≠ ""), fun w =>
          ⟨testRedis "role:slave", w, rfl, fun w2 =>
            ⟨Value.array [Value.str "masterAddr", Value.str "port"], w2 + 0,
              "masterAddr:6379", rfl, by decide, fun _ => rfl⟩⟩⟩)

/-- C8 (the claim as stated fails).  With the sentinels `stale:1` (reporting a node that
says `role:slave`) and `good:2` (reporting `10.0.0.5`, which says `role:master`),
`NewSentinel` succeeds with master `10.0.0.5:6379`, and `GetInfo` on the returned client,
the sentinels answering as before, returns `10.0.0.9:6379` from `stale:1`. -/
theorem getInfo_master_differs_from_confirmed :
    ∃ rs, (NewSentinel (fakeEnv staleGoodDialer (fakeRedis ""))
        (confWith "mymaster" ["stale:1", "good:2"]) st0).1 = .ret (some rs, none) ∧
      rs.masterHost = "10.0.0.5:6379" ∧
      (GetInfo rs (NewSentinel (fakeEnv staleGoodDialer (fakeRedis ""))
        (confWith "mymaster" ["stale:1", "good:2"]) st0).2).1
        = .ret ("10.0.0.9:6379", "stale:1") :=
  ⟨_, rfl, by decide, by decide⟩

/-- C8 (amended).  When the first node of the configuration has a colon, can be dialed in
every state, answers the query with the same reply for the configured master name and for
the address built from that reply, and that address is confirmed in every state, then
`NewSentinel` succeeds with that address as `masterHost`, and `GetInfo` on the returned
client returns that address, and the first node, in whatever state it is called. -/
theorem NewSentinel_then_GetInfo_first_sentinel {σ : Type} (env : Env σ) (conf : RedisConfig)
    (st : St σ) (first : String) (rest : List String) (reply : Value) (masterAddr : String)
    (hnodes : conf.Nodes = first :: rest)
    (hname : conf.MasterName ≠ "")
    (hwf : stringsContains first ":" = true)
    (hsent : ∀ w, ∃ conn w1,
      env.McRedisDialer.DialTimeout "tcp" first (300 * Millisecond) 0 0 w = (.ok conn, w1) ∧
      ∀ name w2, name = conf.MasterName ∨ name = masterAddr →
        ∃ w3, conn.Do "SENTINEL" [Value.str "get-master-addr-by-name", Value.str name] w2
          = ((reply, none), w3))
    (haddr : constructMasterAddress reply = .ret masterAddr)
    (hconf : ∀ w, Confirms env.McRedisDialer masterAddr w) :
    ∃ rs, (NewSentinel env conf st).1 = .ret (some rs, none) ∧
      rs.masterHost = masterAddr ∧
      ∀ st2, (GetInfo rs st2).1 = .ret (masterAddr, first) := by
  obtain ⟨conn, w1, hdial, hdo⟩ := hsent st.world
  obtain ⟨w3, hq⟩ := hdo conf.MasterName w1 (Or.inl rfl)
  have hm := getMasterAddress_ok (NewSentinel.rs env conf) conn first
    ⟨w1, st.calls ++ [Call.DialTimeout "tcp" first (300 * Millisecond) 0 0]⟩
    reply w3 masterAddr hname hq haddr
  have hc : ∀ st1, (confirmMasterConnection (NewSentinel.rs env conf) masterAddr st1).1
      = true := fun st1 => (confirm_iff _ masterAddr st1).2 (hconf st1.world)
  have hloop : (connectAndGetMasterLoop (NewSentinel.rs env conf) conf.Nodes [] st).1
      = .ret (masterAddr, none) := by
    rw [hnodes, connectAndGetMasterLoop]
    have hdial2 : (NewSentinel.rs env conf).dialer.DialTimeout "tcp" first
        (300 * Millisecond) 0 0 st.world = (.ok conn, w1) := hdial
    simp only [hwf, callDialTimeout, hdial2, hm, hc]
    simp
  have hcm : (connectAndGetMaster (NewSentinel.rs env conf) st).1 = .ret (masterAddr, none) :=
    hloop
  refine ⟨{ (NewSentinel.rs env conf) with
      masterHost := masterAddr
      connPool := some (newPool { (NewSentinel.rs env conf) with masterHost := masterAddr }) },
    ?_, rfl, fun st2 => ?_⟩
  · simp [NewSentinel, initializeSentinel, hcm]
  · obtain ⟨conn2, w4, hdial4, hdo4⟩ := hsent st2.world
    obtain ⟨w5, hq5⟩ := hdo4 masterAddr w4 (Or.inr rfl)
    show (GetInfoLoop _ conf.Nodes [] st2).1 = _
    rw [hnodes, GetInfoLoop]
    have hdial5 : env.McRedisDialer.DialTimeout "tcp" first
        (300 * Millisecond) 0 0 st2.world = (.ok conn2, w4) := hdial4
    simp only [callDialTimeout, callDo, NewSentinel.rs, hdial5, hq5, haddr]

/-- C8 (amended), at a concrete input: the single sentinel `good:2`, whose master
`10.0.0.5:6379` says `role:master`. -/
theorem NewSentinel_then_GetInfo_first_sentinel_witness :
    ∃ rs, (NewSentinel (fakeEnv badGoodDialer (fakeRedis ""))
        (confWith "mymaster" ["good:2"]) st0).1 = .ret (some rs, none) ∧
      rs.masterHost = "10.0.0.5:6379" ∧
      ∀ st2, (GetInfo rs st2).1 = .ret ("10.0.0.5:6379", "good:2") :=
  NewSentinel_then_GetInfo_first_sentinel (fakeEnv badGoodDialer (fakeRedis ""))
    (confWith "mymaster" ["good:2"]) st0 "good:2" []
    (Value.array [Value.bytes "10.0.0.5", Value.bytes "6379"]) "10.0.0.5:6379"
    rfl (by decide) (by decide)
    (fun w => ⟨fakeSentinel "10.0.0.5" "6379", w, rfl, fun _ w2 _ => ⟨w2 + 0, rfl⟩⟩)
    (by decide)
    (fun w => ⟨fakeRedis "role:master", rfl, "role:master", rfl, by decide⟩)

/-- C9.  Whenever `NewSentinel` returns, its client is nil exactly when its error is not
nil; with an error `NewMcRedis` returns the zero `RedisInstance` and that error; with a nil
error the client has the address resolved by `connectAndGetMaster` as `masterHost` and the
pool built by `newPool` as `connPool`, and `NewMcRedis` wraps that client.  When
`NewSentinel` panics, so does `NewMcRedis`. -/
theorem NewSentinel_nil_client_iff_error {σ : Type} (env : Env σ) (conf : RedisConfig)
    (st : St σ) :
    (∀ client err, (NewSentinel env conf st).1 = .ret (client, err) →
      (client = none ↔ err ≠ none) ∧
      (err ≠ none →
        NewMcRedis env conf st = (.ret (⟨none⟩, err), (NewSentinel env conf st).2)) ∧
      (err = none → ∃ rs, client = some rs ∧
        (connectAndGetMaster (NewSentinel.rs env conf) st).1 = .ret (rs.masterHost, none) ∧
        rs.connPool = some (newPool rs) ∧
        NewMcRedis env conf st = (.ret (⟨some rs⟩, none), (NewSentinel env conf st).2))) ∧
    (∀ msg, (NewSentinel env conf st).1 = .panic msg →
      (NewMcRedis env conf st).1 = .panic msg) := by
  constructor
  · intro client err h
    have key : (∀ e, err = some e → client = none) ∧
        (err = none → ∃ rs, client = some rs ∧
          (connectAndGetMaster (NewSentinel.rs env conf) st).1 = .ret (rs.masterHost, none) ∧
          rs.connPool = some (newPool rs)) := by
      unfold NewSentinel initializeSentinel at h
      cases hc : (connectAndGetMaster (NewSentinel.rs env conf) st).1 with
      | panic msg => simp [hc] at h
      | outOfFuel => simp [hc] at h
      | ret p =>
        obtain ⟨masterHost, e⟩ := p
        cases e with
        | some e =>
          simp only [hc, Outcome.ret.injEq, Prod.mk.injEq] at h
          obtain ⟨h1, h2⟩ := h
          subst h1 h2
          simp
        | none =>
          simp only [hc, Outcome.ret.injEq, Prod.mk.injEq] at h
          obtain ⟨h1, h2⟩ := h
          subst h1 h2
          simp [newPool]
    cases err with
    | some e =>
      have hnil := key.1 e rfl
      subst hnil
      simp [NewMcRedis, h]
    | none =>
      obtain ⟨rs, hrs, hcm, hpool⟩ := key.2 rfl
      subst hrs
      simp [NewMcRedis, h, hcm, hpool]
  · intro msg h
    simp [NewMcRedis, h]

/-- C9, at two concrete inputs: a node that cannot be dialed (nil client, `NoSentinelFound`,
zero `RedisInstance`), and the sentinel `good:2` (a client with master `10.0.0.5:6379` and
a pool). -/
theorem NewSentinel_nil_client_iff_error_witness :
    ((none : Option (RedisSentinel Int)) = none ↔
        some (Error.NoSentinelFound "Failed to connect to a sentinel") ≠ none) ∧
    (NewMcRedis (fakeEnv badGoodDialer (fakeRedis "")) (confWith "mymaster" ["bad:1"]) st0).1
      = .ret (⟨none⟩, some (Error.NoSentinelFound "Failed to connect to a sentinel")) ∧
    (∃ rs, some (readyClient 0) = some rs ∧
      (connectAndGetMaster (NewSentinel.rs (fakeEnv badGoodDialer (fakeRedis ""))
        (confWith "mymaster" ["good:2"])) st0).1 = .ret (rs.masterHost, none) ∧
      rs.connPool = some (newPool rs)) := by
  have hbad := (NewSentinel_nil_client_iff_error (fakeEnv badGoodDialer (fakeRedis ""))
    (confWith "mymaster" ["bad:1"]) st0).1 none
    (some (Error.NoSentinelFound "Failed to connect to a sentinel")) rfl
  have hgood := (NewSentinel_nil_client_iff_error (fakeEnv badGoodDialer (fakeRedis ""))
    (confWith "mymaster" ["good:2"]) st0).1 (some (readyClient 0)) none rfl
  refine ⟨hbad.1, ?_, ?_⟩
  · rw [hbad.2.1 (by simp)]
  · obtain ⟨rs, h1, h2, h3, _⟩ := hgood.2.2 rfl
    exact ⟨rs, h1, h2, h3⟩

/-- C10 (the claim as stated fails).  The client has `callTimeout` of 1ms and the first
execution of the command on the borrowed connection returns `OK` with a nil error, but
after 5ms: `Do` returns a nil result and the `TimeoutError` of `waitfor.Func`. -/
theorem Do_times_out_on_slow_success :
    1 * Millisecond ≤ (readyClient (1 * Millisecond)).callTimeout ∧
    ((okConnection (5 * Millisecond)).Do "SET" [Value.str "k", Value.str "v"] 0).1
      = (Value.str "OK", none) ∧
    ∃ r1, (Do (fakeEnv badGoodDialer (okConnection (5 * Millisecond))) 1
        (readyClient (1 * Millisecond)) "SET" [Value.str "k", Value.str "v"] st0).1
      = .ret ((Value.nil, some (Error.TimeoutError (1 * Millisecond)
          "; function did not return")), r1) :=
  ⟨by decide, by decide, _, rfl⟩

/-- C10 (amended).  For a client with a pool and `callTimeout` of at least 1ms, when the
pool hands out its connection before the timeout has elapsed and the first execution of
the command on it returns `(v, nil)` before the timeout has elapsed, `Do` returns
`(v, nil)` and leaves the client as it was; the calls it makes are the borrow, the command
once with the same action and parameters, and the close: no rebuild and no dial. -/
theorem Do_first_reply_in_time {σ : Type} (env : Env σ) (r : RedisSentinel σ) (pool : Pool)
    (action : String) (params : List Value) (st : St σ) (fuel : Nat) (v : Value)
    (conn : Connection σ) (w1 w2 : σ)
    (hpool : r.connPool = some pool)
    (htimeout : 1 * Millisecond ≤ r.callTimeout)
    (hget : env.poolGet pool r.masterHost st.world = (conn, w1))
    (hnow1 : env.now w1 < env.now st.world + r.callTimeout)
    (hdo : conn.Do action params w1 = ((v, none), w2))
    (hnow2 : env.now w2 < env.now w1 + r.callTimeout) :
    Do env (fuel + 1) r action params st
      = (.ret ((v, none), r), ⟨(conn.Close w2).2, st.calls ++ [Call.Get r.masterHost] ++
          [Call.Do r.masterHost action params] ++ [Call.Close r.masterHost]⟩) ∧
    doCount (Do env (fuel + 1) r action params st).2.calls = doCount st.calls + 1 ∧
    rebuildCount (Do env (fuel + 1) r action params st).2.calls = rebuildCount st.calls := by
  have h : Do env (fuel + 1) r action params st
      = (.ret ((v, none), r), ⟨(conn.Close w2).2, st.calls ++ [Call.Get r.masterHost] ++
          [Call.Do r.masterHost action params] ++ [Call.Close r.masterHost]⟩) := by
    have hg : Func env (getConn env r) (1 * Millisecond) r.callTimeout (fuel + 1) st
        = (.ret (none, some conn), ⟨w1, st.calls ++ [Call.Get r.masterHost]⟩) :=
      Func_first_ok env _ _ _ fuel st _ conn htimeout
        (by simp only [getConn, hpool, hget]) hnow1
    have he : Func env
        (fun s =>
          let out := callDo conn r.masterHost action params s
          (Outcome.ret (out.1.2, out.1.1), out.2))
        (1 * Millisecond) r.callTimeout (fuel + 1) ⟨w1, st.calls ++ [Call.Get r.masterHost]⟩
        = (.ret (none, some v), ⟨w2, st.calls ++ [Call.Get r.masterHost] ++
            [Call.Do r.masterHost action params]⟩) :=
      Func_first_ok env _ _ _ fuel _ _ v htimeout
        (by simp only [callDo, hdo]) hnow2
    rw [Do]
    simp only [hg, he, callClose, Option.getD_some]
  refine ⟨h, ?_, ?_⟩
  · rw [h]
    simp [doCount, List.countP_append]
  · rw [h]
    simp [rebuildCount, List.countP_append]

/-- C10 (amended), at a concrete input: `callTimeout` of 2ms and a connection that answers
`OK` after 1ms. -/
theorem Do_first_reply_in_time_witness :
    Do (fakeEnv badGoodDialer (okConnection (1 * Millisecond))) (0 + 1)
        (readyClient (2 * Millisecond)) "SET" [Value.str "k", Value.str "v"] st0
      = (.ret ((Value.str "OK", none), readyClient (2 * Millisecond)),
          ⟨((okConnection (1 * Millisecond)).Close (1 * Millisecond)).2,
            st0.calls ++ [Call.Get (readyClient (2 * Millisecond)).masterHost] ++
            [Call.Do (readyClient (2 * Millisecond)).masterHost "SET"
              [Value.str "k", Value.str "v"]] ++
            [Call.Close (readyClient (2 * Millisecond)).masterHost]⟩) ∧
    doCount (Do (fakeEnv badGoodDialer (okConnection (1 * Millisecond))) (0 + 1)
        (readyClient (2 * Millisecond)) "SET" [Value.str "k", Value.str "v"] st0).2.calls
      = doCount st0.calls + 1 ∧
    rebuildCount (Do (fakeEnv badGoodDialer (okConnection (1 * Millisecond))) (0 + 1)
        (readyClient (2 * Millisecond)) "SET" [Value.str "k", Value.str "v"] st0).2.calls
      = rebuildCount st0.calls :=
  Do_first_reply_in_time (fakeEnv badGoodDialer (okConnection (1 * Millisecond)))
    (readyClient (2 * Millisecond)) ⟨0, 0, 0⟩ "SET" [Value.str "k", Value.str "v"] st0 0
    (Value.str "OK") (okConnection (1 * Millisecond)) 0 (1 * Millisecond)
    rfl (by decide) rfl (by decide) rfl (by decide)

/-- C11 (the claim as stated fails).  The command fails once with the read-only error and
succeeds when `waitfor.Func` retries it 1ms later, well before a `callTimeout` of 10ms:
`Do` returns `OK` with a nil error after two executions of the command, and
`RebuildConnectionPool` is not invoked. -/
theorem Do_retry_succeeds_without_rebuild :
    ((healingConnection (1 * Millisecond)).Do "SET" [Value.str "k", Value.str "v"] 0).1
      = (Value.nil, some readOnlyError) ∧
    stringsContains (readOnlyError.Error (fun _ => "1ms")) readOnlyMarker = true ∧
    (∃ r1, (Do (fakeEnv badGoodDialer (healingConnection (1 * Millisecond))) 2
        (readyClient (10 * Millisecond)) "SET" [Value.str "k", Value.str "v"] st0).1
      = .ret ((Value.str "OK", none), r1)) ∧
    rebuildCount (Do (fakeEnv badGoodDialer (healingConnection (1 * Millisecond))) 2
        (readyClient (10 * Millisecond)) "SET" [Value.str "k", Value.str "v"] st0).2.calls
      = 0 ∧
    doCount (Do (fakeEnv badGoodDialer (healingConnection (1 * Millisecond))) 2
        (readyClient (10 * Millisecond)) "SET" [Value.str "k", Value.str "v"] st0).2.calls
      = 2 :=
  ⟨by decide, by decide, ⟨_, rfl⟩, by decide, by decide⟩

/-- C11 (amended).  The client has a pool and a `callTimeout` of at least 1ms.  When the
first execution of the command fails in time with an error that carries the marker, the
retry made 1ms later is not answered before the timeout, `RebuildConnectionPool` then
succeeds, and the first execution of the command on the connection of the new pool returns
`(v, nil)` in time, `Do` returns `(v, nil)` with the rebuilt client, and
`RebuildConnectionPool` has been invoked exactly once. -/
theorem Do_rebuilds_once_after_marker_timeout {σ : Type} (env : Env σ)
    (r r1 : RedisSentinel σ) (pool : Pool) (action : String) (params : List Value)
    (st st4 : St σ) (fuel : Nat) (conn conn2 : Connection σ) (w1 w2 w3 w5 w6 : σ)
    (v1 v : Value) (e1 : Error) (out2 : Value × Option Error)
    (hpool : r.connPool = some pool)
    (htimeout : 1 * Millisecond ≤ r.callTimeout)
    (hget : env.poolGet pool r.masterHost st.world = (conn, w1))
    (hnow1 : env.now w1 < env.now st.world + r.callTimeout)
    (hdo1 : conn.Do action params w1 = ((v1, some e1), w2))
    (hin1 : env.now w2 < env.now w1 + r.callTimeout)
    (hmarker : stringsContains (e1.Error env.durationString) readOnlyMarker = true)
    (hdo2 : conn.Do action params (env.sleep (1 * Millisecond) w2) = (out2, w3))
    (hout2 : env.now w1 + r.callTimeout ≤ env.now w3)
    (hrb : RebuildConnectionPool r ⟨w3, st.calls ++ [Call.Get r.masterHost]
        ++ [Call.Do r.masterHost action params] ++ [Call.Sleep (1 * Millisecond)]
        ++ [Call.Do r.masterHost action params]⟩ = (.ret (r1, none), st4))
    (hget2 : env.poolGet (newPool r1) r1.masterHost st4.world = (conn2, w5))
    (hnow5 : env.now w5 < env.now st4.world + r1.callTimeout)
    (hdo3 : conn2.Do action params w5 = ((v, none), w6))
    (hnow6 : env.now w6 < env.now w5 + r1.callTimeout) :
    Do env (fuel + 2) r action params st
      = (.ret ((v, none), r1), callClose conn r.masterHost (callClose conn2 r1.masterHost
          ⟨w6, st4.calls ++ [Call.Get r1.masterHost]
            ++ [Call.Do r1.masterHost action params]⟩)) ∧
    rebuildCount (Do env (fuel + 2) r action params st).2.calls
      = rebuildCount st.calls + 1 := by
  obtain ⟨hg, he⟩ := Do_marker_rounds env r pool action params st fuel conn w1 w2 w3 v1 e1
    out2 hpool htimeout hget hnow1 hdo1 hin1 hdo2 hout2
  have hm := timeoutError_contains_last env.durationString r.callTimeout e1 _ hmarker
  obtain ⟨hct, _, _, _, hp⟩ := rebuild_fields r r1 _ st4 none hrb
  have hinner := Do_ok_of_first_reply env r1 (newPool r1) action params st4 fuel v conn2
    w5 w6 (hp rfl) (by rw [hct]; exact htimeout) hget2 hnow5 hdo3 hnow6
  have hdo := Do_step_rb_ok env (fuel + 1) r action params st _ conn hg _ _ _ _ r1 he hm hrb
  rw [hinner] at hdo
  have hcount : rebuildCount st4.calls = rebuildCount st.calls + 1 := by
    have h1 := rebuild_rebuildCount r ⟨w3, st.calls ++ [Call.Get r.masterHost]
        ++ [Call.Do r.masterHost action params] ++ [Call.Sleep (1 * Millisecond)]
        ++ [Call.Do r.masterHost action params]⟩
    rw [hrb] at h1
    rw [h1]
    simp [rebuildCount, List.countP_append]
  refine ⟨hdo, ?_⟩
  rw [hdo]
  simp only [callClose]
  rw [← hcount]
  simp [rebuildCount, List.countP_append]

/-- C11 (amended), at a concrete input: the client is bound to `10.0.0.9:6379`, now a replica;
`callTimeout` is 1ms; the sentinel `good:2` reports `10.0.0.5`, which answers `OK`. -/
theorem Do_rebuilds_once_after_marker_timeout_witness :
    (∃ r1, (Do (failoverEnv badGoodDialer failoverConns) (0 + 2)
        (staleClient (1 * Millisecond) ["good:2"]) "SET" [Value.str "k", Value.str "v"] st0).1
      = .ret ((Value.str "OK", none), r1) ∧ r1.masterHost = "10.0.0.5:6379") ∧
    rebuildCount (Do (failoverEnv badGoodDialer failoverConns) (0 + 2)
        (staleClient (1 * Millisecond) ["good:2"]) "SET" [Value.str "k", Value.str "v"] st0).2.calls
      = rebuildCount st0.calls + 1 := by
  have h := Do_rebuilds_once_after_marker_timeout (failoverEnv badGoodDialer failoverConns)
    (staleClient (1 * Millisecond) ["good:2"])
    { staleClient (1 * Millisecond) ["good:2"] with
      masterHost := "10.0.0.5:6379", connPool := some ⟨0, 0, 0⟩ }
    ⟨0, 0, 0⟩ "SET" [Value.str "k", Value.str "v"] st0
    (RebuildConnectionPool (staleClient (1 * Millisecond) ["good:2"])
      ⟨1 * Millisecond, [Call.Get "10.0.0.9:6379",
        Call.Do "10.0.0.9:6379" "SET" [Value.str "k", Value.str "v"],
        Call.Sleep (1 * Millisecond),
        Call.Do "10.0.0.9:6379" "SET" [Value.str "k", Value.str "v"]]⟩).2
    0 readOnlyConnection (okConnection 0) 0 0 (1 * Millisecond) (1 * Millisecond)
    (1 * Millisecond) Value.nil (Value.str "OK") readOnlyError (Value.nil, some readOnlyError)
    rfl (by decide) rfl (by decide) (by decide) (by decide) (by decide) (by decide)
    (by decide) rfl rfl (by decide) (by decide) (by decide)
  exact ⟨⟨_, by rw [h.1], rfl⟩, h.2⟩

/-- C12 (the claim as stated fails).  The command fails with the read-only error until the
timeout and no sentinel can be dialed: `Do` returns the error of `RebuildConnectionPool`,
`NoSentinelFound`, not the error of the command. -/
theorem Do_returns_rebuild_error :
    (∃ r1, (Do (failoverEnv badGoodDialer failoverConns) 2
        (staleClient (1 * Millisecond) ["bad:1"]) "SET" [Value.str "k", Value.str "v"] st0).1
      = .ret ((Value.nil, some (Error.NoSentinelFound "Failed to connect to a sentinel")),
          r1)) ∧
    (readOnlyConnection.Do "SET" [Value.str "k", Value.str "v"] 0).1
      = (Value.nil, some readOnlyError) ∧
    stringsContains (readOnlyError.Error (fun _ => "1ms")) readOnlyMarker = true :=
  ⟨⟨_, rfl⟩, by decide, by decide⟩

/-- C12 (amended).  The client has a pool and a `callTimeout` of at least 1ms, and the pool
hands out its connection in time.  The command fails with the read-only marker: the
executions that are answered before the timeout all fail, `errs` in order, the last of them
with an error that carries the marker, and the next execution is not answered before the
timeout.  When the `RebuildConnectionPool` that follows fails with `err1`, `Do` returns
`err1`, the error of the rebuild, with the client as the rebuild left it;
`RebuildConnectionPool` has been invoked once; and after the rebuild `Do` makes no call but
the deferred `Close`: the command is not issued again. -/
theorem Do_returns_error_of_failed_rebuild {σ : Type} (env : Env σ)
    (r r1 : RedisSentinel σ) (pool : Pool) (action : String) (params : List Value)
    (st s1 st4 : St σ) (k : Nat) (conn : Connection σ) (w1 : σ)
    (errs : List (Error × Value)) (e err1 : Error) (v : Value)
    (hpool : r.connPool = some pool)
    (htimeout : 1 * Millisecond ≤ r.callTimeout)
    (hget : env.poolGet pool r.masterHost st.world = (conn, w1))
    (hnow1 : env.now w1 < env.now st.world + r.callTimeout)
    (hrun : FailsInTime env (commandRound conn r.masterHost action params) (1 * Millisecond)
      (env.now w1 + r.callTimeout) errs ⟨w1, st.calls ++ [Call.Get r.masterHost]⟩ s1)
    (hlast : errs.getLast? = some (e, v))
    (hmarker : stringsContains (e.Error env.durationString) readOnlyMarker = true)
    (hlate : env.now w1 + r.callTimeout
      ≤ env.now (commandRound conn r.masterHost action params s1).2.world)
    (hrb : RebuildConnectionPool r (commandRound conn r.masterHost action params s1).2
      = (.ret (r1, some err1), st4)) :
    (∃ result, Do env (errs.length + k + 1) r action params st
      = (.ret ((result, some err1), r1),
          ⟨(conn.Close st4.world).2, st4.calls ++ [Call.Close r.masterHost]⟩)) ∧
    rebuildCount (Do env (errs.length + k + 1) r action params st).2.calls
      = rebuildCount st.calls + 1 ∧
    doCount (Do env (errs.length + k + 1) r action params st).2.calls
      = doCount st4.calls := by
  have hg : Func env (getConn env r) (1 * Millisecond) r.callTimeout (errs.length + k + 1) st
      = (.ret (none, some conn), ⟨w1, st.calls ++ [Call.Get r.masterHost]⟩) :=
    Func_first_ok env _ _ _ (errs.length + k) st _ conn htimeout
      (by simp only [getConn, hpool, hget]) hnow1
  have he := Func_run env (commandRound conn r.masterHost action params) (1 * Millisecond)
    r.callTimeout errs k ⟨w1, st.calls ++ [Call.Get r.masterHost]⟩ s1
    (commandRound conn r.masterHost action params s1).2
    ((callDo conn r.masterHost action params s1).1.2,
      (callDo conn r.masterHost action params s1).1.1) htimeout hrun rfl hlate
  rw [hlast] at he
  have hm := timeoutError_contains_last env.durationString r.callTimeout e _ hmarker
  have hdo := Do_step_rb_err env (errs.length + k) r action params st _ conn hg _ _ _ _ _
    r1 he hm hrb
  have hcount : rebuildCount st4.calls = rebuildCount st.calls + 1 := by
    have h1 := rebuild_rebuildCount r (commandRound conn r.masterHost action params s1).2
    rw [hrb] at h1
    have h2 := rebuildCount_Func_command env conn r.masterHost action params
      (1 * Millisecond) r.callTimeout (errs.length + k + 1)
      ⟨w1, st.calls ++ [Call.Get r.masterHost]⟩
    rw [he] at h2
    rw [h1, h2]
    simp [rebuildCount, List.countP_append]
  refine ⟨⟨_, hdo⟩, ?_, ?_⟩
  · rw [hdo]
    simp only [callClose]
    rw [← hcount]
    simp [rebuildCount, List.countP_append]
  · rw [hdo]
    simp [callClose, doCount, List.countP_append]

/-- C12 (amended), at a concrete input: the client is bound to a replica, `callTimeout` is
2ms, and the only sentinel, `bad:1`, cannot be dialed.  The command is executed at 0ms and
at 1ms, failing with the read-only error, and a third time at 2ms, when the timeout has
been reached; `Do` returns `NoSentinelFound`, the error of the rebuild. -/
theorem Do_returns_error_of_failed_rebuild_witness :
    (∃ result r1 st4, Do (failoverEnv badGoodDialer failoverConns) (2 + 0 + 1)
        (staleClient (2 * Millisecond) ["bad:1"]) "SET" [Value.str "k", Value.str "v"] st0
      = (.ret ((result, some (Error.NoSentinelFound "Failed to connect to a sentinel")),
          r1), st4)) ∧
    rebuildCount (Do (failoverEnv badGoodDialer failoverConns) (2 + 0 + 1)
        (staleClient (2 * Millisecond) ["bad:1"]) "SET" [Value.str "k", Value.str "v"] st0).2.calls
      = rebuildCount st0.calls + 1 ∧
    doCount (Do (failoverEnv badGoodDialer failoverConns) (2 + 0 + 1)
        (staleClient (2 * Millisecond) ["bad:1"]) "SET" [Value.str "k", Value.str "v"] st0).2.calls
      = 3 := by
  have h := Do_returns_error_of_failed_rebuild (failoverEnv badGoodDialer failoverConns)
    (staleClient (2 * Millisecond) ["bad:1"])
    { staleClient (2 * Millisecond) ["bad:1"] with masterHost := "" }
    ⟨0, 0, 0⟩ "SET" [Value.str "k", Value.str "v"] st0
    ⟨2 * Millisecond, [Call.Get "10.0.0.9:6379",
      Call.Do "10.0.0.9:6379" "SET" [Value.str "k", Value.str "v"],
      Call.Sleep (1 * Millisecond),
      Call.Do "10.0.0.9:6379" "SET" [Value.str "k", Value.str "v"],
      Call.Sleep (1 * Millisecond)]⟩
    (RebuildConnectionPool (staleClient (2 * Millisecond) ["bad:1"])
      ⟨2 * Millisecond, [Call.Get "10.0.0.9:6379",
        Call.Do "10.0.0.9:6379" "SET" [Value.str "k", Value.str "v"],
        Call.Sleep (1 * Millisecond),
        Call.Do "10.0.0.9:6379" "SET" [Value.str "k", Value.str "v"],
        Call.Sleep (1 * Millisecond),
        Call.Do "10.0.0.9:6379" "SET" [Value.str "k", Value.str "v"]]⟩).2
    0 readOnlyConnection 0
    [(readOnlyError, Value.nil), (readOnlyError, Value.nil)] readOnlyError
    (Error.NoSentinelFound "Failed to connect to a sentinel") Value.nil
    rfl (by decide) rfl (by decide) ⟨rfl, by decide, rfl, by decide, rfl⟩ rfl (by decide)
    (by decide) rfl
  obtain ⟨⟨result, hdo⟩, hrebuild, hcount⟩ := h
  exact ⟨⟨_, _, _, hdo⟩, hrebuild, hcount.trans (by decide)⟩

/-- C13 (the claim as stated fails).  The pool keeps handing out a replica and every rebuild
succeeds: by its fifth nested call `Do` has invoked `RebuildConnectionPool` four times,
and it has not returned; nor does it return with any other amount of fuel. -/
theorem Do_keeps_rebuilding :
    (Do (fakeEnv badGoodDialer readOnlyConnection) 5 (staleClient (1 * Millisecond) ["good:2"])
        "SET" [Value.str "k", Value.str "v"] st0).1 = .outOfFuel ∧
    rebuildCount (Do (fakeEnv badGoodDialer readOnlyConnection) 5
        (staleClient (1 * Millisecond) ["good:2"])
        "SET" [Value.str "k", Value.str "v"] st0).2.calls = 4 ∧
    (∀ fuel, (Do (fakeEnv badGoodDialer readOnlyConnection) fuel
        (staleClient (1 * Millisecond) ["good:2"])
        "SET" [Value.str "k", Value.str "v"] st0).1 = .outOfFuel) :=
  ⟨rfl, by decide, fun fuel => Do_readOnly_never_returns fuel "10.0.0.9:6379" st0⟩

/-- C13 (amended).  Every call of `Do` invokes `RebuildConnectionPool` at most once itself;
after a rebuild that succeeds it re-issues the command once, by calling `Do` again, and it
ends as that inner call ends, with the rebuilds of that inner call added to its own one.
So `Do` returns after one rebuild when the inner call makes none, and `n` nested calls make
at most `n` rebuilds. -/
theorem Do_rebuilds_once_per_level {σ : Type} (env : Env σ) (fuel : Nat)
    (r : RedisSentinel σ) (action : String) (params : List Value) (st : St σ) :
    (rebuildCount (Do env (fuel + 1) r action params st).2.calls ≤ rebuildCount st.calls + 1 ∨
      ∃ r1 st2 st3, RebuildConnectionPool r st2 = (.ret (r1, none), st3) ∧
        rebuildCount st2.calls = rebuildCount st.calls ∧
        (Do env (fuel + 1) r action params st).1 = (Do env fuel r1 action params st3).1 ∧
        rebuildCount (Do env (fuel + 1) r action params st).2.calls
          = rebuildCount (Do env fuel r1 action params st3).2.calls) ∧
    rebuildCount (Do env (fuel + 1) r action params st).2.calls
      ≤ rebuildCount st.calls + (fuel + 1) :=
  ⟨Do_level env fuel r action params st, Do_rebuild_bound env (fuel + 1) r action params st⟩

/-- C14.  When every error the command can return on a connection of the pool lacks the
marker (the printed durations having no capital `Y`), `Do` returns the client it was called
on, so the master address and the pool are unchanged, and it invokes neither
`RebuildConnectionPool` nor the dialer. -/
theorem Do_without_marker_keeps_client {σ : Type} (env : Env σ) (fuel : Nat)
    (r : RedisSentinel σ) (action : String) (params : List Value) (st : St σ)
    (hY : ∀ d, ¬ 'Y' ∈ (env.durationString d).data)
    (hcmd : ∀ pool w0 w e, r.connPool = some pool →
      ((env.poolGet pool r.masterHost w0).1.Do action params w).1.2 = some e →
      stringsContains (e.Error env.durationString) readOnlyMarker = false) :
    (∀ res r1, (Do env fuel r action params st).1 = .ret (res, r1) →
      r1 = r ∧ r1.masterHost = r.masterHost ∧ r1.connPool = r.connPool) ∧
    rebuildCount (Do env fuel r action params st).2.calls = rebuildCount st.calls ∧
    dialTimeoutCount (Do env fuel r action params st).2.calls = dialTimeoutCount st.calls ∧
    dialCount (Do env fuel r action params st).2.calls = dialCount st.calls := by
  refine ⟨fun res r1 h => ?_, ?_, ?_, ?_⟩
  · have h1 := (Do_no_marker (fun _ => false) (fun _ => rfl) (fun _ _ _ => rfl) (fun _ => rfl)
      (fun _ => rfl) env fuel r action params st hY hcmd).1 res r1 h
    subst h1
    exact ⟨rfl, rfl, rfl⟩
  · exact (Do_no_marker _ (fun _ => rfl) (fun _ _ _ => rfl) (fun _ => rfl)
      (fun _ => rfl) env fuel r action params st hY hcmd).2
  · exact (Do_no_marker _ (fun _ => rfl) (fun _ _ _ => rfl) (fun _ => rfl)
      (fun _ => rfl) env fuel r action params st hY hcmd).2
  · exact (Do_no_marker _ (fun _ => rfl) (fun _ _ _ => rfl) (fun _ => rfl)
      (fun _ => rfl) env fuel r action params st hY hcmd).2

/-- C14, at a concrete input: every execution of the command fails with `ERR unknown
command`; with a `callTimeout` of 1ms `Do` gives up after two executions and the client is
as before. -/
theorem Do_without_marker_keeps_client_witness :
    (∀ res r1, (Do (fakeEnv badGoodDialer (failingConnection "ERR unknown command")) 2
        (readyClient (1 * Millisecond)) "SET" [Value.str "k", Value.str "v"] st0).1
        = .ret (res, r1) →
      r1 = readyClient (1 * Millisecond) ∧
      r1.masterHost = (readyClient (1 * Millisecond)).masterHost ∧
      r1.connPool = (readyClient (1 * Millisecond)).connPool) ∧
    rebuildCount (Do (fakeEnv badGoodDialer (failingConnection "ERR unknown command")) 2
        (readyClient (1 * Millisecond)) "SET" [Value.str "k", Value.str "v"] st0).2.calls
      = rebuildCount st0.calls ∧
    dialTimeoutCount (Do (fakeEnv badGoodDialer (failingConnection "ERR unknown command")) 2
        (readyClient (1 * Millisecond)) "SET" [Value.str "k", Value.str "v"] st0).2.calls
      = dialTimeoutCount st0.calls ∧
    dialCount (Do (fakeEnv badGoodDialer (failingConnection "ERR unknown command")) 2
        (readyClient (1 * Millisecond)) "SET" [Value.str "k", Value.str "v"] st0).2.calls
      = dialCount st0.calls :=
  Do_without_marker_keeps_client (fakeEnv badGoodDialer (failingConnection "ERR unknown command"))
    2 (readyClient (1 * Millisecond)) "SET" [Value.str "k", Value.str "v"] st0
    (fun _ => (by decide : ¬ 'Y' ∈ "1ms".data))
    (fun _ _ _ e _ h => by
      have he : e = Error.other "ERR unknown command" := (Option.some.inj h).symm
      subst he
      decide)

/-- C15 (the claim as stated fails).  `NewSentinel` accepts a configuration whose
`CallTimeout` is zero, and on the client it returns `Do`, and so `Set`, panics in
`waitfor.Func`. -/
theorem Do_panics_with_zero_callTimeout :
    (NewSentinel (printingEnv badGoodDialer (okConnection 0))
        (confWith "mymaster" ["good:2"]) st0).1 = .ret (some (readyClient 0), none) ∧
    (confWith "mymaster" ["good:2"]).CallTimeout = 0 ∧
    (Do (printingEnv badGoodDialer (okConnection 0)) 1 (readyClient 0)
        "SET" [Value.str "k", Value.str "v"] st0).1
      = .panic "waitfor: interval (1ms) must be shorter than timeout (0s)" ∧
    (RedisInstance.Set ⟨some (sentinelCommander (printingEnv badGoodDialer (okConnection 0)) 1)⟩
        "k" (Value.str "v") (readyClient 0, st0)).1
      = .panic "waitfor: interval (1ms) must be shorter than timeout (0s)" :=
  ⟨rfl, rfl, rfl, rfl⟩

/-- C15 (amended).  For every configuration that `NewSentinel` accepts and whose
`CallTimeout` is at least 1ms, on a network whose sentinels answer with nil or with a list
that is not empty, neither `Do` nor any of `Set`, `Get`, `GetInt`, `Del`, `Incr`, `Decr`,
`Expire`, `Exists` and `GetMembersOfSet` on the client it returns panics. -/
theorem Do_and_methods_do_not_panic {σ : Type} (env : Env σ) (conf : RedisConfig)
    (stNew : St σ) (rs : RedisSentinel σ) (sc : Strconv)
    (hnew : (NewSentinel env conf stNew).1 = .ret (some rs, none))
    (htimeout : 1 * Millisecond ≤ conf.CallTimeout)
    (hsent : SentinelsAnswerLists env.McRedisDialer)
    (fuel : Nat) (action : String) (params : List Value) (key : String) (value : Value)
    (ttl : Int) (st : St σ) (msg : String) :
    (Do env fuel rs action params st).1 ≠ .panic msg ∧
    (RedisInstance.Set ⟨some (sentinelCommander env fuel)⟩ key value (rs, st)).1
      ≠ .panic msg ∧
    (RedisInstance.Get ⟨some (sentinelCommander env fuel)⟩ key (rs, st)).1 ≠ .panic msg ∧
    (RedisInstance.GetInt sc ⟨some (sentinelCommander env fuel)⟩ key (rs, st)).1
      ≠ .panic msg ∧
    (RedisInstance.Del ⟨some (sentinelCommander env fuel)⟩ key (rs, st)).1 ≠ .panic msg ∧
    (RedisInstance.Incr sc ⟨some (sentinelCommander env fuel)⟩ key (rs, st)).1
      ≠ .panic msg ∧
    (RedisInstance.Decr sc ⟨some (sentinelCommander env fuel)⟩ key (rs, st)).1
      ≠ .panic msg ∧
    (RedisInstance.Expire sc ⟨some (sentinelCommander env fuel)⟩ key ttl (rs, st)).1
      ≠ .panic msg ∧
    (RedisInstance.Exists sc ⟨some (sentinelCommander env fuel)⟩ key (rs, st)).1
      ≠ .panic msg ∧
    (RedisInstance.GetMembersOfSet ⟨some (sentinelCommander env fuel)⟩ key (rs, st)).1
      ≠ .panic msg := by
  obtain ⟨hct, hpool, hdial⟩ := NewSentinel_fields env conf stNew rs hnew
  have hdo : ∀ a ps, (Do env fuel rs a ps st).1 ≠ .panic msg := fun a ps =>
    Do_no_panic env fuel rs a ps st msg hpool (by rw [hct]; exact htimeout)
      (by rw [hdial]; exact hsent)
  have hc : ∀ a ps, ((sentinelCommander env fuel).Do a ps (rs, st)).1 ≠ .panic msg :=
    fun a ps => sentinelCommander_no_panic env fuel rs st a ps msg (hdo a ps)
  refine ⟨hdo action params, ?_, ?_, ?_, ?_, ?_, ?_, ?_, ?_, ?_⟩
  · exact Outcome.map_ne_panic _ _ _ (hc _ _)
  · exact hc _ _
  · exact Outcome.map_ne_panic _ _ _ (hc _ _)
  · exact Outcome.map_ne_panic _ _ _ (hc _ _)
  · exact Outcome.map_ne_panic _ _ _ (hc _ _)
  · exact Outcome.map_ne_panic _ _ _ (hc _ _)
  · exact Outcome.map_ne_panic _ _ _ (hc _ _)
  · exact Outcome.map_ne_panic _ _ _ (hc _ _)
  · exact Outcome.map_ne_panic _ _ _ (hc _ _)

/-- C15 (amended), at a concrete input: `CallTimeout` of 1ms and the sentinel `good:2`. -/
theorem Do_and_methods_do_not_panic_witness :
    (Do (printingEnv badGoodDialer (okConnection 0)) 3 (readyClient (1 * Millisecond))
        "SET" [Value.str "k", Value.str "v"] st0).1 ≠ .panic "boom" ∧
    (RedisInstance.Set
        ⟨some (sentinelCommander (printingEnv badGoodDialer (okConnection 0)) 3)⟩
        "k" (Value.str "v") (readyClient (1 * Millisecond), st0)).1 ≠ .panic "boom" :=
  have h := Do_and_methods_do_not_panic (printingEnv badGoodDialer (okConnection 0))
    { confWith "mymaster" ["good:2"] with CallTimeout := 1 * Millisecond } st0
    (readyClient (1 * Millisecond)) strconv64 rfl (by decide) badGoodDialer_answers_lists
    3 "SET" [Value.str "k", Value.str "v"] "k" (Value.str "v") 0 st0 "boom"
  ⟨h.1, h.2.1⟩

/-- C16.  `waitfor.Func` is called with `interval ≤ timeout`.  The invocations of `f` that
return before the deadline all return an error, `errs` in order, each followed by a sleep
of `interval`, and the next invocation has not returned when the deadline is reached.  Then
`Func` returns a `TimeoutError` for its timeout.  When `errs` is not empty, the message
quotes the last error of `errs`, so the text of the `TimeoutError` contains the text of
that error; when `errs` is empty, no invocation having returned within the timeout, the
message is `; function did not return`.  Conversely, every error `Func` returns is the
`TimeoutError` of such a run. -/
theorem Func_timeout_error_message {σ β : Type} (env : Env σ)
    (f : St σ → Outcome (Option Error × β) × St σ) (interval timeout : Int)
    (errs : List (Error × β)) (k : Nat) (st s1 s2 : St σ) (res : Option Error × β)
    (hle : interval ≤ timeout)
    (hrun : FailsInTime env f interval (env.now st.world + timeout) errs st s1)
    (hlate : f s1 = (.ret res, s2))
    (hdead : env.now st.world + timeout ≤ env.now s2.world) :
    (∃ err result,
      Func env f interval timeout (errs.length + k + 1) st = (.ret (some err, result), s2) ∧
      (∀ e b, errs.getLast? = some (e, b) →
        err = Error.TimeoutError timeout
          ("; last error: " ++ "\x27" ++ e.Error env.durationString ++ "\x27") ∧
        stringsContains (err.Error env.durationString) (e.Error env.durationString) = true) ∧
      (errs = [] →
        err = Error.TimeoutError timeout "; function did not return" ∧
        stringsContains (err.Error env.durationString) "function did not return" = true)) ∧
    (∀ fuel st1 err result,
      Func env f interval timeout fuel st = (.ret (some err, result), st1) →
      ∃ (errs1 : List (Error × β)) (s3 : St σ) (res1 : Option Error × β),
        FailsInTime env f interval (env.now st.world + timeout) errs1 st s3 ∧
        f s3 = (.ret res1, st1) ∧ env.now st.world + timeout ≤ env.now st1.world ∧
        err = Error.TimeoutError timeout
          (timeoutMessage env.durationString (errs1.getLast?.map Prod.fst))) := by
  refine ⟨⟨_, _, Func_run env f interval timeout errs k st s1 s2 res hle hrun hlate hdead,
    ?_, ?_⟩, ?_⟩
  · intro e b hlast
    rw [hlast]
    exact ⟨rfl, timeoutError_contains_last _ _ _ _ (stringsContains_self _)⟩
  · intro hnil
    subst hnil
    exact ⟨rfl, timeoutError_contains_did_not_return _ _⟩
  · intro fuel st1 err result h
    exact Func_error_run env f interval timeout fuel st st1 err result h

/-- C16, at concrete inputs.  With interval 400ms and timeout 1s, an `f` that fails with
`connection refused` at first and with `LOADING ...` on its two retries is invoked a fourth
time at 1.2s: the `TimeoutError` quotes `LOADING ...`, the last error, not the first.  With
the inputs of the repository's test, interval 100ms and timeout 1s, an `f` that takes an
hour gives `function did not return`. -/
theorem Func_timeout_error_message_witness :
    (∃ result s2, Func (fakeEnv badGoodDialer (okConnection 0))
        (pingRound (startingConnection (400 * Millisecond)))
        (400 * Millisecond) (1000 * Millisecond) (3 + 0 + 1) st0
      = (.ret (some (Error.TimeoutError (1000 * Millisecond)
          "; last error: \x27LOADING Redis is loading the dataset in memory\x27"), result),
          s2)) ∧
    stringsContains
      ((Error.TimeoutError (1000 * Millisecond)
        "; last error: \x27LOADING Redis is loading the dataset in memory\x27").Error
          (fakeEnv badGoodDialer (okConnection 0)).durationString)
      "LOADING Redis is loading the dataset in memory" = true ∧
    (∃ result s2, Func (fakeEnv badGoodDialer (okConnection 0))
        (pingRound (okConnection (3600000 * Millisecond)))
        (100 * Millisecond) (1000 * Millisecond) (0 + 0 + 1) st0
      = (.ret (some (Error.TimeoutError (1000 * Millisecond) "; function did not return"),
          result), s2)) := by
  obtain ⟨⟨err, result, hF, hlast, _⟩, _⟩ :=
    Func_timeout_error_message (fakeEnv badGoodDialer (okConnection 0))
      (pingRound (startingConnection (400 * Millisecond)))
      (400 * Millisecond) (1000 * Millisecond)
      [(Error.other "connection refused", Value.nil),
        (Error.other "LOADING Redis is loading the dataset in memory", Value.nil),
        (Error.other "LOADING Redis is loading the dataset in memory", Value.nil)]
      0 st0
      ⟨1200 * Millisecond, [Call.Do "node" "PING" [], Call.Sleep (400 * Millisecond),
        Call.Do "node" "PING" [], Call.Sleep (400 * Millisecond),
        Call.Do "node" "PING" [], Call.Sleep (400 * Millisecond)]⟩
      ⟨1200 * Millisecond, [Call.Do "node" "PING" [], Call.Sleep (400 * Millisecond),
        Call.Do "node" "PING" [], Call.Sleep (400 * Millisecond),
        Call.Do "node" "PING" [], Call.Sleep (400 * Millisecond), Call.Do "node" "PING" []]⟩
      (some (Error.other "LOADING Redis is loading the dataset in memory"), Value.nil)
      (by decide) ⟨rfl, by decide, rfl, by decide, rfl, by decide, rfl⟩ rfl (by decide)
  obtain ⟨herr, hcontains⟩ := hlast _ _ rfl
  obtain ⟨⟨err2, result2, hF2, _, hnone⟩, _⟩ :=
    Func_timeout_error_message (fakeEnv badGoodDialer (okConnection 0))
      (pingRound (okConnection (3600000 * Millisecond)))
      (100 * Millisecond) (1000 * Millisecond) [] 0 st0 st0
      (pingRound (okConnection (3600000 * Millisecond)) st0).2
      (none, Value.str "OK")
      (by decide) rfl rfl (by decide)
  obtain ⟨herr2, _⟩ := hnone rfl
  subst herr herr2
  exact ⟨⟨_, _, hF⟩, hcontains, ⟨_, _, hF2⟩⟩

/-- C17.  For an `f` that does not itself panic, `waitfor.Func` panics exactly when
`interval > timeout`; it then panics before calling `f`, with a message that contains
`must be shorter than timeout`.  For `interval ≤ timeout`, equality included, `f` is
invoked at least once: any count that every invocation of `f` raises, and that sleeping
does not lower, has been raised when `Func` ends. -/
theorem Func_panics_iff_interval_exceeds_timeout {σ β : Type} (env : Env σ)
    (f : St σ → Outcome (Option Error × β) × St σ) (interval timeout : Int) (fuel : Nat)
    (st : St σ) (hf : ∀ s msg, (f s).1 ≠ .panic msg) :
    ((∃ msg, (Func env f interval timeout fuel st).1 = .panic msg) ↔ interval > timeout) ∧
    (interval > timeout → ∃ msg, Func env f interval timeout fuel st = (.panic msg, st) ∧
      stringsContains msg "must be shorter than timeout" = true) ∧
    (interval ≤ timeout → ∀ count : St σ → Nat,
      (∀ s, count s + 1 ≤ count (f s).2) →
      (∀ (s : St σ) d, count s ≤ count ⟨env.sleep d s.world, s.calls ++ [Call.Sleep d]⟩) →
      count st + 1 ≤ count (Func env f interval timeout (fuel + 1) st).2) := by
  have hpanic : interval > timeout → ∃ msg, Func env f interval timeout fuel st
      = (.panic msg, st) ∧ stringsContains msg "must be shorter than timeout" = true := by
    intro hgt
    refine ⟨_, by rw [Func, if_pos hgt], ?_⟩
    rw [stringsContains_iff]
    simp only [String.data_append]
    exact ⟨"waitfor: interval (".data ++ (env.durationString interval).data ++ ") ".data,
      " (".data ++ (env.durationString timeout).data ++ ")".data,
      by simp [List.append_assoc]⟩
  refine ⟨⟨fun h => ?_, fun hgt => ?_⟩, hpanic, fun hle count hcount hsleep => ?_⟩
  · by_contra hng
    obtain ⟨msg, hmsg⟩ := h
    exact Func_no_panic env f hf interval timeout (not_lt.mp hng) fuel st msg hmsg
  · obtain ⟨msg, hmsg, _⟩ := hpanic hgt
    exact ⟨msg, by rw [hmsg]⟩
  · rw [Func, if_neg (not_lt.mpr hle)]
    exact FuncLoop_invoked env f count hcount hsleep _ _ _ _ _ _ _

/-- C17, at concrete inputs: interval one hour and timeout one second, as in the
repository's test, panic; interval and timeout both 1ms do not, and the command of `f` is
issued. -/
theorem Func_panics_iff_interval_exceeds_timeout_witness :
    (∃ msg, Func (printingEnv badGoodDialer (okConnection 0)) (pingRound (okConnection 0))
        (3600000 * Millisecond) (1000 * Millisecond) 5 st0 = (.panic msg, st0) ∧
      stringsContains msg "must be shorter than timeout" = true) ∧
    doCount st0.calls + 1 ≤ doCount
      (Func (printingEnv badGoodDialer (okConnection 0)) (pingRound (okConnection 0))
        (1 * Millisecond) (1 * Millisecond) (0 + 1) st0).2.calls :=
  ⟨(Func_panics_iff_interval_exceeds_timeout (printingEnv badGoodDialer (okConnection 0))
      (pingRound (okConnection 0)) (3600000 * Millisecond) (1000 * Millisecond) 5 st0
      (fun s msg => commandRound_no_panic _ _ _ _ s msg)).2.1 (by decide),
    (Func_panics_iff_interval_exceeds_timeout (printingEnv badGoodDialer (okConnection 0))
      (pingRound (okConnection 0)) (1 * Millisecond) (1 * Millisecond) 0 st0
      (fun s msg => commandRound_no_panic _ _ _ _ s msg)).2.2 (by decide)
      (fun s => doCount s.calls)
      (fun s => by simp [pingRound, commandRound, callDo, doCount, List.countP_append])
      (fun s d => by simp [doCount, List.countP_append])⟩

/-- C18.  `Set` and `Del` each make exactly one `Do` call on the commander, `SET key value`
and `DEL key`, and return the error of that call and nothing else: nil when the call
returns a nil error. -/
theorem Set_and_Del_issue_one_Do {τ : Type} (c : RedisCommander τ) (key : String)
    (value : Value) (s : τ) (log : List (String × List Value)) :
    (RedisInstance.Set ⟨some (loggedCommander c)⟩ key value (s, log)).2
      = ((c.Do "SET" [Value.str key, value] s).2,
          log ++ [("SET", [Value.str key, value])]) ∧
    (RedisInstance.Del ⟨some (loggedCommander c)⟩ key (s, log)).2
      = ((c.Do "DEL" [Value.str key] s).2, log ++ [("DEL", [Value.str key])]) ∧
    (∀ v e, (c.Do "SET" [Value.str key, value] s).1 = .ret (v, e) →
      (RedisInstance.Set ⟨some (loggedCommander c)⟩ key value (s, log)).1 = .ret e) ∧
    (∀ v e, (c.Do "DEL" [Value.str key] s).1 = .ret (v, e) →
      (RedisInstance.Del ⟨some (loggedCommander c)⟩ key (s, log)).1 = .ret e) := by
  refine ⟨rfl, rfl, fun v e h => ?_, fun v e h => ?_⟩
  · simp only [RedisInstance.Set, logged_Do, h, Outcome.map]
  · simp only [RedisInstance.Del, logged_Do, h, Outcome.map]

/-- C18, at the inputs of the repository's test: `Set` of `my key` with a commander that
answers `set error` returns that error, and `Del` with one that succeeds returns nil; each
leaves one call in the log. -/
theorem Set_and_Del_issue_one_Do_witness :
    (RedisInstance.Set
        ⟨some (loggedCommander (fakeCommander (fun _ _ =>
          (Value.nil, some (Error.other "set error")))))⟩
        "my key" (Value.str "my value") (0, [])).1 = .ret (some (Error.other "set error")) ∧
    (RedisInstance.Del
        ⟨some (loggedCommander (fakeCommander (fun _ _ => (Value.int 1, none))))⟩
        "my key" (0, [])).1 = .ret none ∧
    (RedisInstance.Set
        ⟨some (loggedCommander (fakeCommander (fun _ _ =>
          (Value.nil, some (Error.other "set error")))))⟩
        "my key" (Value.str "my value") (0, [])).2
      = (((fakeCommander (fun _ _ => (Value.nil, some (Error.other "set error")))).Do "SET"
            [Value.str "my key", Value.str "my value"] 0).2,
          [] ++ [("SET", [Value.str "my key", Value.str "my value"])]) :=
  ⟨(Set_and_Del_issue_one_Do (fakeCommander (fun _ _ =>
      (Value.nil, some (Error.other "set error")))) "my key" (Value.str "my value") 0
      []).2.2.1 Value.nil (some (Error.other "set error")) rfl,
    (Set_and_Del_issue_one_Do (fakeCommander (fun _ _ => (Value.int 1, none))) "my key"
      Value.nil 0 []).2.2.2 (Value.int 1) none rfl,
    (Set_and_Del_issue_one_Do (fakeCommander (fun _ _ =>
      (Value.nil, some (Error.other "set error")))) "my key" (Value.str "my value") 0
      []).1⟩

/-- C19.  `Incr`, `Decr`, `GetInt` and `Expire` each make exactly one `Do` call, `INCR
key`, `DECR key`, `GET key` and `EXPIRE key ttl`; when the call returns an integer reply
`n` that fits the Go type `int`, with a nil error, they return `(n, nil)`, and when it
returns an error they return zero and that error. -/
theorem int_methods_issue_one_Do {τ : Type} (sc : Strconv) (c : RedisCommander τ)
    (key : String) (ttl : Int) (s : τ) (log : List (String × List Value)) :
    (((RedisInstance.Incr sc ⟨some (loggedCommander c)⟩ key (s, log)).2
        = ((c.Do "INCR" [Value.str key] s).2, log ++ [("INCR", [Value.str key])])) ∧
      (∀ n, toInt sc.intSize n = n →
        (c.Do "INCR" [Value.str key] s).1 = .ret (Value.int n, none) →
        (RedisInstance.Incr sc ⟨some (loggedCommander c)⟩ key (s, log)).1 = .ret (n, none)) ∧
      (∀ v e, (c.Do "INCR" [Value.str key] s).1 = .ret (v, some e) →
        (RedisInstance.Incr sc ⟨some (loggedCommander c)⟩ key (s, log)).1 = .ret (0, some e))) ∧
    (((RedisInstance.Decr sc ⟨some (loggedCommander c)⟩ key (s, log)).2
        = ((c.Do "DECR" [Value.str key] s).2, log ++ [("DECR", [Value.str key])])) ∧
      (∀ n, toInt sc.intSize n = n →
        (c.Do "DECR" [Value.str key] s).1 = .ret (Value.int n, none) →
        (RedisInstance.Decr sc ⟨some (loggedCommander c)⟩ key (s, log)).1 = .ret (n, none)) ∧
      (∀ v e, (c.Do "DECR" [Value.str key] s).1 = .ret (v, some e) →
        (RedisInstance.Decr sc ⟨some (loggedCommander c)⟩ key (s, log)).1 = .ret (0, some e))) ∧
    (((RedisInstance.GetInt sc ⟨some (loggedCommander c)⟩ key (s, log)).2
        = ((c.Do "GET" [Value.str key] s).2, log ++ [("GET", [Value.str key])])) ∧
      (∀ n, toInt sc.intSize n = n →
        (c.Do "GET" [Value.str key] s).1 = .ret (Value.int n, none) →
        (RedisInstance.GetInt sc ⟨some (loggedCommander c)⟩ key (s, log)).1 = .ret (n, none)) ∧
      (∀ v e, (c.Do "GET" [Value.str key] s).1 = .ret (v, some e) →
        (RedisInstance.GetInt sc ⟨some (loggedCommander c)⟩ key (s, log)).1 = .ret (0, some e))) ∧
    (((RedisInstance.Expire sc ⟨some (loggedCommander c)⟩ key ttl (s, log)).2
        = ((c.Do "EXPIRE" [Value.str key, Value.int ttl] s).2, log ++ [("EXPIRE", [Value.str key, Value.int ttl])])) ∧
      (∀ n, toInt sc.intSize n = n →
        (c.Do "EXPIRE" [Value.str key, Value.int ttl] s).1 = .ret (Value.int n, none) →
        (RedisInstance.Expire sc ⟨some (loggedCommander c)⟩ key ttl (s, log)).1 = .ret (n, none)) ∧
      (∀ v e, (c.Do "EXPIRE" [Value.str key, Value.int ttl] s).1 = .ret (v, some e) →
        (RedisInstance.Expire sc ⟨some (loggedCommander c)⟩ key ttl (s, log)).1 = .ret (0, some e))) :=
  ⟨logged_int_method sc c "INCR" [Value.str key] s log,
    logged_int_method sc c "DECR" [Value.str key] s log,
    logged_int_method sc c "GET" [Value.str key] s log,
    logged_int_method sc c "EXPIRE" [Value.str key, Value.int ttl] s log⟩

/-- C19, at the inputs of the repository's test: the reply `int64(42)` makes `Incr` return
`(42, nil)`, and the error `decr error` makes `Decr` return it. -/
theorem int_methods_issue_one_Do_witness :
    (RedisInstance.Incr strconv64
        ⟨some (loggedCommander (fakeCommander (fun _ _ => (Value.int 42, none))))⟩
        "my key" (0, [])).1 = .ret (42, none) ∧
    (RedisInstance.Decr strconv64
        ⟨some (loggedCommander (fakeCommander (fun _ _ =>
          (Value.nil, some (Error.other "decr error")))))⟩
        "my key" (0, [])).1 = .ret (0, some (Error.other "decr error")) :=
  ⟨(int_methods_issue_one_Do strconv64 (fakeCommander (fun _ _ => (Value.int 42, none)))
      "my key" 0 0 []).1.2.1 42 (by decide) rfl,
    (int_methods_issue_one_Do strconv64 (fakeCommander (fun _ _ =>
      (Value.nil, some (Error.other "decr error")))) "my key" 0 0 []).2.1.2.2
      Value.nil (Error.other "decr error") rfl⟩

/-- C20 (spec-modelled).  `SetAdd`, as the spec describes it, makes exactly one `Do` call,
`SADD` with the key followed by the members, and returns the error of that call and
nothing else. -/
theorem SetAdd_issues_one_Do {τ : Type} (c : RedisCommander τ) (key : String)
    (members : List String) (s : τ) (log : List (String × List Value)) :
    (RedisInstance.SetAdd ⟨some (loggedCommander c)⟩ key members (s, log)).2
      = ((c.Do "SADD" (Value.str key :: members.map Value.str) s).2,
          log ++ [("SADD", Value.str key :: members.map Value.str)]) ∧
    (∀ v e, (c.Do "SADD" (Value.str key :: members.map Value.str) s).1 = .ret (v, e) →
      (RedisInstance.SetAdd ⟨some (loggedCommander c)⟩ key members (s, log)).1 = .ret e) := by
  refine ⟨rfl, fun v e h => ?_⟩
  simp only [RedisInstance.SetAdd, logged_Do, h, Outcome.map]

/-- C20, at the inputs of the repository's test: the members `one` and `two` under
`my key`, answered with `int64(1)`. -/
theorem SetAdd_issues_one_Do_witness :
    (RedisInstance.SetAdd
        ⟨some (loggedCommander (fakeCommander (fun _ _ => (Value.int 1, none))))⟩
        "my key" ["one", "two"] (0, [])).1 = .ret none :=
  (SetAdd_issues_one_Do (fakeCommander (fun _ _ => (Value.int 1, none))) "my key"
    ["one", "two"] 0 []).2 (Value.int 1) none rfl

end Mcredis

namespace Apidadaptor

/-- The slice `toStringSlice` returns: as many empty strings as there are ids, then the
renderings. -/
theorem toStringSlice_eq (vals : List Int) :
    toStringSlice vals = List.replicate vals.length "" ++ vals.map Strconv.Itoa := by
  have h : ∀ (xs : List Int) (acc : List String),
      xs.foldl (fun result s => result ++ [Strconv.Itoa s]) acc
        = acc ++ xs.map Strconv.Itoa := by
    intro xs
    induction xs with
    | nil => intro acc; simp
    | cons x xs ih => intro acc; simp [List.foldl, ih]
  exact h vals _

end Apidadaptor

namespace Apidadaptor

/-- C30 (the code differs from the claim).  For the ids 180 and 1, `toStringSlice` returns
four strings, two empty ones and then `180` and `1`, and that is the `userids` parameter
each of the five methods sends.  In general the slice holds as many empty strings as there
are ids, followed by the renderings, so its length is twice that of the input. -/
theorem toStringSlice_starts_with_empty_strings :
    toStringSlice [180, 1] = ["", "", "180", "1"] ∧
    (UnassignExternalIps (recordingClient (fun _ _ => (some 2, none))) [180, 1] []).2
      = [("unassignExternalIps", [("userids", ["", "", "180", "1"])])] ∧
    (DeleteAllUserIps (recordingClient (fun _ _ => (some 2, none))) [180, 1] []).2
      = [("deleteAllUserIps", [("userids", ["", "", "180", "1"])])] ∧
    (DeleteAllUserIpGroups (recordingClient (fun _ _ => (some 2, none))) [180, 1] []).2
      = [("deleteAllUserIpGroups", [("userids", ["", "", "180", "1"])])] ∧
    (DeleteUserAlerts (recordingClient (fun _ _ => (some 2, none))) [180, 1] []).2
      = [("deleteUserAlerts", [("userids", ["", "", "180", "1"])])] ∧
    (DeleteAllUserNotificationSettings (recordingClient (fun _ _ => (some 2, none)))
        [180, 1] []).2
      = [("deleteAllUserNotificationSettings", [("userids", ["", "", "180", "1"])])] ∧
    (∀ vals : List Int,
      toStringSlice vals = List.replicate vals.length "" ++ vals.map Strconv.Itoa ∧
      (toStringSlice vals).length = 2 * vals.length) := by
  refine ⟨by decide, by decide, by decide, by decide, by decide, by decide, fun vals => ?_⟩
  refine ⟨toStringSlice_eq vals, ?_⟩
  rw [toStringSlice_eq]
  simp
  omega

/-- C28 (the code differs from the claim).  The table returns one vetted entry, id 3 with
user id 0, as in the repository's tests: `getValidCompetitorID` returns `(0, nil)`, the
`UserID` of the entry and not its `ID`.  Whatever the table returns, the id returned is
0. -/
theorem getValidCompetitorID_returns_user_id :
    (getValidCompetitorID (recordingClient (fun _ _ => (some [⟨3, "", 0⟩], none)))
      "Some New Competitor" []).1 = (0, none) ∧
    (getValidCompetitorID
      (recordingClient (fun _ _ => (some [⟨5, "acme", 1800⟩, ⟨3, "acme", 0⟩], none)))
      "acme" []).1 = (0, none) ∧
    (getValidCompetitorID (recordingClient (fun _ _ => (some [], none))) "acme" []).1
      = (0, none) ∧
    (getValidCompetitorID (recordingClient (fun _ _ => (some [⟨5, "acme", 1800⟩], none)))
      "acme" []).1 = (0, some (Adaptor.NewError "internal data storage error")) ∧
    (∀ (τ : Type) (a : Client τ (List competitor)) (otherProvider : String) (s : τ),
      (getValidCompetitorID a otherProvider s).1.1 = 0) := by
  refine ⟨by decide, by decide, by decide, by decide, fun τ a otherProvider s => ?_⟩
  unfold getValidCompetitorID
  dsimp only
  split
  · rfl
  · split
    · rfl
    · split
      · rename_i c hc
        have h := List.find?_some hc
        simpa using h
      · rfl

end Apidadaptor

namespace Authzd

/-- C27 (the code differs from the claim).  With the single scope `mail.send` to remove,
`SetUserTemplate` sends a body that names the template only: `remove_permissions` is
added only for two scopes or more. -/
theorem SetUserTemplate_drops_single_scope :
    SetUserTemplate (recordingHttp 200) ⟨"authzd", 8080, 8081⟩ 180 "provision_page"
        ["mail.send"] []
      = (.ret (none, ["mail.send"]),
          [⟨"PUT", "http://authzd:8080/v1/permissions/users/180/scopeset",
            "\x7b\x22new_template\x22:\x22provision_page\x22\x7d",
            [("Content-Type", "application/json")]⟩]) ∧
    (setUserTemplateData "provision_page" ["mail.send"]).1
      = (setUserTemplateData "provision_page" []).1 ∧
    (setUserTemplateData "provision_page" ["mail.send", "mail.batch"]).1
      = "\x7b\x22new_template\x22:\x22provision_page\x22,\x22remove_permissions\x22:"
        ++ "[\x22mail.send\x22,\x22mail.batch\x22]\x7d" ∧
    (∀ template remove, (setUserTemplateData template [remove]).1
      = "\x7b\x22new_template\x22:\x22" ++ template ++ "\x22\x7d") := by
  refine ⟨by decide, by decide, by decide, fun template remove => ?_⟩
  simp [setUserTemplateData]

end Authzd

namespace Mcredis

/-- C29 (the code differs from the claim).  `NewSentinel` succeeds against a sentinel that
knows `mymaster`; `GetInfo` on the client it returns asks that sentinel for the master
named by `masterHost`, gets a nil reply with a nil error, and panics in
`constructMasterAddress`.  So does `GetInfo` for a nil reply, an empty list and a reply that
is not a list from any sentinel. -/
theorem GetInfo_panics_on_nil_reply :
    (NewSentinel (fakeEnv namingDialer (okConnection 0)) (confWith "mymaster" ["good:2"])
        st0).1 = .ret (some { readyClient 0 with dialer := namingDialer }, none) ∧
    (GetInfo { readyClient 0 with dialer := namingDialer } st0).1
      = .panic "interface conversion: interface is not a slice" ∧
    (GetInfo (sentinelWith (replyDialer Value.nil) "mymaster" ["s1:26379"]) st0).1
      = .panic "interface conversion: interface is not a slice" ∧
    (GetInfo (sentinelWith (replyDialer (Value.array [])) "mymaster" ["s1:26379"]) st0).1
      = .panic "runtime error: index out of range" ∧
    (GetInfo (sentinelWith (replyDialer (Value.str "OK")) "mymaster" ["s1:26379"]) st0).1
      = .panic "interface conversion: interface is not a slice" :=
  ⟨rfl, rfl, rfl, rfl, rfl⟩

end Mcredis

namespace Ln

/-! ## Maps -/

theorem lookup_append_entries (m n : Map) (k : String) :
    (m ++ n).lookup k = (m.lookup k).orElse (fun _ => n.lookup k) := by
  induction m with
  | nil => simp [List.lookup]
  | cons e m ih =>
    obtain ⟨a, b⟩ := e
    by_cases h : k = a
    · subst h; simp [List.lookup]
    · have h1 : (k == a) = false := by simpa using h
      simp [List.lookup, h1, ih]

theorem lookup_cons_eq (a k1 : String) (b : Val) (m : Map) :
    List.lookup k1 ((a, b) :: m) = if k1 = a then some b else List.lookup k1 m := by
  by_cases h : k1 = a
  · subst h; simp [List.lookup]
  · have h1 : (k1 == a) = false := by simpa using h
    simp [List.lookup, h1, h]

theorem lookup_none_of_not_any (m : Map) (k : String)
    (h : m.any (fun e => e.1 == k) = false) : m.lookup k = none := by
  induction m with
  | nil => rfl
  | cons e m ih =>
    obtain ⟨a, b⟩ := e
    simp only [List.any_cons, Bool.or_eq_false_iff] at h
    have h1 : ¬ k = a := by
      have := h.1
      simp only [beq_eq_false_iff_ne, ne_eq] at this
      exact fun e => this e.symm
    rw [lookup_cons_eq, if_neg h1, ih h.2]

theorem lookup_map_assign (m : Map) (k k1 : String) (v : Val) :
    (m.map (fun e => if e.1 == k then (k, v) else e)).lookup k1
      = if k1 = k then (if m.any (fun e => e.1 == k) then some v else none)
        else m.lookup k1 := by
  induction m with
  | nil => simp [List.lookup]
  | cons e m ih =>
    obtain ⟨a, b⟩ := e
    by_cases hak : a = k
    · have hhead : (if ((a, b).1 == k) = true then (k, v) else (a, b)) = (k, v) := by
        simp [hak]
      rw [List.map_cons, hhead, lookup_cons_eq, ih, lookup_cons_eq]
      by_cases h1 : k1 = k
      · simp [h1, hak]
      · have h2 : ¬ k1 = a := by rw [hak]; exact h1
        simp [h1, h2]
    · have hak1 : ((a, b).1 == k) = false := by simpa using hak
      have hhead : (if ((a, b).1 == k) = true then (k, v) else (a, b)) = (a, b) := by
        rw [hak1]; rfl
      rw [List.map_cons, hhead, lookup_cons_eq, ih, lookup_cons_eq]
      have hak2 : (a == k) = false := by simpa using hak
      by_cases h1 : k1 = a
      · have h2 : ¬ k1 = k := by rw [h1]; exact hak
        rw [if_pos h1, if_neg h2, if_pos h1]
      · by_cases h2 : k1 = k
        · rw [if_neg h1, if_pos h2, if_pos h2, List.any_cons]
          show _ = if ((a == k) || m.any fun e => e.1 == k) = true then some v else none
          rw [hak2, Bool.false_or]
        · rw [if_neg h1, if_neg h2, if_neg h2, if_neg h1]

/-- Reading a map after an assignment. -/
theorem index_assign (m : Map) (k k1 : String) (v : Val) :
    Map.index (Map.assign m k v) k1 = if k1 = k then some v else Map.index m k1 := by
  unfold Map.assign Map.index
  by_cases hany : m.any (fun e => e.1 == k) = true
  · rw [if_pos hany, lookup_map_assign]
    by_cases h1 : k1 = k
    · simp [h1, hany]
    · simp [h1]
  · have hany1 : m.any (fun e => e.1 == k) = false := by
      simpa only [Bool.not_eq_true] using hany
    rw [if_neg hany, lookup_append_entries]
    by_cases h1 : k1 = k
    · subst h1
      simp [lookup_none_of_not_any m k1 hany1, List.lookup]
    · have h2 : (k1 == k) = false := by simpa using h1
      cases hm : m.lookup k1 <;> simp [List.lookup, h2, h1]

/-- The keys of a map after an assignment. -/
theorem keys_assign (m : Map) (k : String) (v : Val) :
    Map.keys (Map.assign m k v)
      = if m.any (fun e => e.1 == k) then Map.keys m else Map.keys m ++ [k] := by
  unfold Map.assign Map.keys
  by_cases hany : m.any (fun e => e.1 == k) = true
  · rw [if_pos hany, if_pos hany]
    rw [List.map_map]
    apply List.map_congr_left
    intro e _
    by_cases h : e.1 = k
    · simp [h]
    · have h1 : (e.1 == k) = false := by simpa using h
      simp [h]
  · rw [if_neg hany, if_neg hany]
    simp only [List.map_append, List.map_cons, List.map_nil]

theorem mem_keys_iff_any (m : Map) (k : String) :
    k ∈ Map.keys m ↔ m.any (fun e => e.1 == k) = true := by
  unfold Map.keys
  simp only [List.mem_map, List.any_eq_true, beq_iff_eq]

theorem keys_assign_nodup (m : Map) (k : String) (v : Val) (h : (Map.keys m).Nodup) :
    (Map.keys (Map.assign m k v)).Nodup := by
  rw [keys_assign]
  by_cases hany : m.any (fun e => e.1 == k) = true
  · rw [if_pos hany]; exact h
  · rw [if_neg hany]
    rw [List.nodup_append]
    refine ⟨h, List.nodup_singleton k, ?_⟩
    intro a ha hb
    simp only [List.mem_singleton] at hb
    subst hb
    exact hany ((mem_keys_iff_any m a).mp ha)

theorem mem_keys_iff_index (m : Map) (k : String) :
    k ∈ Map.keys m ↔ (Map.index m k).isSome = true := by
  unfold Map.keys Map.index
  induction m with
  | nil => simp [List.lookup]
  | cons e m ih =>
    obtain ⟨a, b⟩ := e
    by_cases h : k = a
    · subst h; simp [List.lookup]
    · have h1 : (k == a) = false := by simpa using h
      simp [List.lookup, h1, h, ih]

/-- Assigning every entry of a map whose keys are distinct: the entries of that map win
over what the target held. -/
theorem index_foldl_assign (es : Map) (hes : (Map.keys es).Nodup) (acc : Map) (k : String) :
    (es.foldl (fun (acc : Map) e => Map.assign acc e.1 e.2) acc).index k
      = (Map.index es k).orElse (fun _ => Map.index acc k) := by
  induction es generalizing acc with
  | nil => simp [Map.index, List.lookup]
  | cons e es ih =>
    obtain ⟨a, b⟩ := e
    have hnd : (Map.keys es).Nodup := (List.nodup_cons.mp hes).2
    have hna : a ∉ Map.keys es := (List.nodup_cons.mp hes).1
    rw [List.foldl_cons, ih hnd, index_assign]
    by_cases h : k = a
    · subst h
      have hnone : Map.index es k = none := by
        cases hx : Map.index es k with
        | none => rfl
        | some x =>
          exact absurd ((mem_keys_iff_index es k).mpr (by rw [hx]; rfl)) hna
      rw [hnone]
      simp [Map.index, List.lookup]
    · have h1 : (k == a) = false := by simpa using h
      simp [Map.index, List.lookup, h1, h]

theorem keys_foldl_assign_nodup (es : Map) (acc : Map) (h : (Map.keys acc).Nodup) :
    (es.foldl (fun (acc : Map) e => Map.assign acc e.1 e.2) acc).keys.Nodup := by
  induction es generalizing acc with
  | nil => exact h
  | cons e es ih => exact ih _ (keys_assign_nodup acc e.1 e.2 h)

/-- The loop of `Merge` over the argument maps: a key is read from the last argument that
holds it, else from what the target held. -/
theorem index_merge_loop (h : Heap) (hh : ∀ m ∈ h, (Map.keys m).Nodup) (maps : List Ref) (acc : Map)
    (k : String) :
    (maps.foldl
      (fun (acc : Map) currMap =>
        (h.deref currMap).foldl (fun (acc : Map) e => Map.assign acc e.1 e.2) acc)
      acc).index k
      = (maps.reverse.findSome? (fun r => Map.index (h.deref r) k)).orElse
          (fun _ => Map.index acc k) := by
  have hderef : ∀ r, (Map.keys (h.deref r)).Nodup := by
    intro r
    cases r with
    | none => exact List.nodup_nil
    | some a =>
      show (Map.keys (h.getD a [])).Nodup
      by_cases ha : a < h.length
      · have : h.getD a [] = h[a] := by simp [List.getD_eq_getElem?_getD, ha]
        rw [this]
        exact hh _ (List.getElem_mem ha)
      · have : h.getD a [] = [] := by
          simp [List.getD_eq_getElem?_getD, List.getElem?_eq_none (not_lt.mp ha)]
        rw [this]
        exact List.nodup_nil
  induction maps generalizing acc with
  | nil => simp
  | cons r maps ih =>
    rw [List.foldl_cons, ih, index_foldl_assign _ (hderef r)]
    rw [List.reverse_cons, List.findSome?_append]
    cases h1 : maps.reverse.findSome? (fun r => Map.index (h.deref r) k) with
    | some x => simp
    | none =>
      cases h2 : Map.index (h.deref r) k <;> simp [h2]

theorem keys_merge_loop_nodup (h : Heap) (maps : List Ref) (acc : Map) (hacc : (Map.keys acc).Nodup) :
    (maps.foldl
      (fun (acc : Map) currMap =>
        (h.deref currMap).foldl (fun (acc : Map) e => Map.assign acc e.1 e.2) acc)
      acc).keys.Nodup := by
  induction maps generalizing acc with
  | nil => exact hacc
  | cons r maps ih => exact ih _ (keys_foldl_assign_nodup _ acc hacc)

end Ln

namespace Ln

/-! ## The JSON logger -/

theorem getD_set_self (h : Heap) (a : Nat) (m : Map) (ha : a < h.length) :
    (h.set a m).getD a [] = m := by
  simp [List.getD_eq_getElem?_getD, List.getElem?_set_self, ha]

theorem getD_append_new (h : Heap) (m : Map) : (h ++ [m]).getD h.length [] = m := by
  simp [List.getD_eq_getElem?_getD]

/-- The map `output` encodes: the map of the caller, or a new one for a nil map, with
`message` assigned when the message is not empty. -/
theorem output_map {τ : Type} (marshal : Map → Except String String) (j : jsonLogger τ)
    (level : Int) (out : String → τ → Option String × τ) (msg : String) (v : Ref)
    (heap : Heap) (st : τ) (hv : ∀ a, v = some a → a < heap.length)
    (hlevel : level ≤ j.level) :
    ∃ heap1 : Heap,
      j.output marshal level out ⟨msg, v⟩ (heap, st)
        = (match marshal (if msg ≠ "" then Map.assign (heap.deref v) "message" (Val.str msg)
              else heap.deref v) with
          | .error err => (some ("could not marshal json: " ++ err), (heap1, st))
          | .ok b =>
            match (out b st).1, j.callback with
            | some err, some callback => (some err, (heap1, callback err (out b st).2))
            | some err, none => (some err, (heap1, (out b st).2))
            | none, _ => (none, (heap1, (out b st).2))) := by
  have hnot : ¬ j.level < level := not_lt.mpr hlevel
  unfold jsonLogger.output
  rw [if_neg hnot]
  cases v with
  | none =>
    by_cases hmsg : msg = ""
    · refine ⟨heap ++ [[]], ?_⟩
      simp only [hmsg, ne_eq, not_true_eq_false, if_false, getD_append_new, Heap.deref]
      cases marshal [] with
      | error err => rfl
      | ok b =>
        cases h1 : (out b st).1 with
        | none => simp only [h1]
        | some err => cases hc : j.callback <;> simp only [h1, hc]
    · refine ⟨(heap ++ [[]]).set heap.length
        (Map.assign ((heap ++ [[]]).getD heap.length []) "message" (Val.str msg)), ?_⟩
      have hlen : heap.length < (heap ++ [[]]).length := by simp
      simp only [ne_eq, hmsg, not_false_eq_true, if_true, getD_set_self _ _ _ hlen,
        getD_append_new, Heap.deref]
      cases marshal (Map.assign [] "message" (Val.str msg)) with
      | error err => rfl
      | ok b =>
        cases h1 : (out b st).1 with
        | none => simp only [h1]
        | some err => cases hc : j.callback <;> simp only [h1, hc]
  | some a =>
    have ha : a < heap.length := hv a rfl
    by_cases hmsg : msg = ""
    · refine ⟨heap, ?_⟩
      simp only [hmsg, ne_eq, not_true_eq_false, if_false, Heap.deref]
      cases marshal (heap.getD a []) with
      | error err => rfl
      | ok b =>
        cases h1 : (out b st).1 with
        | none => simp only [h1]
        | some err => cases hc : j.callback <;> simp only [h1, hc]
    · refine ⟨heap.set a (Map.assign (heap.getD a []) "message" (Val.str msg)), ?_⟩
      simp only [ne_eq, hmsg, not_false_eq_true, if_true, getD_set_self _ _ _ ha,
        Heap.deref]
      cases marshal (Map.assign (heap.getD a []) "message" (Val.str msg)) with
      | error err => rfl
      | ok b =>
        cases h1 : (out b st).1 with
        | none => simp only [h1]
        | some err => cases hc : j.callback <;> simp only [h1, hc]

/-- What `output` does, by the level of the logger and the result of the encoding. -/
theorem output_spec {τ : Type} (marshal : Map → Except String String) (j : jsonLogger τ)
    (level : Int) (out : String → τ → Option String × τ) (msg : String) (v : Ref)
    (heap : Heap) (st : τ) (hv : ∀ a, v = some a → a < heap.length) :
    (j.level < level → j.output marshal level out ⟨msg, v⟩ (heap, st) = (none, (heap, st))) ∧
    (level ≤ j.level →
      (∀ b, marshal (if msg ≠ "" then Map.assign (heap.deref v) "message" (Val.str msg)
          else heap.deref v) = .ok b →
        (j.output marshal level out ⟨msg, v⟩ (heap, st)).1 = (out b st).1 ∧
        (j.output marshal level out ⟨msg, v⟩ (heap, st)).2.2
          = (match (out b st).1, j.callback with
            | some err, some callback => callback err (out b st).2
            | _, _ => (out b st).2)) ∧
      (∀ err, marshal (if msg ≠ "" then Map.assign (heap.deref v) "message" (Val.str msg)
          else heap.deref v) = .error err →
        (j.output marshal level out ⟨msg, v⟩ (heap, st)).1
          = some ("could not marshal json: " ++ err) ∧
        (j.output marshal level out ⟨msg, v⟩ (heap, st)).2.2 = st)) := by
  refine ⟨fun hlt => ?_, fun hle => ⟨fun b hb => ?_, fun err herr => ?_⟩⟩
  · unfold jsonLogger.output
    rw [if_pos hlt]
  · obtain ⟨heap1, h⟩ := output_map marshal j level out msg v heap st hv hle
    rw [h, hb]
    dsimp only
    generalize out b st = r
    obtain ⟨e, s1⟩ := r
    cases e with
    | none => exact ⟨rfl, rfl⟩
    | some e => cases j.callback <;> exact ⟨rfl, rfl⟩
  · obtain ⟨heap1, h⟩ := output_map marshal j level out msg v heap st hv hle
    rw [h, herr]
    exact ⟨rfl, rfl⟩

end Ln

namespace Ln

/-! ## The claims on package ln -/

/-- C22.  For argument maps that were allocated before the call and whose keys are
distinct, `Merge` returns a reference to a map it has allocated, different from every
argument; no map that existed before the call is changed; the keys of the new map are
those of the arguments taken together; and the new map gives each key the value it has in
the last argument that holds it. -/
theorem Merge_is_union_last_wins (maps : List Ref) (h : Heap)
    (hmaps : ∀ a, some a ∈ maps → a < h.length)
    (hh : ∀ m ∈ h, (Map.keys m).Nodup) :
    (Merge maps h).1 = some h.length ∧
    (∀ r ∈ maps, r ≠ (Merge maps h).1) ∧
    (∀ a, a < h.length → (Merge maps h).2[a]? = h[a]?) ∧
    (Map.keys ((Merge maps h).2.deref (Merge maps h).1)).Nodup ∧
    (∀ k, k ∈ Map.keys ((Merge maps h).2.deref (Merge maps h).1)
      ↔ ∃ r ∈ maps, k ∈ Map.keys (h.deref r)) ∧
    (∀ k, Map.index ((Merge maps h).2.deref (Merge maps h).1) k
      = maps.reverse.findSome? (fun r => Map.index (h.deref r) k)) := by
  have hnew : (Merge maps h).2.deref (Merge maps h).1
      = maps.foldl
          (fun (acc : Map) currMap =>
            (h.deref currMap).foldl (fun (acc : Map) e => Map.assign acc e.1 e.2) acc)
          [] := by
    show (h ++ [_]).getD h.length [] = _
    exact getD_append_new h _
  have hindex : ∀ k, Map.index ((Merge maps h).2.deref (Merge maps h).1) k
      = maps.reverse.findSome? (fun r => Map.index (h.deref r) k) := by
    intro k
    rw [hnew, index_merge_loop h hh maps [] k]
    cases maps.reverse.findSome? (fun r => Map.index (h.deref r) k) <;> rfl
  refine ⟨rfl, ?_, ?_, ?_, ?_, hindex⟩
  · intro r hr heq
    have h1 : r = some h.length := heq
    subst h1
    exact absurd (hmaps h.length hr) (lt_irrefl _)
  · intro a ha
    show (h ++ [_])[a]? = h[a]?
    exact List.getElem?_append_left ha
  · rw [hnew]
    exact keys_merge_loop_nodup h maps [] List.nodup_nil
  · intro k
    rw [mem_keys_iff_index, hindex]
    constructor
    · intro hs
      cases hf : maps.reverse.findSome? (fun r => Map.index (h.deref r) k) with
      | none => rw [hf] at hs; exact absurd hs (by simp)
      | some x =>
        obtain ⟨r, hr, hx⟩ := List.exists_of_findSome?_eq_some hf
        refine ⟨r, List.mem_reverse.mp hr, ?_⟩
        rw [mem_keys_iff_index, hx]
        rfl
    · rintro ⟨r, hr, hk⟩
      rw [mem_keys_iff_index] at hk
      cases hf : maps.reverse.findSome? (fun r => Map.index (h.deref r) k) with
      | some x => rfl
      | none =>
        rw [List.findSome?_eq_none_iff] at hf
        have := hf r (List.mem_reverse.mpr hr)
        rw [this] at hk
        exact absurd hk (by simp)

/-- C22, at a concrete input: the maps `a:1, b:2` and `b:3, c:4` with a nil map between
them merge into `a:1, b:3, c:4`, a third map, and the two are as before. -/
theorem Merge_is_union_last_wins_witness :
    (Merge [some 0, none, some 1]
        [[("a", Val.int 1), ("b", Val.int 2)], [("b", Val.int 3), ("c", Val.int 4)]]).1
      = some 2 ∧
    (∀ k, Map.index
        ((Merge [some 0, none, some 1]
          [[("a", Val.int 1), ("b", Val.int 2)], [("b", Val.int 3), ("c", Val.int 4)]]).2.deref
          (Merge [some 0, none, some 1]
            [[("a", Val.int 1), ("b", Val.int 2)], [("b", Val.int 3), ("c", Val.int 4)]]).1) k
      = [some 0, none, some 1].reverse.findSome? (fun r => Map.index
          (Heap.deref [[("a", Val.int 1), ("b", Val.int 2)], [("b", Val.int 3), ("c", Val.int 4)]]
            r) k)) ∧
    Merge [some 0, none, some 1]
        [[("a", Val.int 1), ("b", Val.int 2)], [("b", Val.int 3), ("c", Val.int 4)]]
      = (some 2, [[("a", Val.int 1), ("b", Val.int 2)], [("b", Val.int 3), ("c", Val.int 4)],
          [("a", Val.int 1), ("b", Val.int 3), ("c", Val.int 4)]]) :=
  have h := Merge_is_union_last_wins [some 0, none, some 1]
    [[("a", Val.int 1), ("b", Val.int 2)], [("b", Val.int 3), ("c", Val.int 4)]]
    (fun a ha => by
      simp only [List.mem_cons, Option.some.injEq, List.mem_singleton, List.not_mem_nil,
        or_false, reduceCtorEq, false_or] at ha
      rcases ha with rfl | rfl <;> decide)
    (by decide)
  ⟨h.1, h.2.2.2.2.2, by decide⟩

/-- C23 (the claim as stated fails).  A logger at level `DEBUG` is asked to log at `INFO`.
With an empty message the record passed to the syslogger is the encoding of the values as
they are, without a `message` key; and with a value that `json.Marshal` refuses no record
is passed at all, although the severity is within the level. -/
theorem jsonLogger_record_without_message :
    jsonLogger.Info testMarshal (newJSONLogger (recordingSyslogger false) LOG_DEBUG 32) ""
        (some 0) ([[("k1", Val.str "v1")]], [])
      = (none, ([[("k1", Val.str "v1")]],
          [("Info", "\x7b\x22k1\x22:\x22v1\x22\x7d")])) ∧
    testMarshal (Map.assign [("k1", Val.str "v1")] "message" (Val.str ""))
      = .ok "\x7b\x22k1\x22:\x22v1\x22,\x22message\x22:\x22\x22\x7d" ∧
    LOG_INFO ≤ LOG_DEBUG ∧
    jsonLogger.Info testMarshal (newJSONLogger (recordingSyslogger false) LOG_DEBUG 32)
        "hello" (some 0) ([[("c", Val.unsupported "chan int")]], [])
      = (some "could not marshal json: json: unsupported type: chan int",
          ([[("c", Val.unsupported "chan int"), ("message", Val.str "hello")]], [])) :=
  ⟨by decide, rfl, by decide, by decide⟩

/-- C23 (amended).  For each of the eight level methods, with severity `S`, on a logger of
level `L` and a values map that is nil or allocated: when `L < S` nothing is passed to the
syslogger and nil is returned; when `S ≤ L` and `json.Marshal` encodes the map, the
syslogger method of that severity is called once, with that encoding, and its error is
returned (after the error handler, if one is set); when `S ≤ L` and `json.Marshal` fails,
nothing is passed and the error is returned.  The map encoded is the values map with
`message` set to the message when the message is not empty, and the values map as it is
when the message is empty. -/
theorem jsonLogger_passes_record_within_level {τ : Type}
    (marshal : Map → Except String String) (j : jsonLogger τ) (msg : String) (v : Ref)
    (heap : Heap) (st : τ)
    (p : (jsonLogger τ → String → Ref → Heap × τ → Option String × (Heap × τ)) × Int ×
      (Syslogger τ → String → τ → Option String × τ))
    (hp : p ∈ levelMethods marshal)
    (hv : ∀ a, v = some a → a < heap.length) :
    (j.level < p.2.1 → p.1 j msg v (heap, st) = (none, (heap, st))) ∧
    (p.2.1 ≤ j.level →
      (∀ b, marshal (if msg ≠ "" then Map.assign (heap.deref v) "message" (Val.str msg)
          else heap.deref v) = .ok b →
        (p.1 j msg v (heap, st)).1 = (p.2.2 j.s b st).1 ∧
        (p.1 j msg v (heap, st)).2.2
          = (match (p.2.2 j.s b st).1, j.callback with
            | some err, some callback => callback err (p.2.2 j.s b st).2
            | _, _ => (p.2.2 j.s b st).2)) ∧
      (∀ err, marshal (if msg ≠ "" then Map.assign (heap.deref v) "message" (Val.str msg)
          else heap.deref v) = .error err →
        (p.1 j msg v (heap, st)).1 = some ("could not marshal json: " ++ err) ∧
        (p.1 j msg v (heap, st)).2.2 = st)) := by
  simp only [levelMethods, List.mem_cons, List.mem_singleton, List.not_mem_nil,
    or_false] at hp
  rcases hp with rfl | rfl | rfl | rfl | rfl | rfl | rfl | rfl
  · exact output_spec marshal j LOG_EMERG j.s.Emerg msg v heap st hv
  · exact output_spec marshal j LOG_ALERT j.s.Alert msg v heap st hv
  · exact output_spec marshal j LOG_CRIT j.s.Crit msg v heap st hv
  · exact output_spec marshal j LOG_ERR j.s.Err msg v heap st hv
  · exact output_spec marshal j LOG_NOTICE j.s.Notice msg v heap st hv
  · exact output_spec marshal j LOG_WARNING j.s.Warning msg v heap st hv
  · exact output_spec marshal j LOG_INFO j.s.Info msg v heap st hv
  · exact output_spec marshal j LOG_DEBUG j.s.Debug msg v heap st hv

/-- C23 (amended), at the inputs of `TestLevelLogging` and `TestLevelLoggingLessCritical`:
`logging info` at level `INFO` passes the encoding of the empty map with the message, and
at level `NOTICE` it passes nothing. -/
theorem jsonLogger_passes_record_within_level_witness :
    ((jsonLogger.Info testMarshal (newJSONLogger (recordingSyslogger false) LOG_INFO 32)
        "logging info" (some 0) ([[]], [])).1 = none ∧
      (jsonLogger.Info testMarshal (newJSONLogger (recordingSyslogger false) LOG_INFO 32)
        "logging info" (some 0) ([[]], [])).2.2
        = [("Info", "\x7b\x22message\x22:\x22logging info\x22\x7d")]) ∧
    jsonLogger.Info testMarshal (newJSONLogger (recordingSyslogger false) LOG_NOTICE 32)
        "logging info" (some 0) ([[]], []) = (none, ([[]], [])) :=
  ⟨((jsonLogger_passes_record_within_level testMarshal
      (newJSONLogger (recordingSyslogger false) LOG_INFO 32) "logging info" (some 0) [[]] []
      (jsonLogger.Info testMarshal, LOG_INFO, Syslogger.Info)
      (by simp [levelMethods]) (by decide)).2 (by decide)).1
      "\x7b\x22message\x22:\x22logging info\x22\x7d" rfl,
    (jsonLogger_passes_record_within_level testMarshal
      (newJSONLogger (recordingSyslogger false) LOG_NOTICE 32) "logging info" (some 0) [[]] []
      (jsonLogger.Info testMarshal, LOG_INFO, Syslogger.Info)
      (by simp [levelMethods]) (by decide)).1 (by decide)⟩

/-- C24 (the code differs from the claim).  `New` with the empty string for the level and
the facility, as in `doc.go` and in `ExampleNewDefault` and `ExampleNewStderr`, panics:
`stringToLevel` has no case for the empty string. -/
theorem New_panics_on_empty_level :
    (∀ (baseLogger : jsonLogger (List String)) (s : List String),
      (New recordingEnv baseLogger "syslog" "" "" "test app new" s).1
        = .panic "Initializing in ln logger: unrecognized syslog level ") ∧
    (∀ (baseLogger : jsonLogger (List String)) (s : List String),
      (New recordingEnv baseLogger "stderr" "" "" "test app new" s).1
        = .panic "Initializing in ln logger: unrecognized syslog level ") ∧
    stringToLevel recordingEnv.str "" = (-1, some "unrecognized syslog level ") ∧
    stringToLevel recordingEnv.str "debug" = (LOG_DEBUG, none) :=
  ⟨fun _ _ => rfl, fun _ _ => rfl, by decide, by decide⟩

end Ln

namespace Envy

/-! ## Loading plain fields -/

/-- A plain field is loaded without a panic, and without an error exactly when its key is
in the source and its value parses. -/
theorem loadField_plain (std : Std) (sep : String) (reader : EnvironmentReader)
    (f : StructField) (hf : Plain f) :
    ∃ errs v, loadField std sep reader f = .ret (errs, v) ∧
      (errs = [] ↔ Loads std reader f) := by
  obtain ⟨hset, hkind⟩ := hf
  unfold loadField Loads
  simp only [hset, Bool.not_true, Bool.false_eq_true, if_false]
  cases hl : reader.Read.lookup (keyOf std f) with
  | none =>
    refine ⟨_, _, rfl, ?_⟩
    simp
  | some value =>
    rcases hkind with hk | ⟨bits, hk⟩ | hk
    · refine ⟨[], some (Value.str value), by simp only [hk], ?_⟩
      simp [hk]
    · simp only [hk]
      cases ha : (std.Atoi value).2 with
      | none =>
        refine ⟨_, _, rfl, ?_⟩
        simp [ha]
      | some e =>
        refine ⟨_, _, rfl, ?_⟩
        simp [ha]
    · simp only [hk]
      cases hb : (std.ParseBool value).2 with
      | none =>
        refine ⟨_, _, rfl, ?_⟩
        simp [hb]
      | some e =>
        refine ⟨_, _, rfl, ?_⟩
        simp [hb]

/-- The loop over plain fields ends without a panic, and without an error exactly when
every field loads. -/
theorem loadFields_plain (std : Std) (sep : String) (reader : EnvironmentReader)
    (fields : List StructField) (hf : ∀ f ∈ fields, Plain f) :
    ∃ errs vs, loadFields std sep reader fields = .ret (errs, vs) ∧
      (errs = [] ↔ ∀ f ∈ fields, Loads std reader f) := by
  induction fields with
  | nil => exact ⟨[], [], rfl, by simp⟩
  | cons f rest ih =>
    obtain ⟨errs, v, h1, h2⟩ := loadField_plain std sep reader f (hf f (List.mem_cons_self _ _))
    obtain ⟨errs1, vs, h3, h4⟩ := ih (fun g hg => hf g (List.mem_cons_of_mem _ hg))
    refine ⟨errs ++ errs1, v :: vs, ?_, ?_⟩
    · simp only [loadFields, h1, h3]
    · simp only [List.append_eq_nil, h2, h4, List.mem_cons, forall_eq_or_imp]

/-- A key that the source has is among the keys of its entries. -/
theorem mem_keys_of_lookup (source : List (String × String)) (k v : String)
    (h : source.lookup k = some v) : k ∈ source.map Prod.fst := by
  induction source with
  | nil => simp [List.lookup] at h
  | cons e rest ih =>
    obtain ⟨a, b⟩ := e
    by_cases hk : k = a
    · subst hk; simp
    · have h1 : (k == a) = false := by simpa using hk
      simp only [List.lookup, h1] at h
      exact List.mem_cons_of_mem _ (ih h)

/-- Fields with distinct keys that all load are no more than the entries of the source. -/
theorem length_le_of_distinct_keys (std : Std) (reader : EnvironmentReader)
    (fields : List StructField) (hd : (fields.map (keyOf std)).Nodup)
    (hl : ∀ f ∈ fields, Loads std reader f) : fields.length ≤ reader.Read.length := by
  have hsub : fields.map (keyOf std) ⊆ reader.Read.map Prod.fst := by
    intro k hk
    obtain ⟨f, hf, rfl⟩ := List.mem_map.mp hk
    obtain ⟨value, hv, _⟩ := hl f hf
    exact mem_keys_of_lookup _ _ _ hv
  have := (hd.subperm hsub).length_le
  simpa using this

end Envy

namespace Envy

/-! ## The claim on package go-envy -/

/-- C25 (the claim as stated fails).  A struct with the fields `Host` and `Alias`, the
second tagged `name:"HOST"`, and a source that holds `HOST`: the key of every field is in
the source, and `LoadFromEnv` returns `ErrConfigInvalid`, because the source has fewer
entries than the struct has fields. -/
theorem LoadFromEnv_counts_fields :
    LoadFromEnv testStd "," ⟨[("HOST", "localhost")], ""⟩
        (.ptr (.struct [⟨"Host", "", "", Kind.string, true⟩,
          ⟨"Alias", "HOST", "", Kind.string, true⟩]))
      = .ret (some Error.ErrConfigInvalid,
          [some (Value.str "localhost"), some (Value.str "localhost")],
          [Issue.count 1 2]) ∧
    keyOf testStd ⟨"Host", "", "", Kind.string, true⟩ = "HOST" ∧
    keyOf testStd ⟨"Alias", "HOST", "", Kind.string, true⟩ = "HOST" ∧
    List.lookup "HOST" [("HOST", "localhost")] = some "localhost" := by
  decide

/-- C25 (amended).  For a pointer to a struct whose fields can all be set and are strings,
integers and booleans, `LoadFromEnv` returns without a panic, with nil or with
`ErrConfigInvalid`; it returns nil exactly when the source has at least as many entries as
the struct has fields, the key of every field is in the source and every integer and
boolean value parses.  When the keys of the fields are distinct the condition on the number
of entries follows from the others.  For a `configSpec` that is not a pointer, a nil pointer
or a pointer to something that is not a struct, it returns `ErrInvalidConfigType`. -/
theorem LoadFromEnv_nil_iff (std : Std) (sep : String) (reader : EnvironmentReader)
    (fields : List StructField) (hf : ∀ f ∈ fields, Plain f) :
    (∃ err vs issues,
      LoadFromEnv std sep reader (.ptr (.struct fields)) = .ret (err, vs, issues) ∧
      (err = none ∨ err = some Error.ErrConfigInvalid) ∧
      (err = none ↔
        (fields.length ≤ reader.Read.length ∧ ∀ f ∈ fields, Loads std reader f)) ∧
      ((fields.map (keyOf std)).Nodup →
        (err = none ↔ ∀ f ∈ fields, Loads std reader f))) ∧
    LoadFromEnv std sep reader .notPointer = .ret (some Error.ErrInvalidConfigType, [], []) ∧
    LoadFromEnv std sep reader (.ptr .invalid)
      = .ret (some Error.ErrInvalidConfigType, [], []) ∧
    LoadFromEnv std sep reader (.ptr .notStruct)
      = .ret (some Error.ErrInvalidConfigType, [], []) := by
  refine ⟨?_, rfl, rfl, rfl⟩
  obtain ⟨errs, vs, h1, h2⟩ := loadFields_plain std sep reader fields hf
  by_cases hcount : fields.length > reader.Read.length
  · refine ⟨some Error.ErrConfigInvalid, vs, [Issue.count reader.Read.length fields.length]
      ++ errs, ?_, Or.inr rfl, ?_, ?_⟩
    · simp [LoadFromEnv, h1, hcount]
    · constructor
      · intro h; cases h
      · intro h; omega
    · intro hd
      constructor
      · intro h; cases h
      · intro hl
        have := length_le_of_distinct_keys std reader fields hd hl
        omega
  · by_cases herrs : errs = []
    · refine ⟨none, vs, [], ?_, Or.inl rfl, ?_, ?_⟩
      · simp [LoadFromEnv, h1, hcount, herrs]
      · simp only [true_iff]
        exact ⟨not_lt.mp hcount, h2.mp herrs⟩
      · intro _
        simp only [true_iff]
        exact h2.mp herrs
    · refine ⟨some Error.ErrConfigInvalid, vs, errs, ?_, Or.inr rfl, ?_, ?_⟩
      · have hlen : errs.length > 0 := List.length_pos.mpr herrs
        simp [LoadFromEnv, h1, hcount, hlen]
      · constructor
        · intro h; cases h
        · intro h; exact absurd (h2.mpr h.2) herrs
      · intro _
        constructor
        · intro h; cases h
        · intro h; exact absurd (h2.mpr h) herrs

/-- C25 (amended), at the inputs of `TestShouldAllowTooManyConfigs`: the fields `Host` and
`Port` load from a source of three entries, and the result is nil. -/
theorem LoadFromEnv_nil_iff_witness :
    (∃ err vs issues,
      LoadFromEnv testStd "," ⟨[("HOST", "localhost"), ("PORT", "1234"), ("QUIT", "true")], ""⟩
          (.ptr (.struct [⟨"Host", "", "", Kind.string, true⟩,
            ⟨"Port", "", "", Kind.int 64, true⟩])) = .ret (err, vs, issues) ∧
      (err = none ∨ err = some Error.ErrConfigInvalid) ∧
      (err = none ↔
        ([⟨"Host", "", "", Kind.string, true⟩,
            (⟨"Port", "", "", Kind.int 64, true⟩ : StructField)].length
          ≤ [("HOST", "localhost"), ("PORT", "1234"), ("QUIT", "true")].length ∧
          ∀ f ∈ [⟨"Host", "", "", Kind.string, true⟩,
              (⟨"Port", "", "", Kind.int 64, true⟩ : StructField)],
            Loads testStd
              ⟨[("HOST", "localhost"), ("PORT", "1234"), ("QUIT", "true")], ""⟩ f)) ∧
      (([⟨"Host", "", "", Kind.string, true⟩,
          (⟨"Port", "", "", Kind.int 64, true⟩ : StructField)].map (keyOf testStd)).Nodup →
        (err = none ↔ ∀ f ∈ [⟨"Host", "", "", Kind.string, true⟩,
              (⟨"Port", "", "", Kind.int 64, true⟩ : StructField)],
            Loads testStd
              ⟨[("HOST", "localhost"), ("PORT", "1234"), ("QUIT", "true")], ""⟩ f))) ∧
    LoadFromEnv testStd "," ⟨[("HOST", "localhost"), ("PORT", "1234"), ("QUIT", "true")], ""⟩
        (.ptr (.struct [⟨"Host", "", "", Kind.string, true⟩,
          ⟨"Port", "", "", Kind.int 64, true⟩]))
      = .ret (none, [some (Value.str "localhost"), some (Value.int 1234)], []) :=
  ⟨(LoadFromEnv_nil_iff testStd ","
      ⟨[("HOST", "localhost"), ("PORT", "1234"), ("QUIT", "true")], ""⟩
      [⟨"Host", "", "", Kind.string, true⟩, ⟨"Port", "", "", Kind.int 64, true⟩]
      (fun f hf => by
        simp only [List.mem_cons, List.mem_singleton, List.not_mem_nil, or_false] at hf
        rcases hf with rfl | rfl
        · exact ⟨rfl, Or.inl rfl⟩
        · exact ⟨rfl, Or.inr (Or.inl ⟨64, rfl⟩)⟩)).1,
    by decide⟩

end Envy

namespace Apid

/-! ## Requests of the HTTP client -/

/-- After the requester has been called, the log of `makeRequestToAPId` is the log the
requester leaves. -/
theorem afterDo_log {δ : Type} (std : Std) (decode : String → Except String δ)
    (resultName : String) (r : Except String Response) (log1 : List Request) :
    (match r with
      | .error err => (((some err, none) : Option String × Option δ), log1)
      | .ok response =>
        match response.Body with
        | .error err => ((some err, none), log1)
        | .ok responseBody =>
          match std.UnmarshalEnvelope responseBody with
          | .error err => ((some err, none), log1)
          | .ok apidResponse =>
            if response.StatusCode ≠ 200 then
              ((some ((apidResponse.lookup "error").getD ""), none), log1)
            else
              match decode ((apidResponse.lookup resultName).getD "") with
              | .error err => ((some err, none), log1)
              | .ok d => ((none, some d), log1)).2 = log1 := by
  cases r with
  | error err => rfl
  | ok response =>
    dsimp only
    cases response.Body with
    | error err => rfl
    | ok body =>
      dsimp only
      cases std.UnmarshalEnvelope body with
      | error err => rfl
      | ok envelope =>
        dsimp only
        split
        · rfl
        · cases decode ((envelope.lookup resultName).getD "") <;> rfl

/-- On a recording requester `do` adds to the log the one request it sends, whatever the
answer. -/
theorem doGet_log {δ : Type} (std : Std) (apid : HTTPClient (List Request))
    (reply : Request → Except String Response) (hclient : apid.Client = recordingRequester reply)
    (urlFragment : String) (params : Values) (decode : String → Except String δ)
    (resultName : String) (log : List Request) :
    (apid.doGet std urlFragment params decode resultName log).2
      = log ++ sent std apid urlFragment params := by
  unfold HTTPClient.doGet HTTPClient.makeRequestToAPId sent
  dsimp only
  cases h : std.NewRequest "GET" (apid.BaseURL ++ urlFragment ++ "?" ++ std.Encode params) with
  | error err => simp
  | ok request =>
    dsimp only
    rw [hclient]
    cases hh : apid.RequestHandler with
    | none => exact afterDo_log std decode resultName (reply request) (log ++ [request])
    | some handler =>
      exact afterDo_log std decode resultName (reply (handler request))
        (log ++ [handler request])

theorem sent_singleton {τ : Type} (std : Std) (apid : HTTPClient τ) (urlFragment : String)
    (params : Values) (request : Request)
    (h : sent std apid urlFragment params = [request]) :
    ∃ r0, std.NewRequest "GET" (apid.BaseURL ++ urlFragment ++ "?" ++ std.Encode params)
        = .ok r0 ∧
      (match apid.RequestHandler with
        | some handler => handler r0
        | none => r0) = request := by
  unfold sent at h
  cases h0 : std.NewRequest "GET" (apid.BaseURL ++ urlFragment ++ "?" ++ std.Encode params) with
  | error err => rw [h0] at h; cases h
  | ok r0 =>
    rw [h0] at h
    refine ⟨r0, rfl, ?_⟩
    cases hh : apid.RequestHandler with
    | none => rw [hh] at h; exact List.head_eq_of_cons_eq h
    | some handler => rw [hh] at h; exact List.head_eq_of_cons_eq h

/-- When the server lists the functions, `updateFunctionCache` sends the one request for
the list and replaces the table by the list received. -/
theorem updateFunctionCache_ok (std : Std) (apid : HTTPClient (List Request))
    (reply : Request → Except String Response) (hclient : apid.Client = recordingRequester reply)
    (funcs : Option functionsList) (hlist : ListsFunctions std apid reply funcs)
    (log : List Request) :
    apid.updateFunctionCache std log
      = ((none, { apid with functions := funcs, hasFunctions := true }),
          log ++ sent std apid "/api/functions.json" []) := by
  obtain ⟨request, body, envelope, hsent, hreply, henv, hfuncs⟩ := hlist
  obtain ⟨r0, hr0, hreq⟩ := sent_singleton std apid _ _ request hsent
  rw [hsent]
  unfold HTTPClient.updateFunctionCache HTTPClient.doGet HTTPClient.makeRequestToAPId
  dsimp only
  rw [hr0]
  dsimp only
  rw [hreq, hclient]
  simp only [recordingRequester, hreply, henv, hfuncs, ne_eq, not_true_eq_false, if_false,
    Option.getD_some]

end Apid

namespace Apid

/-- Whatever the server answers, `updateFunctionCache` sends the one request for the list
(when it can be built) and leaves the address, the requester and the handler of the client
as they are. -/
theorem updateFunctionCache_log (std : Std) (apid : HTTPClient (List Request))
    (reply : Request → Except String Response) (hclient : apid.Client = recordingRequester reply)
    (log : List Request) :
    (apid.updateFunctionCache std log).2 = log ++ sent std apid "/api/functions.json" [] ∧
    (apid.updateFunctionCache std log).1.2.BaseURL = apid.BaseURL ∧
    (apid.updateFunctionCache std log).1.2.Client = apid.Client ∧
    (apid.updateFunctionCache std log).1.2.RequestHandler = apid.RequestHandler := by
  have hlog := doGet_log std apid reply hclient "/api/functions.json" []
    std.UnmarshalFunctions "functions" log
  unfold HTTPClient.updateFunctionCache
  dsimp only
  rcases hd : apid.doGet std "/api/functions.json" [] std.UnmarshalFunctions "functions" log
    with ⟨⟨err, funcs⟩, log1⟩
  rw [hd] at hlog
  cases err with
  | some e => exact ⟨hlog, rfl, rfl, rfl⟩
  | none => exact ⟨hlog, rfl, rfl, rfl⟩

/-- The request of a call depends on the address and the handler of the client only. -/
theorem sent_congr {τ : Type} (std : Std) (c apid : HTTPClient τ)
    (h1 : c.BaseURL = apid.BaseURL) (h2 : c.RequestHandler = apid.RequestHandler)
    (urlFragment : String) (params : Values) :
    sent std c urlFragment params = sent std apid urlFragment params := by
  unfold sent
  rw [h1, h2]

/-- For a function that is not in the table, `DoFunction` sends the request for the list
first, and after it at most the request of the call. -/
theorem DoFunction_unknown_log {δ : Type} (std : Std) (apid : HTTPClient (List Request))
    (reply : Request → Except String Response) (hclient : apid.Client = recordingRequester reply)
    (name : String) (params : Values) (decode : String → Except String δ)
    (log : List Request) (hnone : lookupFunction apid name = none) :
    ∃ rest, (apid.DoFunction std name params decode log).2
        = log ++ sent std apid "/api/functions.json" [] ++ rest ∧
      (rest = [] ∨ ∃ f : FunctionInfo, rest = sent std apid f.Path params) := by
  obtain ⟨hlog, hbase, hcl, hhandler⟩ := updateFunctionCache_log std apid reply hclient log
  unfold HTTPClient.DoFunction HTTPClient.getFunctionInfo
  rw [hnone]
  dsimp only
  rcases hu : apid.updateFunctionCache std log with ⟨⟨err, c⟩, log1⟩
  rw [hu] at hlog hbase hcl hhandler
  dsimp only at hlog hbase hcl hhandler
  cases err with
  | some e => exact ⟨[], by simp [hlog], Or.inl rfl⟩
  | none =>
    dsimp only
    cases hf : lookupFunction c name with
    | none => exact ⟨[], by simp [hlog], Or.inl rfl⟩
    | some f =>
      refine ⟨sent std apid f.Path params, ?_, Or.inr ⟨f, rfl⟩⟩
      dsimp only
      rw [doGet_log std c reply (by rw [hcl, hclient]) f.Path params decode f.Return log1,
        hlog, sent_congr std c apid hbase hhandler]

end Apid

namespace Apid

/-! ## The claim on package go-apid -/

/-- C26 (the claim as stated fails).  The function `nope` is not in the table and not in
the list the server returns: each of two successive `DoFunction` calls for it requests
`/api/functions.json` and returns `unknown function: nope`, two requests for the list in
total. -/
theorem DoFunction_queries_list_again :
    lookupFunction testClient "nope" = none ∧
    (testClient.DoFunction testStd "nope" [] decodeString []).1.1
      = (some "unknown function: nope", none) ∧
    (testClient.DoFunction testStd "nope" [] decodeString []).2
      = [⟨"GET", "http://apid/api/functions.json?"⟩] ∧
    ((testClient.DoFunction testStd "nope" [] decodeString []).1.2.DoFunction testStd "nope" []
        decodeString (testClient.DoFunction testStd "nope" [] decodeString []).2).1.1
      = (some "unknown function: nope", none) ∧
    ((testClient.DoFunction testStd "nope" [] decodeString []).1.2.DoFunction testStd "nope" []
        decodeString (testClient.DoFunction testStd "nope" [] decodeString []).2).2
      = [⟨"GET", "http://apid/api/functions.json?"⟩,
          ⟨"GET", "http://apid/api/functions.json?"⟩] := by
  decide

/-- C26 (amended).  On a client whose requests are recorded: for a function that is in the
table, `DoFunction` sends the request of the call and nothing else, and leaves the client
as it is.  For a function that is not in the table, when the server answers the request for
`/api/functions.json` with a list, `DoFunction` sends that one request first and replaces
the table by the list; if the list holds the function it then sends the request of the
call, and a later `DoFunction` for the same function sends the request of its call only;
if the list does not hold the function it returns `unknown function: <name>` after that
one request.  Whatever the server answers, the request for the list comes first and is
followed by at most the request of the call. -/
theorem DoFunction_refreshes_unknown_function {δ : Type} (std : Std)
    (apid : HTTPClient (List Request)) (reply : Request → Except String Response)
    (hclient : apid.Client = recordingRequester reply) (name : String) (params : Values)
    (decode : String → Except String δ) (log : List Request) :
    (∀ f, lookupFunction apid name = some f →
      (apid.DoFunction std name params decode log).1.2 = apid ∧
      (apid.DoFunction std name params decode log).2 = log ++ sent std apid f.Path params) ∧
    (lookupFunction apid name = none → ∀ funcs, ListsFunctions std apid reply funcs →
      (apid.DoFunction std name params decode log).1.2
        = { apid with functions := funcs, hasFunctions := true } ∧
      (∀ f, (funcs.getD []).lookup name = some f →
        (apid.DoFunction std name params decode log).2
          = log ++ sent std apid "/api/functions.json" [] ++ sent std apid f.Path params ∧
        ∀ log1, (HTTPClient.DoFunction std { apid with functions := funcs, hasFunctions := true }
            name params decode log1).2 = log1 ++ sent std apid f.Path params) ∧
      ((funcs.getD []).lookup name = none →
        (apid.DoFunction std name params decode log).1.1
          = (some ("unknown function: " ++ name), none) ∧
        (apid.DoFunction std name params decode log).2
          = log ++ sent std apid "/api/functions.json" [])) ∧
    (lookupFunction apid name = none →
      ∃ rest, (apid.DoFunction std name params decode log).2
          = log ++ sent std apid "/api/functions.json" [] ++ rest ∧
        (rest = [] ∨ ∃ f : FunctionInfo, rest = sent std apid f.Path params)) := by
  have hknown : ∀ (c : HTTPClient (List Request)), c.Client = recordingRequester reply →
      ∀ f l, lookupFunction c name = some f →
      (c.DoFunction std name params decode l).1.2 = c ∧
      (c.DoFunction std name params decode l).2 = l ++ sent std c f.Path params := by
    intro c hc f l hf
    unfold HTTPClient.DoFunction HTTPClient.getFunctionInfo
    rw [hf]
    exact ⟨rfl, doGet_log std c reply hc f.Path params decode f.Return l⟩
  refine ⟨fun f hf => hknown apid hclient f log hf, fun hnone funcs hlist => ?_,
    fun hnone => DoFunction_unknown_log std apid reply hclient name params decode log hnone⟩
  have hu := updateFunctionCache_ok std apid reply hclient funcs hlist log
  have hstep : apid.DoFunction std name params decode log
      = (match (funcs.getD []).lookup name with
        | some thisFunc =>
          (((HTTPClient.doGet std { apid with functions := funcs, hasFunctions := true }
              thisFunc.Path params decode thisFunc.Return
              (log ++ sent std apid "/api/functions.json" [])).1,
            { apid with functions := funcs, hasFunctions := true }),
           (HTTPClient.doGet std { apid with functions := funcs, hasFunctions := true }
              thisFunc.Path params decode thisFunc.Return
              (log ++ sent std apid "/api/functions.json" [])).2)
        | none =>
          (((some ("unknown function: " ++ name), none),
            { apid with functions := funcs, hasFunctions := true }),
           log ++ sent std apid "/api/functions.json" [])) := by
    unfold HTTPClient.DoFunction HTTPClient.getFunctionInfo
    rw [hnone]
    dsimp only
    rw [hu]
    dsimp only
    unfold lookupFunction
    dsimp only
    cases (funcs.getD []).lookup name <;> rfl
  refine ⟨?_, fun f hf => ⟨?_, fun log1 => ?_⟩, fun hf => ?_⟩
  · rw [hstep]
    cases (funcs.getD []).lookup name <;> rfl
  · rw [hstep, hf]
    exact doGet_log std { apid with functions := funcs, hasFunctions := true } reply hclient
      f.Path params decode f.Return _
  · exact (hknown { apid with functions := funcs, hasFunctions := true } hclient f log1 hf).2
  · rw [hstep, hf]
    exact ⟨rfl, rfl⟩

/-- C26 (amended), at the inputs of `Test_HTTPClient_DoFunction_QueriesFunctionsOnce`: the
first call for `addTeslaTemplate` requests the list and then the function, and the second
call requests the function only, so the list is requested once in total. -/
theorem DoFunction_refreshes_unknown_function_witness :
    (testClient.DoFunction testStd "addTeslaTemplate" [] decodeString []).2
      = [] ++ sent testStd testClient "/api/functions.json" []
        ++ sent testStd testClient "/api/tesla/transactional/add.json" [] ∧
    (∀ log1, (HTTPClient.DoFunction testStd
        { testClient with functions := some testFunctions, hasFunctions := true }
        "addTeslaTemplate" [] decodeString log1).2
      = log1 ++ sent testStd testClient "/api/tesla/transactional/add.json" []) ∧
    sent testStd testClient "/api/functions.json" []
      = [⟨"GET", "http://apid/api/functions.json?"⟩] ∧
    sent testStd testClient "/api/tesla/transactional/add.json" []
      = [⟨"GET", "http://apid/api/tesla/transactional/add.json?"⟩] :=
  have h := ((DoFunction_refreshes_unknown_function testStd testClient testServer rfl
    "addTeslaTemplate" [] decodeString []).2.1 rfl (some testFunctions)
    ⟨⟨"GET", "http://apid/api/functions.json?"⟩, "functionsListJSON",
      [("functions", "the three functions")], rfl, rfl, rfl, rfl⟩).2.1
    ⟨"result", "/api/tesla/transactional/add.json"⟩ rfl
  ⟨h.1, h.2, by decide, by decide⟩

end Apid

namespace Redisadaptor

open Mcredis

/-! ## Commands of the key store -/

theorem length_eq_zero_iff (data : String) : data.length = 0 ↔ data = "" := by
  obtain ⟨l⟩ := data
  constructor
  · intro h
    have : l = [] := List.length_eq_zero.mp h
    subst this
    rfl
  · intro h
    rw [h]
    rfl

/-- The method `Get` on recording packages: the result and the state are those of `Get`,
and a `Get` that returns a nil error has given the one command `GET key`. -/
theorem Get_recording {τ : Type} (pk : Packages τ) (adaptor : redisAdaptor) (key : String)
    (s : τ) (log : List (String × List Value)) :
    (adaptor.Get (recording pk) key (s, log)).1 = (adaptor.Get pk key s).1 ∧
    (adaptor.Get (recording pk) key (s, log)).2.1 = (adaptor.Get pk key s).2 ∧
    (∀ data, (adaptor.Get pk key s).1 = .ret (data, none) →
      (adaptor.Get (recording pk) key (s, log)).2.2 = log ++ [("GET", [Value.str key])]) := by
  unfold redisAdaptor.Get recording
  dsimp only
  rcases hn : pk.NewMcRedis adaptor.config s with ⟨o, s1⟩
  cases o with
  | panic msg => exact ⟨rfl, rfl, fun data h => by cases h⟩
  | outOfFuel => exact ⟨rfl, rfl, fun data h => by cases h⟩
  | ret res =>
    obtain ⟨r, err⟩ := res
    cases err with
    | some e => exact ⟨rfl, rfl, fun data h => by cases h⟩
    | none =>
      obtain ⟨c⟩ := r
      cases c with
      | none => exact ⟨rfl, rfl, fun data h => by cases h⟩
      | some c =>
        simp only [Outcome.map, Option.map, RedisInstance.Get, RedisInstance.Do,
          loggedCommander]
        rcases hd : c.Do "GET" [Value.str key] s1 with ⟨o2, s2⟩
        cases o2 with
        | panic msg => exact ⟨rfl, rfl, fun data h => by cases h⟩
        | outOfFuel => exact ⟨rfl, rfl, fun data h => by cases h⟩
        | ret res2 =>
          obtain ⟨v, err2⟩ := res2
          cases err2 with
          | some e => cases v <;> exact ⟨rfl, rfl, fun data h => rfl⟩
          | none => cases v <;> exact ⟨rfl, rfl, fun data h => rfl⟩

/-- A `Get` that returns a nil error, on recording packages. -/
theorem Get_recording_ret {τ : Type} (pk : Packages τ) (adaptor : redisAdaptor) (key : String)
    (s s2 : τ) (data : String) (log : List (String × List Value))
    (h : adaptor.Get pk key s = (.ret (data, none), s2)) :
    adaptor.Get (recording pk) key (s, log)
      = (.ret (data, none), (s2, log ++ [("GET", [Value.str key])])) := by
  obtain ⟨h1, h2, h3⟩ := Get_recording pk adaptor key s log
  rw [h] at h1 h2 h3
  exact Prod.ext h1 (Prod.ext h2 (h3 data rfl))

/-- The method `Set` on recording packages: the result and the state are those of `Set`,
and a `Set` that returns nil has given the one command `writeOf key data ttl`. -/
theorem Set_recording {τ : Type} (pk : Packages τ) (adaptor : redisAdaptor) (key data : String)
    (ttl : Int) (s : τ) (log : List (String × List Value)) :
    (adaptor.Set (recording pk) key data ttl (s, log)).1 = (adaptor.Set pk key data ttl s).1 ∧
    (adaptor.Set (recording pk) key data ttl (s, log)).2.1
      = (adaptor.Set pk key data ttl s).2 ∧
    ((adaptor.Set pk key data ttl s).1 = .ret none →
      (adaptor.Set (recording pk) key data ttl (s, log)).2.2
        = log ++ [writeOf key data ttl]) := by
  unfold redisAdaptor.Set recording writeOf
  dsimp only
  rcases hn : pk.NewMcRedis adaptor.config s with ⟨o, s1⟩
  cases o with
  | panic msg => exact ⟨rfl, rfl, fun h => by cases h⟩
  | outOfFuel => exact ⟨rfl, rfl, fun h => by cases h⟩
  | ret res =>
    obtain ⟨r, err⟩ := res
    cases err with
    | some e => exact ⟨rfl, rfl, fun h => by cases h⟩
    | none =>
      obtain ⟨c⟩ := r
      cases c with
      | none =>
        by_cases ht : ttl > 0
        · simp only [ht, if_true]; exact ⟨rfl, rfl, fun h => by cases h⟩
        · simp only [ht, if_false]; exact ⟨rfl, rfl, fun h => by cases h⟩
      | some c =>
        simp only [Outcome.map, Option.map, RedisInstance.Do, loggedCommander]
        by_cases ht : ttl > 0
        · simp only [ht, if_true]
          rcases hd : c.Do "SETEX" [Value.str key, Value.int ttl, Value.bytes data] s1
            with ⟨o2, s2⟩
          cases o2 with
          | panic msg => exact ⟨rfl, rfl, fun h => by cases h⟩
          | outOfFuel => exact ⟨rfl, rfl, fun h => by cases h⟩
          | ret res2 =>
            obtain ⟨v, err2⟩ := res2
            cases err2 <;> exact ⟨rfl, rfl, fun h => rfl⟩
        · simp only [ht, if_false]
          rcases hd : c.Do "SET" [Value.str key, Value.bytes data] s1 with ⟨o2, s2⟩
          cases o2 with
          | panic msg => exact ⟨rfl, rfl, fun h => by cases h⟩
          | outOfFuel => exact ⟨rfl, rfl, fun h => by cases h⟩
          | ret res2 =>
            obtain ⟨v, err2⟩ := res2
            cases err2 <;> exact ⟨rfl, rfl, fun h => rfl⟩

/-- A `Set` that returns nil, on recording packages. -/
theorem Set_recording_ret {τ : Type} (pk : Packages τ) (adaptor : redisAdaptor)
    (key data : String) (ttl : Int) (s s2 : τ) (log : List (String × List Value))
    (h : adaptor.Set pk key data ttl s = (.ret none, s2)) :
    adaptor.Set (recording pk) key data ttl (s, log)
      = (.ret none, (s2, log ++ [writeOf key data ttl])) := by
  obtain ⟨h1, h2, h3⟩ := Set_recording pk adaptor key data ttl s log
  rw [h] at h1 h2 h3
  exact Prod.ext h1 (Prod.ext h2 (h3 rfl))

/-- The loop of `availableUUID` on recording packages, when the generator yields the taken
identifiers `ids` and then the free identifier `u`: it returns `u` after one `GET` for each
identifier. -/
theorem availableUUID_skips {τ : Type} (pk : Packages τ) (adaptor : redisAdaptor)
    (ids : List String) :
    ∀ (s s1 s2 : τ) (u : String) (log : List (String × List Value)) (k : Nat),
    Skipped pk adaptor ids s s1 → (pk.uuidNew s1).1 = u →
    adaptor.Get pk u (pk.uuidNew s1).2 = (.ret ("", none), s2) →
    adaptor.availableUUID (recording pk) (ids.length + 1 + k) (s, log)
      = (.ret (u, none),
          (s2, log ++ (ids ++ [u]).map (fun id => ("GET", [Value.str id])))) := by
  induction ids with
  | nil =>
    intro s s1 s2 u log k hskip hu hget
    have hs : s1 = s := hskip
    subst hs
    have hg := Get_recording_ret pk adaptor u (pk.uuidNew s1).2 s2 "" log hget
    have hfuel : ([] : List String).length + 1 + k = k + 1 := by simp; omega
    rw [hfuel, redisAdaptor.availableUUID]
    have hrec : (recording pk).uuidNew (s1, log) = (u, ((pk.uuidNew s1).2, log)) := by
      rw [← hu]; rfl
    rw [hrec]
    dsimp only
    rw [hg]
    simp
  | cons id ids ih =>
    intro s s1 s2 u log k hskip hu hget
    obtain ⟨data, s3, hid, hg0, hdata, hrest⟩ := hskip
    have hg := Get_recording_ret pk adaptor id (pk.uuidNew s).2 s3 data log hg0
    have hfuel : (id :: ids).length + 1 + k = (ids.length + 1 + k) + 1 := by simp; omega
    rw [hfuel, redisAdaptor.availableUUID]
    have hrec : (recording pk).uuidNew (s, log) = (id, ((pk.uuidNew s).2, log)) := by
      rw [← hid]; rfl
    rw [hrec]
    dsimp only
    rw [hg]
    have hlen : ¬ data.length = 0 := fun h => hdata ((length_eq_zero_iff data).mp h)
    simp only [hlen, if_false]
    rw [ih s3 s1 s2 u _ k hrest hu hget]
    simp [List.append_assoc]

/-- Whenever `availableUUID` returns an identifier with a nil error, the generator has
yielded taken identifiers, fewer than the fuel, and then that identifier, whose `Get`
returned empty data. -/
theorem availableUUID_returns {τ : Type} (pk : Packages τ) (adaptor : redisAdaptor)
    (fuel : Nat) :
    ∀ (s s2 : τ) (u : String),
    adaptor.availableUUID pk fuel s = (.ret (u, none), s2) →
    ∃ ids s1, ids.length < fuel ∧ Skipped pk adaptor ids s s1 ∧ (pk.uuidNew s1).1 = u ∧
      adaptor.Get pk u (pk.uuidNew s1).2 = (.ret ("", none), s2) := by
  induction fuel with
  | zero =>
    intro s s2 u h
    simp [redisAdaptor.availableUUID] at h
  | succ fuel ih =>
    intro s s2 u h
    rw [redisAdaptor.availableUUID] at h
    rcases hg : adaptor.Get pk (pk.uuidNew s).1 (pk.uuidNew s).2 with ⟨o, s3⟩
    rw [hg] at h
    cases o with
    | panic msg => simp at h
    | outOfFuel => simp at h
    | ret res =>
      obtain ⟨data, err⟩ := res
      cases err with
      | some e => simp at h
      | none =>
        dsimp only at h
        by_cases hlen : data.length = 0
        · rw [if_pos hlen] at h
          have hd : data = "" := (length_eq_zero_iff data).mp hlen
          subst hd
          have hu : (pk.uuidNew s).1 = u := by
            have := congrArg Prod.fst h
            simpa using this
          have hs : s3 = s2 := congrArg Prod.snd h
          subst hs
          refine ⟨[], s, Nat.succ_pos _, rfl, hu, ?_⟩
          rw [← hu]
          exact hg
        · rw [if_neg hlen] at h
          obtain ⟨ids, s1, hl, hskip, hu, hget⟩ := ih s3 s2 u h
          refine ⟨(pk.uuidNew s).1 :: ids, s1, by simp; omega, ?_, hu, hget⟩
          exact ⟨data, s3, rfl, hg, fun hd => hlen ((length_eq_zero_iff data).mpr hd), hskip⟩

end Redisadaptor

namespace Redisadaptor

open Mcredis

/-! ## The claim on package redisadaptor -/

/-- C21.  When the generator yields identifiers whose `Get` returns data that is not
empty, then an identifier `u` whose `Get` returns empty data, and the `Set` of `u` returns
nil, `SetWithUUID` (given at least one round of its loop per identifier) returns `u` with a
nil error; the commands it has given are one `GET` for each identifier in turn and then
the single write, `SETEX u ttl data` when `ttl > 0` and `SET u data` otherwise, so the data
is written under `u` only.  And whenever `SetWithUUID` returns a key with a nil error, the
key is such a `u`: the `Get` made for it before the write returned empty data, and every
identifier generated before it had data and was skipped. -/
theorem SetWithUUID_skips_taken_identifiers {τ : Type} (pk : Packages τ)
    (adaptor : redisAdaptor) (data : String) (ttl : Int) :
    (∀ (ids : List String) (s s1 s2 s3 : τ) (u : String) (log : List (String × List Value))
        (k : Nat),
      Skipped pk adaptor ids s s1 → (pk.uuidNew s1).1 = u →
      adaptor.Get pk u (pk.uuidNew s1).2 = (.ret ("", none), s2) →
      adaptor.Set pk u data ttl s2 = (.ret none, s3) →
      adaptor.SetWithUUID (recording pk) (ids.length + 1 + k) data ttl (s, log)
        = (.ret (u, none),
            (s3, log ++ (ids ++ [u]).map (fun id => ("GET", [Value.str id]))
              ++ [writeOf u data ttl]))) ∧
    (∀ (fuel : Nat) (s s3 : τ) (u : String),
      adaptor.SetWithUUID pk fuel data ttl s = (.ret (u, none), s3) →
      ∃ ids s1 s2, ids.length < fuel ∧ Skipped pk adaptor ids s s1 ∧
        (pk.uuidNew s1).1 = u ∧
        adaptor.Get pk u (pk.uuidNew s1).2 = (.ret ("", none), s2) ∧
        adaptor.Set pk u data ttl s2 = (.ret none, s3)) := by
  constructor
  · intro ids s s1 s2 s3 u log k hskip hu hget hset
    unfold redisAdaptor.SetWithUUID
    dsimp only
    rw [availableUUID_skips pk adaptor ids s s1 s2 u log k hskip hu hget]
    dsimp only
    rw [Set_recording_ret pk adaptor u data ttl s2 s3 _ hset]
  · intro fuel s s3 u h
    unfold redisAdaptor.SetWithUUID at h
    dsimp only at h
    rcases ha : adaptor.availableUUID pk fuel s with ⟨o, s2⟩
    rw [ha] at h
    cases o with
    | panic msg => simp at h
    | outOfFuel => simp at h
    | ret res =>
      obtain ⟨id, err⟩ := res
      cases err with
      | some e => simp at h
      | none =>
        dsimp only at h
        rcases he : adaptor.Set pk id data ttl s2 with ⟨o2, s4⟩
        rw [he] at h
        cases o2 with
        | panic msg => simp at h
        | outOfFuel => simp at h
        | ret err2 =>
          dsimp only at h
          have h1 : id = u ∧ err2 = none := by
            have := congrArg Prod.fst h
            simpa using this
          have h2 : s4 = s3 := congrArg Prod.snd h
          obtain ⟨hid, herr⟩ := h1
          subst hid herr h2
          obtain ⟨ids, s1, hl, hskip, hu, hget⟩ := availableUUID_returns pk adaptor fuel s s2 id ha
          exact ⟨ids, s1, s2, hl, hskip, hu, hget, he⟩

/-- C21, on the sentinel client itself, with a store in which the key `taken` holds data
and a generator that yields `taken` first: `SetWithUUID` returns `fresh`, after a `GET` of
each identifier and one `SETEX` of `fresh`. -/
theorem SetWithUUID_skips_taken_identifiers_witness :
    testAdaptor.SetWithUUID
        (recording (sentinelPackages (fakeEnv badGoodDialer storeConnection) 3 testUUID))
        (["taken"].length + 1 + 3) "data" 60 (st0, [])
      = (.ret ("fresh", none),
          ((testAdaptor.Set (sentinelPackages (fakeEnv badGoodDialer storeConnection) 3 testUUID)
              "fresh" "data" 60
              (testAdaptor.Get
                (sentinelPackages (fakeEnv badGoodDialer storeConnection) 3 testUUID) "fresh"
                ((sentinelPackages (fakeEnv badGoodDialer storeConnection) 3 testUUID).uuidNew
                  (testAdaptor.Get
                    (sentinelPackages (fakeEnv badGoodDialer storeConnection) 3 testUUID)
                    "taken"
                    ((sentinelPackages (fakeEnv badGoodDialer storeConnection) 3
                      testUUID).uuidNew st0).2).2).2).2).2,
            [] ++ (["taken"] ++ ["fresh"]).map (fun id => ("GET", [Value.str id]))
              ++ [writeOf "fresh" "data" 60])) ∧
    writeOf "fresh" "data" 60
      = ("SETEX", [Value.str "fresh", Value.int 60, Value.bytes "data"]) :=
  ⟨(SetWithUUID_skips_taken_identifiers
      (sentinelPackages (fakeEnv badGoodDialer storeConnection) 3 testUUID) testAdaptor
      "data" 60).1 ["taken"] st0 _ _ _ "fresh" [] 3
      ⟨"old", _, rfl, rfl, by decide, rfl⟩ rfl rfl rfl,
    by decide⟩

end Redisadaptor
